import Mathlib

/-!
# SettingsStorage: a typed, permission-gated settings registry

A shallow embedding of `Source/SettingsStorage.cpp`.

* A C string (`const char*`) is the list of its bytes before the terminating
  NUL; a pointer that may be null is an `Option`. A list with a NUL byte in it
  is the content of no C string. A `std::string` (a line of the Backing File
  and the fields cut from it) may hold NUL bytes; `c_str` gives the C string
  that a function taking a `const char*` reads from it (for a `std::string`
  made from a key of the store this is the key). Where a theorem reads back
  what a store wrote, the keys and values are taken without a NUL byte.
* `int64_t` values are integers, a `double` is carried as its bit pattern (the
  registry only stores and returns it).
* The member functions are `const` but mutate the store behind the `settings`
  pointer: they are functions from the store to the new store and the result.
* Output parameters are passed in with their previous content and returned
  with their new content; for the output buffer of the string getter the
  result is the sequence of byte stores made through the pointer.
* `MAX_SETTING_KEY_SIZE` is declared in `SettingsStorage.h`; every function
  that uses it takes it as its first argument.
* The Key-Value Store, the Backing File and the checksum are collaborators
  whose code is not among the sources; they are modelled from their contracts.
-/

/-- The bytes of a C string, before its terminating NUL. -/
abbrev CString := List Nat

/-- The bytes of a string literal. -/
def bytes (s : String) : CString := s.toList.map Char.toNat

/-- The C library's `strnlen`: the length of the string, at most `maxlen`. -/
def strnlen (s : CString) (maxlen : Nat) : Nat := min s.length maxlen

/-- The byte stores of the C library's `strncpy(dest, src, n)`, as pairs of an
index into `dest` and the byte stored there: the first `n` bytes of `src`, then
NULs up to `n` stores in all. -/
def strncpy (src : CString) (n : Nat) : List (Nat × Nat) :=
  (List.range n).map (fun i => (i, src.getD i 0))

/-- The content of a buffer after a sequence of byte stores (a store beyond
the cells of the buffer is outside the memory the buffer owns and leaves the
cells as they are). -/
def storeBytes (buffer : List Nat) (stores : List (Nat × Nat)) : List Nat :=
  stores.foldl (fun cells s => cells.set s.1 s.2) buffer

/-- The C library's `strlen` on the cells of a buffer: the number of cells
before the first NUL. -/
def strlenCells (cells : List Nat) : Nat := (cells.takeWhile (fun b => b != 0)).length

/-- The byte stores of the C library's `strncat(dest, src, n)`, where `cells`
are the cells of `dest`: from the end of the string in `dest` on, at most `n`
bytes of `src`, then a NUL. -/
def strncat (cells : List Nat) (src : CString) (n : Nat) : List (Nat × Nat) :=
  (List.range (min n src.length)).map (fun i => (strlenCells cells + i, src.getD i 0)) ++
    [(strlenCells cells + min n src.length, 0)]

/-- A `double`, carried as its 64-bit pattern. -/
structure Double where
  bits : Nat
deriving DecidableEq, Repr

/-! ## Permissions -/

/-- Modelled from the spec: `SettingPermissions_t` is declared in
`SettingsStorage.h`, which is not among the sources. It is a bitmask (one byte,
see the casts of `operator|` and `operator&`) over the four flags SYSTEM, ADMIN,
USER and VOLATILE. -/
abbrev SettingPermissions_t := Nat

namespace SettingPermissions_t

/-- Modelled from the spec: the flag SYSTEM of the missing header, one bit. -/
def SYSTEM : SettingPermissions_t := 1

/-- Modelled from the spec: the flag ADMIN of the missing header, one bit. -/
def ADMIN : SettingPermissions_t := 2

/-- Modelled from the spec: the flag USER of the missing header, one bit. -/
def USER : SettingPermissions_t := 4

/-- Modelled from the spec: the flag VOLATILE of the missing header, one bit. -/
def VOLATILE : SettingPermissions_t := 8

end SettingPermissions_t

/-- Modelled from the spec: `ALL_PERMISSIONS_VOLATILE` of the missing header,
the union of the four defined flags. -/
def ALL_PERMISSIONS_VOLATILE : SettingPermissions_t :=
  SettingPermissions_t.SYSTEM ||| SettingPermissions_t.ADMIN |||
    SettingPermissions_t.USER ||| SettingPermissions_t.VOLATILE

/-- The source's `validatePermissions`. -/
def validatePermissions (permissions : SettingPermissions_t) : Bool :=
  decide (permissions ≤ ALL_PERMISSIONS_VOLATILE)

/-- The source's `settingPermissionToString`. `PERMISSION_STRING_SIZE` is a
constant of the header that is not among the sources. `permissionString` is
null when `none`, else the cells of the caller's buffer. The result is `none`
when the function returns null, else the sequence of byte stores made through
`permissionString`, which the function returns. -/
def settingPermissionToString (PERMISSION_STRING_SIZE : Nat)
    (permission : SettingPermissions_t) (permissionString : Option (List Nat))
    (permissionStringSize : Nat) : Option (List (Nat × Nat)) :=
  match permissionString with
  | none => none
  | some cells =>
    if permissionStringSize < PERMISSION_STRING_SIZE ∨ validatePermissions permission = false
    then none
    else
      let stores1 :=
        if permission &&& SettingPermissions_t.SYSTEM ≠ 0 then
          strncpy (bytes "SYSTEM | ") permissionStringSize
        else strncpy (bytes "       | ") permissionStringSize
      let cells1 := storeBytes cells stores1
      let stores2 :=
        if permission &&& SettingPermissions_t.ADMIN ≠ 0 then
          strncat cells1 (bytes "ADMIN | ") permissionStringSize
        else strncat cells1 (bytes "      | ") permissionStringSize
      let cells2 := storeBytes cells1 stores2
      let stores3 :=
        if permission &&& SettingPermissions_t.USER ≠ 0 then
          strncat cells2 (bytes "USER | ") permissionStringSize
        else strncat cells2 (bytes "     | ") permissionStringSize
      let cells3 := storeBytes cells2 stores3
      let stores4 :=
        if permission &&& SettingPermissions_t.VOLATILE ≠ 0 then
          strncat cells3 (bytes "VOLATILE") permissionStringSize
        else strncat cells3 (bytes "        ") permissionStringSize
      some (stores1 ++ stores2 ++ stores3 ++ stores4)

/-! ## The value model -/

/-- The enum `SettingValueType_t` (its header is not among the sources; the
three enumerators are the ones the source switches over). -/
inductive SettingValueType_t where
  | REAL
  | INTEGER
  | STRING
deriving DecidableEq, Repr

namespace SettingValueType_t

/-- Modelled from the spec: the numeric value of an enumerator, which the
missing header fixes; the spec's wire format has 0 = Integer, 1 = Real,
2 = String. -/
def code : SettingValueType_t → Nat
  | INTEGER => 0
  | REAL => 1
  | STRING => 2

/-- The enumerator with a given numeric value. -/
def ofCode (n : Nat) : Option SettingValueType_t :=
  if n = INTEGER.code then some INTEGER
  else if n = REAL.code then some REAL
  else if n = STRING.code then some STRING
  else none

end SettingValueType_t

/-- Modelled from the spec: `MAX_SETTING_VALUE_TYPE_ENUM` of the missing
header, the bound of the type codes (`[0, MAX_TYPE)` with three types). -/
def MAX_SETTING_VALUE_TYPE_ENUM : Nat := 3

/-- The union `SettingValueData_t`: the member last written. -/
inductive SettingValueData_t where
  | real (v : Double)
  | integer (v : Int)
  | string (v : CString)
deriving DecidableEq, Repr

namespace SettingValueData_t

/-- Reading the member `integer` (meaningful when it is the one last written). -/
def getInteger : SettingValueData_t → Int
  | integer v => v
  | _ => 0

/-- Reading the member `real` (meaningful when it is the one last written). -/
def getReal : SettingValueData_t → Double
  | real v => v
  | _ => ⟨0⟩

/-- Reading the member `string` (meaningful when it is the one last written). -/
def getString : SettingValueData_t → CString
  | string v => v
  | _ => []

/-- The member last written is the one `t` names. -/
def hasType : SettingValueData_t → SettingValueType_t → Bool
  | real _, .REAL => true
  | integer _, .INTEGER => true
  | string _, .STRING => true
  | _, _ => false

end SettingValueData_t

/-- The struct `SettingValue_t`: one entry of the registry. -/
structure SettingValue_t where
  settingPermissions : SettingPermissions_t
  settingValueType : SettingValueType_t
  settingValueData : SettingValueData_t
  settingDefaultValueData : SettingValueData_t
deriving DecidableEq, Repr

/-- The results of the public operations (`SettingError_t`). -/
inductive SettingError_t where
  | NO_ERROR
  | INVALID_INPUT_ERROR
  | KEY_NOT_FOUND_ERROR
  | KEY_EXISTS_ERROR
  | TYPE_MISMATCH_ERROR
  | INSUFFICIENT_BUFFER_SIZE_ERROR
  | SETTINGS_FILESYSTEM_ERROR
deriving DecidableEq, Repr

/-- Which of the two values of an entry a getter reads (`TypeofSettingValue`). -/
inductive TypeofSettingValue where
  | Value
  | DefaultValue
deriving DecidableEq, Repr

/-! ## The Key-Value Store -/

/-- Looking a key up in a list of entries. -/
def lookupEntry (k : CString) : List (CString × SettingValue_t) → Option SettingValue_t
  | [] => none
  | (k', v) :: rest => if k' = k then some v else lookupEntry k rest

/-- Placing a new entry at its position in the order of the keys. -/
def insertEntry (k : CString) (v : SettingValue_t) :
    List (CString × SettingValue_t) → List (CString × SettingValue_t)
  | [] => [(k, v)]
  | (k', v') :: rest =>
    if k < k' then (k, v) :: (k', v') :: rest else (k', v') :: insertEntry k v rest

/-- Writing through the pointer that a lookup of `k` returned: the entry found
gets the value `v`. -/
def replaceEntry (k : CString) (v : SettingValue_t) :
    List (CString × SettingValue_t) → List (CString × SettingValue_t)
  | [] => []
  | (k', v') :: rest =>
    if k' = k then (k', v) :: rest else (k', v') :: replaceEntry k v rest

/-- Visiting the entries in order with a callback that threads its data: the
visit stops at the first status that is not `success` and returns it. -/
def visitEntries {δ ρ : Type} [DecidableEq ρ] (success : ρ)
    (callback : δ → CString → SettingValue_t → δ × ρ) :
    δ → List (CString × SettingValue_t) → δ × ρ
  | data, [] => (data, success)
  | data, (k, v) :: rest =>
    let r := callback data k v
    if r.2 = success then visitEntries success callback r.1 rest else r

/-- Modelled from the spec: the Key-Value Store `Settings_t`, a container that
is not among the sources. The spec gives its contract: a prefix-ordered map
from key to entry with `search(key) -> entry|absent`,
`insertIfAbsent(key, entry) -> previous-or-null`, `visitAll(visitor)` and
`visitPrefix(prefix, visitor)`, where the visitor returns a status that the
enumeration propagates to its caller. It is modelled as the list of its
entries in enumeration order (the order of the keys, byte by byte). -/
structure Settings_t where
  entries : List (CString × SettingValue_t)
deriving DecidableEq, Repr

namespace Settings_t

/-- Modelled from the spec: `search(key, key_len)`, the entry stored under the
first `key_len` bytes of `key`, or null. -/
def search (t : Settings_t) (key : CString) (keyLen : Nat) : Option SettingValue_t :=
  lookupEntry (key.take keyLen) t.entries

/-- Modelled from the spec: `insertIfNotExists(key, key_len, value)`: when the
key is present the store is unchanged and the entry found is returned, else
the value is inserted and null is returned. -/
def insertIfNotExists (t : Settings_t) (key : CString) (keyLen : Nat)
    (value : SettingValue_t) : Settings_t × Option SettingValue_t :=
  match t.search key keyLen with
  | some old => (t, some old)
  | none => (⟨insertEntry (key.take keyLen) value t.entries⟩, none)

/-- Writing through the pointer returned by `search(key, key_len)`. -/
def assign (t : Settings_t) (key : CString) (keyLen : Nat) (value : SettingValue_t) :
    Settings_t :=
  ⟨replaceEntry (key.take keyLen) value t.entries⟩

/-- Modelled from the spec: `iterateOverAll(callback, data)`, which visits every
entry in enumeration order and propagates the callback's status. -/
def iterateOverAll {δ ρ : Type} [DecidableEq ρ] (t : Settings_t) (success : ρ)
    (callback : δ → CString → SettingValue_t → δ × ρ) (data : δ) : δ × ρ :=
  visitEntries success callback data t.entries

/-- The entries under the first `prefixLen` bytes of `keyPrefix`, in
enumeration order. -/
def entriesUnder (t : Settings_t) (keyPrefix : CString) (prefixLen : Nat) :
    List (CString × SettingValue_t) :=
  t.entries.filter (fun e => (keyPrefix.take prefixLen).isPrefixOf e.1)

/-- Modelled from the spec: `iterateOverPrefix(prefix, prefix_len, callback,
data)`, which visits every entry under the prefix in enumeration order and
propagates the callback's status. -/
def iterateOverPrefix {δ ρ : Type} [DecidableEq ρ] (t : Settings_t) (keyPrefix : CString)
    (prefixLen : Nat) (success : ρ)
    (callback : δ → CString → SettingValue_t → δ × ρ) (data : δ) : δ × ρ :=
  visitEntries success callback data (t.entriesUnder keyPrefix prefixLen)

end Settings_t

/-- The enum `SettingPermissionsFilterMode_t`: the four policies the source
switches over; `Unlisted raw` is any other value of the enum's underlying
type. -/
inductive SettingPermissionsFilterMode_t where
  | MatchSettingsWithAnyPermissionsListed
  | MatchSettingsWithAllPermissionsListed
  | ExcludeSettingsWithAllPermissionsListed
  | ExcludeSettingsWithAnyPermissionsListed
  | Unlisted (raw : Nat)
deriving DecidableEq, Repr

/-- The list of keys that `listSettingsKeys` fills (`SettingsKeysList_t`). -/
abbrev SettingsKeysList_t := List CString

/-! ## The C and C++ library functions of the persistence path -/

/-- The C library's `isspace` in the C locale. -/
def isspace (b : Nat) : Bool := b = 32 || (9 ≤ b && b ≤ 13)

/-- The C library's `isdigit`. -/
def isdigit (b : Nat) : Bool := 48 ≤ b && b ≤ 57

/-- The number a run of decimal digits denotes. -/
def digitsValue (ds : List Nat) : Nat := ds.foldl (fun acc d => 10 * acc + (d - 48)) 0

/-- The C library's `strtol` family in base 10 for a type of range `lo..hi`:
white space is skipped, then an optional sign and the longest run of digits
are read; the result is the number, clamped to the range, and the text that
`end` points at. With no digit there is no conversion: the result is 0 and
`end` is the start of the text. -/
def strtoInteger (lo hi : Int) (s : CString) : Int × CString :=
  let t := s.dropWhile isspace
  let signed : Bool × CString :=
    match t with
    | 45 :: u => (true, u)
    | 43 :: u => (false, u)
    | u => (false, u)
  let ds := signed.2.takeWhile isdigit
  if ds = [] then (0, s)
  else
    let v : Int := if signed.1 then -(digitsValue ds : Int) else (digitsValue ds : Int)
    (max lo (min hi v), signed.2.dropWhile isdigit)

/-- The C library's `strtoll` in base 10 (`long long` has 64 bits). -/
def strtoll (s : CString) : Int × CString :=
  strtoInteger (-(2 : Int) ^ 63) ((2 : Int) ^ 63 - 1) s

/-- The C library's `strtol` in base 10 where `long` has `LONG_BITS` bits. -/
def strtol (LONG_BITS : Nat) (s : CString) : Int × CString :=
  strtoInteger (-(2 : Int) ^ (LONG_BITS - 1)) ((2 : Int) ^ (LONG_BITS - 1) - 1) s

/-- The decimal digits of a number, most significant first, before `acc`. -/
def decimalDigits : Nat → Nat → List Nat → List Nat
  | 0, _, acc => acc
  | fuel + 1, n, acc =>
    if n < 10 then (48 + n) :: acc else decimalDigits fuel (n / 10) ((48 + n % 10) :: acc)

/-- The text of `std::format("{}", n)` for an unsigned number. -/
def formatNat (n : Nat) : CString := decimalDigits (n + 1) n []

/-- The text of `std::format("{}", n)` for a signed number. -/
def formatInt (n : Int) : CString :=
  if n < 0 then 45 :: formatNat n.natAbs else formatNat n.natAbs

/-- The C++ library's `std::getline(stream, str, delim)` on the text left in
the stream: the bytes before the first delimiter, and the text left after the
delimiter. -/
def getline (s : CString) (delim : Nat) : CString × CString :=
  (s.takeWhile (fun b => b != delim), (s.dropWhile (fun b => b != delim)).drop 1)

/-- The C string that `std::string::c_str()` hands to a function taking a
`const char*` (which reads up to the terminating NUL): the bytes of the string
before its first NUL byte. -/
def c_str (s : CString) : CString := s.takeWhile (fun b => b != 0)

/-- What the build target fixes and the source takes from its libraries: the
width of `long`, and the two conversions of a `double` (`std::format` with
`max_digits10` significant digits, and `strtod` with the text `end` points
at). -/
structure Target where
  LONG_BITS : Nat
  formatDouble : Double → CString
  strtod : CString → Double × CString

/-! ## The checksum -/

/-- One bit of the reflected CRC-32 division. -/
def crcShift (c : Nat) : Nat := if c % 2 = 1 then (c / 2) ^^^ 0xEDB88320 else c / 2

/-- One byte of the reflected CRC-32 division. -/
def crcByte (remainder b : Nat) : Nat :=
  crcShift (crcShift (crcShift (crcShift (crcShift (crcShift (crcShift (crcShift
    (remainder ^^^ (b % 256)))))))))

/-- Modelled from the spec: the checksum, "a standard 32-bit CRC ...
accumulated incrementally", of a library that is not among the sources
(`CRC::Calculate` with the parameters `CRC::CRC_32()`). With no previous
checksum the division starts from the initial remainder; with one it goes on
from the remainder that checksum was finalised from. -/
def CRC.Calculate (data : List Nat) (crc : Option Nat) : Nat :=
  match crc with
  | none => data.foldl crcByte 0xFFFFFFFF ^^^ 0xFFFFFFFF
  | some previous => data.foldl crcByte (previous ^^^ 0xFFFFFFFF) ^^^ 0xFFFFFFFF

/-! ## The Backing File -/

/-- The results of the Backing File's operations (`SettingsFileResult`). -/
inductive SettingsFileResult where
  | Success
  | EndOfFile
  | InvalidState
  | IOError
deriving DecidableEq, Repr

/-- The lines of a file's content, each with its terminating LF (the last one
may have none). -/
def splitLines : List Nat → List CString
  | [] => []
  | b :: rest =>
    if b = 10 then [b] :: splitLines rest
    else
      match splitLines rest with
      | [] => [[b]]
      | l :: ls => (b :: l) :: ls

/-- Modelled from the spec: the Backing File `SettingsFile`, an interface whose
implementations are not among the sources. The spec gives its contract:
`openForRead()/openForWrite()/close()`, `write(bytes)` and
`readLine() -> line | EndOfFile | error`, each returning a result. It is
modelled as the bytes of the file, the lines still to be read, and a script
of results, one for each call to come: a call whose entry is not `Success`
fails with that result and does nothing else; when the script is used up
every call succeeds. -/
structure SettingsFile where
  content : List Nat
  unread : List CString
  script : List SettingsFileResult
deriving DecidableEq, Repr

/-- The result the script gives the next call, and the script left. -/
def nextResult : List SettingsFileResult → SettingsFileResult × List SettingsFileResult
  | [] => (.Success, [])
  | r :: rs => (r, rs)

namespace SettingsFile

/-- Modelled from the spec: `openForRead()`; reading starts at the first line. -/
def openForRead (f : SettingsFile) : SettingsFileResult × SettingsFile :=
  match nextResult f.script with
  | (.Success, rs) => (.Success, { f with unread := splitLines f.content, script := rs })
  | (r, rs) => (r, { f with script := rs })

/-- Modelled from the spec: `openForWrite()`; writing starts from an empty file. -/
def openForWrite (f : SettingsFile) : SettingsFileResult × SettingsFile :=
  match nextResult f.script with
  | (.Success, rs) => (.Success, { f with content := [], unread := [], script := rs })
  | (r, rs) => (r, { f with script := rs })

/-- Modelled from the spec: `close()`. -/
def close (f : SettingsFile) : SettingsFileResult × SettingsFile :=
  ((nextResult f.script).1, { f with script := (nextResult f.script).2 })

/-- Modelled from the spec: `write(bytes)`, which appends the bytes. -/
def write (f : SettingsFile) (data : List Nat) : SettingsFileResult × SettingsFile :=
  match nextResult f.script with
  | (.Success, rs) => (.Success, { f with content := f.content ++ data, script := rs })
  | (r, rs) => (r, { f with script := rs })

end SettingsFile

/-- An entry whose current and default values are both of the entry's type. -/
def SettingValue_t.WellTyped (e : SettingValue_t) : Prop :=
  e.settingValueData.hasType e.settingValueType = true ∧
    e.settingDefaultValueData.hasType e.settingValueType = true

instance (e : SettingValue_t) : Decidable e.WellTyped := by
  unfold SettingValue_t.WellTyped; infer_instance

/-- The states of the store that registrations produce: the keys are distinct,
not empty and of at most `MAX_SETTING_KEY_SIZE` bytes, and every entry is
well typed. -/
def Settings_t.WellFormed (MAX_SETTING_KEY_SIZE : Nat) (t : Settings_t) : Prop :=
  (t.entries.map Prod.fst).Nodup ∧
    ∀ e ∈ t.entries, e.1 ≠ [] ∧ e.1.length ≤ MAX_SETTING_KEY_SIZE ∧ e.2.WellTyped

instance (MAX_SETTING_KEY_SIZE : Nat) (t : Settings_t) :
    Decidable (t.WellFormed MAX_SETTING_KEY_SIZE) := by
  unfold Settings_t.WellFormed; infer_instance

/-- Every key of `s` is still a key of `s'`, with an entry of the same type,
default value and permissions: between the two stores only current values
changed and entries were added. -/
def Settings_t.EntriesKept (s s' : Settings_t) : Prop :=
  ∀ k e, lookupEntry k s.entries = some e →
    ∃ e', lookupEntry k s'.entries = some e' ∧
      e'.settingValueType = e.settingValueType ∧
      e'.settingDefaultValueData = e.settingDefaultValueData ∧
      e'.settingPermissions = e.settingPermissions

/-- The key under which the store files `key`: its first `MAX_SETTING_KEY_SIZE`
bytes (every operation passes the store the key with the length
`strnlen(key, MAX_SETTING_KEY_SIZE)`). A key of at most `MAX_SETTING_KEY_SIZE`
bytes is filed under itself. -/
def storedKey (MAX_SETTING_KEY_SIZE : Nat) (key : CString) : CString :=
  key.take (strnlen key MAX_SETTING_KEY_SIZE)

/-- The entry the store holds for `key`, if any. -/
def Settings_t.entryOf (MAX_SETTING_KEY_SIZE : Nat) (t : Settings_t) (key : CString) :
    Option SettingValue_t :=
  t.search key (strnlen key MAX_SETTING_KEY_SIZE)

/-! ## The registry -/

namespace SettingsStorage

open SettingError_t SettingValueType_t

/-- The source's `getSettingValue`: the result and the entry found (the
pointer `outputValue`). -/
def getSettingValue (MAX_SETTING_KEY_SIZE : Nat) (settings : Settings_t)
    (key : Option CString) : SettingError_t × Option SettingValue_t :=
  match key with
  | none => (INVALID_INPUT_ERROR, none)
  | some [] => (INVALID_INPUT_ERROR, none)
  | some (c :: cs) =>
    match settings.search (c :: cs) (strnlen (c :: cs) MAX_SETTING_KEY_SIZE) with
    | none => (KEY_NOT_FOUND_ERROR, none)
    | some value => (NO_ERROR, some value)

/-- The source's `registerSettingAsInt`. -/
def registerSettingAsInt (MAX_SETTING_KEY_SIZE : Nat) (settings : Settings_t)
    (key : Option CString) (permissions : SettingPermissions_t) (defaultValue : Int) :
    Settings_t × SettingError_t :=
  match key with
  | none => (settings, INVALID_INPUT_ERROR)
  | some [] => (settings, INVALID_INPUT_ERROR)
  | some (c :: cs) =>
    if !validatePermissions permissions then (settings, INVALID_INPUT_ERROR)
    else
      let newValue : SettingValue_t :=
        { settingPermissions := permissions
          settingValueType := INTEGER
          settingValueData := .integer defaultValue
          settingDefaultValueData := .integer defaultValue }
      match settings.insertIfNotExists (c :: cs) (strnlen (c :: cs) MAX_SETTING_KEY_SIZE)
          newValue with
      | (_, some _) => (settings, KEY_EXISTS_ERROR)
      | (settings', none) => (settings', NO_ERROR)

/-- The source's `getSettingValueAsInt`; `outputValue` and `outputPermissions`
(null when `none`) come in with their previous content. -/
def getSettingValueAsInt (MAX_SETTING_KEY_SIZE : Nat) (settings : Settings_t)
    (type : TypeofSettingValue) (key : Option CString) (outputValue : Int)
    (outputPermissions : Option SettingPermissions_t) :
    SettingError_t × Int × Option SettingPermissions_t :=
  match getSettingValue MAX_SETTING_KEY_SIZE settings key with
  | (NO_ERROR, some value) =>
    if value.settingValueType ≠ INTEGER then
      (TYPE_MISMATCH_ERROR, outputValue, outputPermissions)
    else
      (NO_ERROR,
        if type = .DefaultValue then value.settingDefaultValueData.getInteger
        else value.settingValueData.getInteger,
        outputPermissions.map (fun _ => value.settingPermissions))
  | (result, _) => (result, outputValue, outputPermissions)

/-- The source's `getSettingAsInt`. -/
def getSettingAsInt (MAX_SETTING_KEY_SIZE : Nat) (settings : Settings_t)
    (key : Option CString) (outputValue : Int)
    (outputPermissions : Option SettingPermissions_t) :
    SettingError_t × Int × Option SettingPermissions_t :=
  getSettingValueAsInt MAX_SETTING_KEY_SIZE settings .Value key outputValue outputPermissions

/-- The source's `getDefaultSettingAsInt`. -/
def getDefaultSettingAsInt (MAX_SETTING_KEY_SIZE : Nat) (settings : Settings_t)
    (key : Option CString) (outputValue : Int)
    (outputPermissions : Option SettingPermissions_t) :
    SettingError_t × Int × Option SettingPermissions_t :=
  getSettingValueAsInt MAX_SETTING_KEY_SIZE settings .DefaultValue key outputValue
    outputPermissions

/-- The source's `registerSettingAsReal`. -/
def registerSettingAsReal (MAX_SETTING_KEY_SIZE : Nat) (settings : Settings_t)
    (key : Option CString) (permissions : SettingPermissions_t) (defaultValue : Double) :
    Settings_t × SettingError_t :=
  match key with
  | none => (settings, INVALID_INPUT_ERROR)
  | some [] => (settings, INVALID_INPUT_ERROR)
  | some (c :: cs) =>
    if !validatePermissions permissions then (settings, INVALID_INPUT_ERROR)
    else
      let newValue : SettingValue_t :=
        { settingPermissions := permissions
          settingValueType := REAL
          settingValueData := .real defaultValue
          settingDefaultValueData := .real defaultValue }
      match settings.insertIfNotExists (c :: cs) (strnlen (c :: cs) MAX_SETTING_KEY_SIZE)
          newValue with
      | (_, some _) => (settings, KEY_EXISTS_ERROR)
      | (settings', none) => (settings', NO_ERROR)

/-- The source's `registerSettingAsString`; `strdup` copies the bytes. -/
def registerSettingAsString (MAX_SETTING_KEY_SIZE : Nat) (settings : Settings_t)
    (key : Option CString) (permissions : SettingPermissions_t)
    (defaultValue : Option CString) : Settings_t × SettingError_t :=
  match key, defaultValue with
  | none, _ => (settings, INVALID_INPUT_ERROR)
  | some [], _ => (settings, INVALID_INPUT_ERROR)
  | some (c :: cs), defaultValue =>
    if !validatePermissions permissions then (settings, INVALID_INPUT_ERROR)
    else
      match defaultValue with
      | none => (settings, INVALID_INPUT_ERROR)
      | some str =>
        let newValue : SettingValue_t :=
          { settingPermissions := permissions
            settingValueType := STRING
            settingValueData := .string str
            settingDefaultValueData := .string str }
        match settings.insertIfNotExists (c :: cs) (strnlen (c :: cs) MAX_SETTING_KEY_SIZE)
            newValue with
        | (_, some _) => (settings, KEY_EXISTS_ERROR)
        | (settings', none) => (settings', NO_ERROR)

/-- A write through the pointer `outputValue` that `getSettingValue` returned
for `key`. -/
def writeThrough (MAX_SETTING_KEY_SIZE : Nat) (settings : Settings_t)
    (key : Option CString) (value : SettingValue_t) : Settings_t :=
  match key with
  | none => settings
  | some k => settings.assign k (strnlen k MAX_SETTING_KEY_SIZE) value

/-- The source's `putSettingValueAsInt`. -/
def putSettingValueAsInt (MAX_SETTING_KEY_SIZE : Nat) (settings : Settings_t)
    (key : Option CString) (value : Int) : Settings_t × SettingError_t :=
  match getSettingValue MAX_SETTING_KEY_SIZE settings key with
  | (NO_ERROR, some outputValue) =>
    if outputValue.settingValueType ≠ INTEGER then (settings, TYPE_MISMATCH_ERROR)
    else
      (writeThrough MAX_SETTING_KEY_SIZE settings key
        { outputValue with settingValueData := .integer value }, NO_ERROR)
  | (result, _) => (settings, result)

/-- The source's `putSettingValueAsReal`. -/
def putSettingValueAsReal (MAX_SETTING_KEY_SIZE : Nat) (settings : Settings_t)
    (key : Option CString) (value : Double) : Settings_t × SettingError_t :=
  match getSettingValue MAX_SETTING_KEY_SIZE settings key with
  | (NO_ERROR, some outputValue) =>
    if outputValue.settingValueType ≠ REAL then (settings, TYPE_MISMATCH_ERROR)
    else
      (writeThrough MAX_SETTING_KEY_SIZE settings key
        { outputValue with settingValueData := .real value }, NO_ERROR)
  | (result, _) => (settings, result)

/-- The source's `putSettingValueAsString`; the previous buffer is freed and
`strdup` copies the bytes. -/
def putSettingValueAsString (MAX_SETTING_KEY_SIZE : Nat) (settings : Settings_t)
    (key : Option CString) (value : Option CString) : Settings_t × SettingError_t :=
  match value with
  | none => (settings, INVALID_INPUT_ERROR)
  | some str =>
    match getSettingValue MAX_SETTING_KEY_SIZE settings key with
    | (NO_ERROR, some outputValue) =>
      if outputValue.settingValueType ≠ STRING then (settings, TYPE_MISMATCH_ERROR)
      else
        (writeThrough MAX_SETTING_KEY_SIZE settings key
          { outputValue with settingValueData := .string str }, NO_ERROR)
    | (result, _) => (settings, result)

/-- The source's `getSettingValueAsReal`. -/
def getSettingValueAsReal (MAX_SETTING_KEY_SIZE : Nat) (settings : Settings_t)
    (type : TypeofSettingValue) (key : Option CString) (outputValue : Double)
    (outputPermissions : Option SettingPermissions_t) :
    SettingError_t × Double × Option SettingPermissions_t :=
  match getSettingValue MAX_SETTING_KEY_SIZE settings key with
  | (NO_ERROR, some value) =>
    if value.settingValueType ≠ REAL then
      (TYPE_MISMATCH_ERROR, outputValue, outputPermissions)
    else
      (NO_ERROR,
        if type = .DefaultValue then value.settingDefaultValueData.getReal
        else value.settingValueData.getReal,
        outputPermissions.map (fun _ => value.settingPermissions))
  | (result, _) => (result, outputValue, outputPermissions)

/-- The source's `getSettingAsReal`. -/
def getSettingAsReal (MAX_SETTING_KEY_SIZE : Nat) (settings : Settings_t)
    (key : Option CString) (outputValue : Double)
    (outputPermissions : Option SettingPermissions_t) :
    SettingError_t × Double × Option SettingPermissions_t :=
  getSettingValueAsReal MAX_SETTING_KEY_SIZE settings .Value key outputValue outputPermissions

/-- The source's `getDefaultSettingAsReal`. -/
def getDefaultSettingAsReal (MAX_SETTING_KEY_SIZE : Nat) (settings : Settings_t)
    (key : Option CString) (outputValue : Double)
    (outputPermissions : Option SettingPermissions_t) :
    SettingError_t × Double × Option SettingPermissions_t :=
  getSettingValueAsReal MAX_SETTING_KEY_SIZE settings .DefaultValue key outputValue
    outputPermissions

/-- The source's `getSettingValueAsString`. `outputValueBuffer` is null when
`none`, else the cells of the caller's buffer. The second component of the
result is the sequence of byte stores made through `outputValueBuffer`, as
pairs of index and byte. -/
def getSettingValueAsString (MAX_SETTING_KEY_SIZE : Nat) (settings : Settings_t)
    (type : TypeofSettingValue) (key : Option CString)
    (outputValueBuffer : Option (List Nat)) (outputValueSize : Nat)
    (outputPermissions : Option SettingPermissions_t) :
    SettingError_t × List (Nat × Nat) × Option SettingPermissions_t :=
  match outputValueBuffer with
  | none => (INVALID_INPUT_ERROR, [], outputPermissions)
  | some _ =>
    match getSettingValue MAX_SETTING_KEY_SIZE settings key with
    | (NO_ERROR, some value) =>
      if value.settingValueType ≠ STRING then
        (TYPE_MISMATCH_ERROR, [], outputPermissions)
      else
        let outputValue : CString :=
          if type = .DefaultValue then value.settingDefaultValueData.getString
          else value.settingValueData.getString
        if outputValue.length ≥ outputValueSize then
          (INSUFFICIENT_BUFFER_SIZE_ERROR, [], outputPermissions)
        else
          (NO_ERROR, strncpy outputValue outputValueSize ++ [(outputValueSize, 0)],
            outputPermissions.map (fun _ => value.settingPermissions))
    | (result, _) => (result, [], outputPermissions)

/-- The source's `getSettingAsString`. -/
def getSettingAsString (MAX_SETTING_KEY_SIZE : Nat) (settings : Settings_t)
    (key : Option CString) (outputValueBuffer : Option (List Nat)) (outputValueSize : Nat)
    (outputPermissions : Option SettingPermissions_t) :
    SettingError_t × List (Nat × Nat) × Option SettingPermissions_t :=
  getSettingValueAsString MAX_SETTING_KEY_SIZE settings .Value key outputValueBuffer
    outputValueSize outputPermissions

/-- The source's `getDefaultSettingAsString`. -/
def getDefaultSettingAsString (MAX_SETTING_KEY_SIZE : Nat) (settings : Settings_t)
    (key : Option CString) (outputValueBuffer : Option (List Nat)) (outputValueSize : Nat)
    (outputPermissions : Option SettingPermissions_t) :
    SettingError_t × List (Nat × Nat) × Option SettingPermissions_t :=
  getSettingValueAsString MAX_SETTING_KEY_SIZE settings .DefaultValue key outputValueBuffer
    outputValueSize outputPermissions

/-- The source's `listSettingsKeysCallback`; `permissions` and `filterMode` are
the first two components of the callback data, `outputKeys` the list behind
the third. -/
def listSettingsKeysCallback (permissions : SettingPermissions_t)
    (filterMode : SettingPermissionsFilterMode_t) (outputKeys : SettingsKeysList_t)
    (key : CString) (settingValue : SettingValue_t) : SettingsKeysList_t × SettingError_t :=
  match filterMode with
  | .MatchSettingsWithAnyPermissionsListed =>
    (if settingValue.settingPermissions &&& permissions > 0 then outputKeys ++ [key]
      else outputKeys, NO_ERROR)
  | .MatchSettingsWithAllPermissionsListed =>
    (if settingValue.settingPermissions = permissions then outputKeys ++ [key]
      else outputKeys, NO_ERROR)
  | .ExcludeSettingsWithAllPermissionsListed =>
    (if settingValue.settingPermissions ≠ permissions then outputKeys ++ [key]
      else outputKeys, NO_ERROR)
  | .ExcludeSettingsWithAnyPermissionsListed =>
    (if settingValue.settingPermissions &&& permissions = 0 then outputKeys ++ [key]
      else outputKeys, NO_ERROR)
  | .Unlisted _ => (outputKeys, INVALID_INPUT_ERROR)

/-- The source's `listSettingsKeys`. -/
def listSettingsKeys (MAX_SETTING_KEY_SIZE : Nat) (settings : Settings_t)
    (keyPrefix : Option CString) (permissions : SettingPermissions_t)
    (filterMode : SettingPermissionsFilterMode_t) (outputKeys : SettingsKeysList_t) :
    SettingsKeysList_t × SettingError_t :=
  match keyPrefix with
  | none => (outputKeys, INVALID_INPUT_ERROR)
  | some pre =>
    if !validatePermissions permissions then (outputKeys, INVALID_INPUT_ERROR)
    else
      settings.iterateOverPrefix pre (strnlen pre MAX_SETTING_KEY_SIZE) NO_ERROR
        (listSettingsKeysCallback permissions filterMode) outputKeys

/-- The body of the loop of `restoreDefaultSettings` on one entry: the default
value becomes the current one (`strdup` of the default string for a STRING). -/
def restoreValue (outputValue : SettingValue_t) : SettingValue_t :=
  if outputValue.settingValueType = STRING then
    { outputValue with
      settingValueData := .string outputValue.settingDefaultValueData.getString }
  else
    { outputValue with settingValueData := outputValue.settingDefaultValueData }

/-- The loop of `restoreDefaultSettings` over the listed keys. -/
def restoreDefaultSettingsLoop (MAX_SETTING_KEY_SIZE : Nat) :
    Settings_t → SettingsKeysList_t → Settings_t × SettingError_t
  | settings, [] => (settings, NO_ERROR)
  | settings, key :: rest =>
    match getSettingValue MAX_SETTING_KEY_SIZE settings (some key) with
    | (NO_ERROR, some outputValue) =>
      restoreDefaultSettingsLoop MAX_SETTING_KEY_SIZE
        (writeThrough MAX_SETTING_KEY_SIZE settings (some key) (restoreValue outputValue)) rest
    | (result, _) => (settings, result)

/-- The source's `restoreDefaultSettings`. -/
def restoreDefaultSettings (MAX_SETTING_KEY_SIZE : Nat) (settings : Settings_t)
    (keyPrefix : Option CString) (permissions : SettingPermissions_t)
    (filterMode : SettingPermissionsFilterMode_t) : Settings_t × SettingError_t :=
  match keyPrefix with
  | none => (settings, INVALID_INPUT_ERROR)
  | some pre =>
    match listSettingsKeys MAX_SETTING_KEY_SIZE settings (some pre) permissions filterMode [] with
    | (outputKeys, NO_ERROR) =>
      restoreDefaultSettingsLoop MAX_SETTING_KEY_SIZE settings outputKeys
    | (_, result) => (settings, result)

/-- The source's `storeSettingsInPersistentStorageCallback`; the callback data
are the file, the checksum behind `settingsCRC32` and the flag behind
`firstSetting`. The key is written as a C string. -/
def storeSettingsInPersistentStorageCallback (target : Target)
    (data : SettingsFile × Nat × Bool) (key : CString) (settingValue : SettingValue_t) :
    (SettingsFile × Nat × Bool) × SettingsFileResult :=
  if settingValue.settingPermissions &&& SettingPermissions_t.VOLATILE ≠ 0 then
    (data, .Success)
  else
    let crcKey :=
      if data.2.2 then CRC.Calculate key none else CRC.Calculate key (some data.2.1)
    match data.1.write key with
    | (.Success, f1) =>
      let typeString : CString := [9] ++ formatNat settingValue.settingValueType.code ++ [9]
      let crcType := CRC.Calculate typeString (some crcKey)
      match f1.write typeString with
      | (.Success, f2) =>
        let formattedString : CString :=
          match settingValue.settingValueType with
          | REAL => target.formatDouble settingValue.settingValueData.getReal ++ [10]
          | INTEGER => formatInt settingValue.settingValueData.getInteger ++ [10]
          | STRING => settingValue.settingValueData.getString ++ [10]
        (((f2.write formattedString).2, CRC.Calculate formattedString (some crcType), false),
          (f2.write formattedString).1)
      | (res, f2) => ((f2, crcType, false), res)
    | (res, f1) => ((f1, crcKey, false), res)

/-- The source's `storeSettingsInPersistentStorage`. The local `crc32` is
declared without an initial value: `crc32` is the content it happens to have. -/
def storeSettingsInPersistentStorage (target : Target) (settings : Settings_t)
    (settingsFile : SettingsFile) (crc32 : Nat) : SettingsFile × SettingError_t :=
  match settingsFile.openForWrite with
  | (.Success, f0) =>
    match settings.iterateOverAll SettingsFileResult.Success
        (storeSettingsInPersistentStorageCallback target) (f0, crc32, true) with
    | ((f1, crc, _), .Success) =>
      match f1.write ([13] ++ formatNat crc ++ [10]) with
      | (.Success, f2) =>
        match f2.close with
        | (.Success, f3) => (f3, NO_ERROR)
        | (_, f3) => (f3, SETTINGS_FILESYSTEM_ERROR)
      | (_, f2) => (f2, SETTINGS_FILESYSTEM_ERROR)
    | ((f1, _, _), _) => (f1, SETTINGS_FILESYSTEM_ERROR)
  | (_, f0) => (f0, SETTINGS_FILESYSTEM_ERROR)

/-- The loop of `validateChecksum` over the script and the unread lines of the
file, from the values of `expectedCrc32`, `computedCrc32` and `firstSetting`.
The last component of the result is the `res` the loop is left with, or `none`
when the function returned its error from inside the loop. -/
def validateChecksumLoop (target : Target) :
    Nat → Nat → Bool → List SettingsFileResult → List CString →
      List SettingsFileResult × List CString × Nat × Nat × Option SettingsFileResult
  | expectedCrc32, computedCrc32, firstSetting, script, unread =>
    match nextResult script with
    | (.Success, rs) =>
      match unread with
      | [] => (rs, [], expectedCrc32, computedCrc32, some .EndOfFile)
      | settingStr :: rest =>
        if settingStr.head? = some 13 then
          let parsed := strtol target.LONG_BITS (settingStr.drop 1)
          if parsed.2.head? ≠ some 10 then
            ((nextResult rs).2, rest, (parsed.1 % 2 ^ 32).toNat, computedCrc32, none)
          else
            validateChecksumLoop target (parsed.1 % 2 ^ 32).toNat computedCrc32 firstSetting
              rs rest
        else
          validateChecksumLoop target expectedCrc32
            (if firstSetting then CRC.Calculate settingStr none
              else CRC.Calculate settingStr (some computedCrc32))
            false rs rest
    | (.EndOfFile, rs) => (rs, unread, expectedCrc32, computedCrc32, some .EndOfFile)
    | (res, rs) =>
      (rs, unread, expectedCrc32,
        (if firstSetting then CRC.Calculate [] none
          else CRC.Calculate [] (some computedCrc32)), some res)

/-- The source's `validateChecksum`. -/
def validateChecksum (target : Target) (settingsFile : SettingsFile) :
    SettingsFile × SettingError_t :=
  match settingsFile.openForRead with
  | (.Success, f0) =>
    match validateChecksumLoop target 0 0 true f0.script f0.unread with
    | (rs, unread, expectedCrc32, computedCrc32, some .EndOfFile) =>
      match ({ f0 with script := rs, unread := unread } : SettingsFile).close with
      | (.Success, f1) =>
        if expectedCrc32 ≠ computedCrc32 then (f1, SETTINGS_FILESYSTEM_ERROR)
        else (f1, NO_ERROR)
      | (_, f1) => (f1, SETTINGS_FILESYSTEM_ERROR)
    | (rs, unread, _, _, some _) =>
      (({ f0 with script := rs, unread := unread } : SettingsFile).close.2,
        SETTINGS_FILESYSTEM_ERROR)
    | (rs, unread, _, _, none) =>
      ({ f0 with script := rs, unread := unread }, SETTINGS_FILESYSTEM_ERROR)
  | (_, f0) => (f0, SETTINGS_FILESYSTEM_ERROR)

/-- The body of the loop of `loadSettingsFromPersistentStorage` for one data
line: the new store, and whether the line was applied (when it was not the
function closes the file and returns its error). The three fields are
`std::string`s; the emptiness tests are on the strings, and the conversions,
the put and the registration get `c_str()` of them. The test `*end != 0` is
that the conversion left nothing of the C string. -/
def loadSetting (MAX_SETTING_KEY_SIZE : Nat) (target : Target) (settings : Settings_t)
    (settingStr : CString) : Settings_t × Bool :=
  let key := getline settingStr 9
  if key.1 = [] then (settings, false)
  else
    let valueTypeStr := getline key.2 9
    if valueTypeStr.1 = [] then (settings, false)
    else
      let valueStr := getline valueTypeStr.2 10
      if valueStr.1 = [] then (settings, false)
      else
        let data := strtol target.LONG_BITS (c_str valueTypeStr.1)
        if data.2 ≠ [] ∨ data.1 < 0 ∨ data.1 ≥ (MAX_SETTING_VALUE_TYPE_ENUM : Int) then
          (settings, false)
        else
          match SettingValueType_t.ofCode data.1.toNat with
          | some REAL =>
            let realValue := target.strtod (c_str valueStr.1)
            if realValue.2 ≠ [] then (settings, false)
            else
              match putSettingValueAsReal MAX_SETTING_KEY_SIZE settings (some (c_str key.1))
                  realValue.1 with
              | (settings', NO_ERROR) => (settings', true)
              | (_, KEY_NOT_FOUND_ERROR) =>
                match registerSettingAsReal MAX_SETTING_KEY_SIZE settings (some (c_str key.1))
                    SettingPermissions_t.VOLATILE realValue.1 with
                | (settings', NO_ERROR) => (settings', true)
                | (_, _) => (settings, false)
              | (_, _) => (settings, false)
          | some INTEGER =>
            let integerValue := strtoll (c_str valueStr.1)
            if integerValue.2 ≠ [] then (settings, false)
            else
              match putSettingValueAsInt MAX_SETTING_KEY_SIZE settings (some (c_str key.1))
                  integerValue.1 with
              | (settings', NO_ERROR) => (settings', true)
              | (_, KEY_NOT_FOUND_ERROR) =>
                match registerSettingAsInt MAX_SETTING_KEY_SIZE settings (some (c_str key.1))
                    SettingPermissions_t.VOLATILE integerValue.1 with
                | (settings', NO_ERROR) => (settings', true)
                | (_, _) => (settings, false)
              | (_, _) => (settings, false)
          | some STRING =>
            match putSettingValueAsString MAX_SETTING_KEY_SIZE settings (some (c_str key.1))
                (some (c_str valueStr.1)) with
            | (settings', NO_ERROR) => (settings', true)
            | (_, KEY_NOT_FOUND_ERROR) =>
              match registerSettingAsString MAX_SETTING_KEY_SIZE settings (some (c_str key.1))
                  SettingPermissions_t.VOLATILE (some (c_str valueStr.1)) with
              | (settings', NO_ERROR) => (settings', true)
              | (_, _) => (settings, false)
            | (_, _) => (settings, false)
          | none => (settings, false)

/-- The loop of `loadSettingsFromPersistentStorage` over the script and the
unread lines of the file. The last component of the result is the `res` the
loop is left with, or `none` when the function closed the file and returned
its error from inside the loop. -/
def loadSettingsLoop (MAX_SETTING_KEY_SIZE : Nat) (target : Target) :
    Settings_t → List SettingsFileResult → List CString →
      Settings_t × List SettingsFileResult × List CString × Option SettingsFileResult
  | settings, script, unread =>
    match nextResult script with
    | (.Success, rs) =>
      match unread with
      | [] => (settings, rs, [], some .EndOfFile)
      | settingStr :: rest =>
        if settingStr.head? = some 13 then
          loadSettingsLoop MAX_SETTING_KEY_SIZE target settings rs rest
        else
          match loadSetting MAX_SETTING_KEY_SIZE target settings settingStr with
          | (settings', true) => loadSettingsLoop MAX_SETTING_KEY_SIZE target settings' rs rest
          | (_, false) => (settings, (nextResult rs).2, rest, none)
    | (.EndOfFile, rs) => (settings, rs, unread, some .EndOfFile)
    | (_, rs) => (settings, (nextResult rs).2, unread, none)

/-- The source's `loadSettingsFromPersistentStorage`. -/
def loadSettingsFromPersistentStorage (MAX_SETTING_KEY_SIZE : Nat) (target : Target)
    (settings : Settings_t) (settingsFile : SettingsFile) :
    Settings_t × SettingsFile × SettingError_t :=
  match validateChecksum target settingsFile with
  | (f0, NO_ERROR) =>
    match f0.openForRead with
    | (.Success, f1) =>
      match loadSettingsLoop MAX_SETTING_KEY_SIZE target settings f1.script f1.unread with
      | (settings', rs, unread, some .EndOfFile) =>
        match ({ f1 with script := rs, unread := unread } : SettingsFile).close with
        | (.Success, f2) => (settings', f2, NO_ERROR)
        | (_, f2) => (settings', f2, SETTINGS_FILESYSTEM_ERROR)
      | (settings', rs, unread, _) =>
        (settings', { f1 with script := rs, unread := unread }, SETTINGS_FILESYSTEM_ERROR)
    | (_, f1) => (settings, f1, SETTINGS_FILESYSTEM_ERROR)
  | (f0, _) => (settings, f0, SETTINGS_FILESYSTEM_ERROR)

end SettingsStorage

/-! ## Notions of the persistence claims -/

/-- Every call to come on the Backing File succeeds. -/
def SettingsFile.AllSucceed (f : SettingsFile) : Prop :=
  ∀ r ∈ f.script, r = SettingsFileResult.Success

instance (f : SettingsFile) : Decidable f.AllSucceed := by
  unfold SettingsFile.AllSucceed; infer_instance

/-- The entry is one that the store writes: its mask has no VOLATILE flag. -/
def SettingValue_t.isPersistent (e : SettingValue_t) : Bool :=
  decide (e.settingPermissions &&& SettingPermissions_t.VOLATILE = 0)

/-- The spec's formatted value of an entry (§4.4): the current value as a
decimal integer, as the formatted real, or as the string itself. -/
def formattedValue (target : Target) (e : SettingValue_t) : CString :=
  match e.settingValueType with
  | .REAL => target.formatDouble e.settingValueData.getReal
  | .INTEGER => formatInt e.settingValueData.getInteger
  | .STRING => e.settingValueData.getString

/-- The spec's persisted line of an entry (§3): the key, a TAB, the decimal
type code, a TAB, the formatted current value and a LF. -/
def persistedLine (target : Target) (key : CString) (e : SettingValue_t) : CString :=
  key ++ [9] ++ formatNat e.settingValueType.code ++ [9] ++ formattedValue target e ++ [10]

/-- The spec's data region of a stored file: the persisted lines of the
entries without the VOLATILE flag, in enumeration order. -/
def persistedData (target : Target) : List (CString × SettingValue_t) → List Nat
  | [] => []
  | x :: rest =>
    if x.2.isPersistent then persistedLine target x.1 x.2 ++ persistedData target rest
    else persistedData target rest

/-- The spec's trailer line for a checksum: a CR, the decimal checksum, a LF. -/
def trailerLine (crc : Nat) : CString := [13] ++ formatNat crc ++ [10]

/-- A trailer line: a line that starts with a CR. -/
def isTrailer (line : CString) : Bool := decide (line.head? = some 13)

/-- The trailer is well formed: the number read after the CR is followed
immediately by a LF. -/
def trailerWellFormed (target : Target) (line : CString) : Bool :=
  decide ((strtol target.LONG_BITS (line.drop 1)).2.head? = some 10)

/-- The number stored in a trailer line, as `validateChecksum` reads it
(`strtol`, then the cast to `uint32_t`). -/
def trailerNumber (target : Target) (line : CString) : Nat :=
  ((strtol target.LONG_BITS (line.drop 1)).1 % 2 ^ 32).toNat

/-- The number stored in the last trailer line of the lines, or `e` when no
line is a trailer. -/
def storedChecksum (target : Target) : Nat → List CString → Nat
  | e, [] => e
  | e, l :: rest =>
    if isTrailer l then storedChecksum target (trailerNumber target l) rest
    else storedChecksum target e rest

/-- The concatenation of the lines that are not trailers. -/
def dataOfLines : List CString → List Nat
  | [] => []
  | l :: rest => if isTrailer l then dataOfLines rest else l ++ dataOfLines rest

/-- The key field of a data line: the bytes before its first TAB. -/
def lineKey (line : CString) : CString := (getline line 9).1

/-- The spec's second pass of a load (§4.3): the lines are taken in order, a
trailer line is skipped, a data line is applied with `loadSetting`, and the
pass stops at the first line that is not applied. The result is the store
and whether every line was applied. -/
def applyLines (MAX_SETTING_KEY_SIZE : Nat) (target : Target) :
    Settings_t → List CString → Settings_t × Bool
  | settings, [] => (settings, true)
  | settings, l :: rest =>
    if isTrailer l then applyLines MAX_SETTING_KEY_SIZE target settings rest
    else
      match SettingsStorage.loadSetting MAX_SETTING_KEY_SIZE target settings l with
      | (settings', true) => applyLines MAX_SETTING_KEY_SIZE target settings' rest
      | (_, false) => (settings, false)

/-- The type-code field of a data line: the bytes between its first and its
second TAB. -/
def lineTypeText (line : CString) : CString := (getline (getline line 9).2 9).1

/-- The value field of a data line: the bytes after its second TAB, up to the
LF. -/
def lineValueText (line : CString) : CString :=
  (getline (getline (getline line 9).2 9).2 10).1

/-- The spec's type of a type-code field (§4.3 step 3): the field is read as a
number, which must take the whole field and lie in
`[0, MAX_SETTING_VALUE_TYPE_ENUM)`. -/
def parseTypeCode (target : Target) (text : CString) : Option SettingValueType_t :=
  if (strtol target.LONG_BITS text).2 = [] ∧ 0 ≤ (strtol target.LONG_BITS text).1 ∧
      (strtol target.LONG_BITS text).1 < (MAX_SETTING_VALUE_TYPE_ENUM : Int) then
    SettingValueType_t.ofCode (strtol target.LONG_BITS text).1.toNat
  else none

/-- The spec's value of a value field (§4.3 step 4): an Integer or a Real must
take the whole field, a String is the field itself. -/
def parseValue (target : Target) : SettingValueType_t → CString → Option SettingValueData_t
  | .REAL, text =>
    if (target.strtod text).2 = [] then some (.real (target.strtod text).1) else none
  | .INTEGER, text =>
    if (strtoll text).2 = [] then some (.integer (strtoll text).1) else none
  | .STRING, text => some (.string text)

/-- The spec's well-formed data line (§4.3 steps 2 to 4): three non-empty
fields, a type code and a value of that type; the result is the key, the type
and the value. -/
def parseLine (target : Target) (line : CString) :
    Option (CString × SettingValueType_t × SettingValueData_t) :=
  if lineKey line = [] ∨ lineTypeText line = [] ∨ lineValueText line = [] then none
  else
    match parseTypeCode target (lineTypeText line) with
    | none => none
    | some t =>
      match parseValue target t (lineValueText line) with
      | none => none
      | some v => some (lineKey line, t, v)

/-- The spec's application of a well-formed data line (§4.3 step 4): a put of
the value when the key is registered with the type of the line, a registration
with the permissions VOLATILE and the value as current and default value when
the key is absent, and no change and a failure otherwise. -/
def applyParsed (MAX_SETTING_KEY_SIZE : Nat) (settings : Settings_t)
    (key : CString) (t : SettingValueType_t) (v : SettingValueData_t) : Settings_t × Bool :=
  match settings.entryOf MAX_SETTING_KEY_SIZE key with
  | some e =>
    if e.settingValueType = t then
      (⟨replaceEntry (storedKey MAX_SETTING_KEY_SIZE key) { e with settingValueData := v }
        settings.entries⟩, true)
    else (settings, false)
  | none =>
    (⟨insertEntry (storedKey MAX_SETTING_KEY_SIZE key)
      ⟨SettingPermissions_t.VOLATILE, t, v, v⟩ settings.entries⟩, true)

/-- The data line as the load reads it: the three fields are not empty, and
the key, the type code and the value are what the fields give when each is
read as a C string, up to its first NUL byte; the key read so is not empty. -/
def readDataLine (target : Target) (line : CString) :
    Option (CString × SettingValueType_t × SettingValueData_t) :=
  if lineKey line = [] ∨ lineTypeText line = [] ∨ lineValueText line = [] ∨
      c_str (lineKey line) = [] then none
  else
    match parseTypeCode target (c_str (lineTypeText line)) with
    | none => none
    | some t =>
      match parseValue target t (c_str (lineValueText line)) with
      | none => none
      | some v => some (c_str (lineKey line), t, v)

/-- The entry reads back: its formatted value is not empty, holds no LF, and
is read by a load as the current value of the entry. -/
def SettingValue_t.ReadsBack (target : Target) (e : SettingValue_t) : Prop :=
  formattedValue target e ≠ [] ∧ 10 ∉ formattedValue target e ∧
    parseValue target e.settingValueType (formattedValue target e) = some e.settingValueData

instance (target : Target) (e : SettingValue_t) : Decidable (e.ReadsBack target) := by
  unfold SettingValue_t.ReadsBack; infer_instance

/-- The store after a sequence of `putSettingValueAsInt` calls, each given by
its key and its value, whatever the calls return. -/
def putSettingValuesAsInt (MAX_SETTING_KEY_SIZE : Nat) :
    Settings_t → List (Option CString × Int) → Settings_t
  | settings, [] => settings
  | settings, call :: calls =>
    putSettingValuesAsInt MAX_SETTING_KEY_SIZE
      (SettingsStorage.putSettingValueAsInt MAX_SETTING_KEY_SIZE settings call.1 call.2).1 calls

/-- The spec's permission display (§6): "SYSTEM | ADMIN | USER | VOLATILE"
with the name of each flag that is absent from the mask replaced by as many
spaces. -/
def permissionDisplay (permission : SettingPermissions_t) : CString :=
  (if permission &&& SettingPermissions_t.SYSTEM ≠ 0 then bytes "SYSTEM" else bytes "      ") ++
    bytes " | " ++
    (if permission &&& SettingPermissions_t.ADMIN ≠ 0 then bytes "ADMIN" else bytes "     ") ++
    bytes " | " ++
    (if permission &&& SettingPermissions_t.USER ≠ 0 then bytes "USER" else bytes "    ") ++
    bytes " | " ++
    (if permission &&& SettingPermissions_t.VOLATILE ≠ 0 then bytes "VOLATILE"
      else bytes "        ")

/-! ## Lemmas on the store -/

theorem storedKey_eq_take (MAX : Nat) (key : CString) : storedKey MAX key = key.take MAX := by
  unfold storedKey strnlen
  rcases Nat.le_total key.length MAX with h | h
  · rw [Nat.min_eq_left h, List.take_of_length_le h, List.take_of_length_le (le_refl _)]
  · rw [Nat.min_eq_right h]

theorem storedKey_of_length_le (MAX : Nat) (key : CString) (h : key.length ≤ MAX) :
    storedKey MAX key = key := by
  rw [storedKey_eq_take, List.take_of_length_le h]

theorem lookupEntry_insertEntry_self (k : CString) (v : SettingValue_t)
    (l : List (CString × SettingValue_t)) (h : lookupEntry k l = none) :
    lookupEntry k (insertEntry k v l) = some v := by
  induction l with
  | nil => simp [insertEntry, lookupEntry]
  | cons e rest ih =>
    obtain ⟨k', v'⟩ := e
    simp only [lookupEntry] at h
    split at h
    · exact absurd h (by simp)
    · rename_i hne
      simp only [insertEntry]
      split
      · simp [lookupEntry]
      · simp [lookupEntry, hne, ih h]

theorem lookupEntry_insertEntry_ne (k k' : CString) (v : SettingValue_t)
    (l : List (CString × SettingValue_t)) (h : k' ≠ k) :
    lookupEntry k' (insertEntry k v l) = lookupEntry k' l := by
  induction l with
  | nil => simp [insertEntry, lookupEntry, Ne.symm h]
  | cons e rest ih =>
    obtain ⟨k2, v2⟩ := e
    simp only [insertEntry]
    split
    · simp [lookupEntry, Ne.symm h]
    · simp [lookupEntry, ih]

theorem lookupEntry_replaceEntry_self (k : CString) (v : SettingValue_t)
    (l : List (CString × SettingValue_t)) :
    lookupEntry k (replaceEntry k v l) = (lookupEntry k l).map (fun _ => v) := by
  induction l with
  | nil => simp [replaceEntry, lookupEntry]
  | cons e rest ih =>
    obtain ⟨k2, v2⟩ := e
    simp only [replaceEntry, lookupEntry]
    split
    · rename_i h; simp [lookupEntry, h]
    · rename_i h; simp [lookupEntry, h, ih]

theorem lookupEntry_replaceEntry_ne (k k' : CString) (v : SettingValue_t)
    (l : List (CString × SettingValue_t)) (h : k' ≠ k) :
    lookupEntry k' (replaceEntry k v l) = lookupEntry k' l := by
  induction l with
  | nil => simp [replaceEntry, lookupEntry]
  | cons e rest ih =>
    obtain ⟨k2, v2⟩ := e
    simp only [replaceEntry, lookupEntry]
    split
    · rename_i h2
      subst h2
      simp [lookupEntry, Ne.symm h]
    · rename_i h2; simp [lookupEntry, ih]

theorem map_fst_replaceEntry (k : CString) (v : SettingValue_t)
    (l : List (CString × SettingValue_t)) :
    (replaceEntry k v l).map Prod.fst = l.map Prod.fst := by
  induction l with
  | nil => simp [replaceEntry]
  | cons e rest ih =>
    obtain ⟨k2, v2⟩ := e
    simp only [replaceEntry]
    split <;> simp [ih]

theorem lookupEntry_mem (k : CString) (e : SettingValue_t)
    (l : List (CString × SettingValue_t)) (h : lookupEntry k l = some e) : (k, e) ∈ l := by
  induction l with
  | nil => simp [lookupEntry] at h
  | cons x rest ih =>
    obtain ⟨k', v'⟩ := x
    simp only [lookupEntry] at h
    split at h
    · rename_i hk
      cases h
      subst hk
      exact List.mem_cons_self _ _
    · exact List.mem_cons_of_mem _ (ih h)

theorem lookupEntry_of_mem_keys (k : CString) (l : List (CString × SettingValue_t))
    (h : k ∈ l.map Prod.fst) : ∃ e, lookupEntry k l = some e := by
  induction l with
  | nil => simp at h
  | cons x rest ih =>
    obtain ⟨k', v'⟩ := x
    by_cases hk : k' = k
    · exact ⟨v', by simp [lookupEntry, hk]⟩
    · have : k ∈ rest.map Prod.fst := by
        simp only [List.map_cons, List.mem_cons] at h
        rcases h with h | h
        · exact absurd h.symm hk
        · exact h
      obtain ⟨e, he⟩ := ih this
      exact ⟨e, by simp [lookupEntry, hk, he]⟩

theorem lookupEntry_eq_none_of_not_mem (k : CString) (l : List (CString × SettingValue_t))
    (h : k ∉ l.map Prod.fst) : lookupEntry k l = none := by
  cases hl : lookupEntry k l with
  | none => rfl
  | some e =>
    exact absurd (List.mem_map_of_mem Prod.fst (lookupEntry_mem k e l hl)) h

theorem lookupEntry_of_mem (l : List (CString × SettingValue_t))
    (hnd : (l.map Prod.fst).Nodup) (x : CString × SettingValue_t) (hx : x ∈ l) :
    lookupEntry x.1 l = some x.2 := by
  induction l with
  | nil => simp at hx
  | cons y rest ih =>
    obtain ⟨k', v'⟩ := y
    simp only [List.map_cons, List.nodup_cons] at hnd
    simp only [List.mem_cons] at hx
    rcases hx with hx | hx
    · subst hx
      simp [lookupEntry]
    · have hne : k' ≠ x.1 := by
        intro h
        exact hnd.1 (h ▸ List.mem_map_of_mem Prod.fst hx)
      simp [lookupEntry, hne, ih hnd.2 hx]

theorem replaceEntry_eq_map (k : CString) (v : SettingValue_t)
    (l : List (CString × SettingValue_t)) (hnd : (l.map Prod.fst).Nodup) :
    replaceEntry k v l = l.map (fun x => if x.1 = k then (x.1, v) else x) := by
  induction l with
  | nil => rfl
  | cons y rest ih =>
    obtain ⟨k', v'⟩ := y
    simp only [List.map_cons, List.nodup_cons] at hnd
    simp only [replaceEntry, List.map_cons]
    split
    · rename_i hk
      subst hk
      congr 1
      symm
      nth_rewrite 2 [← List.map_id rest]
      apply List.map_congr_left
      intro x hx
      have : x.1 ≠ k' := fun h => hnd.1 (h ▸ List.mem_map_of_mem Prod.fst hx)
      simp [this]
    · rw [ih hnd.2]

theorem entriesKept_refl (s : Settings_t) : s.EntriesKept s :=
  fun _ e h => ⟨e, h, rfl, rfl, rfl⟩

theorem entriesKept_trans {s1 s2 s3 : Settings_t} (h12 : s1.EntriesKept s2)
    (h23 : s2.EntriesKept s3) : s1.EntriesKept s3 := by
  intro k e he
  obtain ⟨e2, he2, ht2, hd2, hp2⟩ := h12 k e he
  obtain ⟨e3, he3, ht3, hd3, hp3⟩ := h23 k e2 he2
  exact ⟨e3, he3, ht3.trans ht2, hd3.trans hd2, hp3.trans hp2⟩

theorem entriesKept_insertEntry (k0 : CString) (v0 : SettingValue_t) (s : Settings_t)
    (h0 : lookupEntry k0 s.entries = none) :
    s.EntriesKept ⟨insertEntry k0 v0 s.entries⟩ := by
  intro k e he
  have hne : k ≠ k0 := by
    intro h
    rw [h, h0] at he
    cases he
  exact ⟨e, by rw [lookupEntry_insertEntry_ne k0 k v0 s.entries hne, he], rfl, rfl, rfl⟩

theorem entriesKept_replaceEntry (k0 : CString) (e0 e1 : SettingValue_t) (s : Settings_t)
    (h0 : lookupEntry k0 s.entries = some e0)
    (ht : e1.settingValueType = e0.settingValueType)
    (hd : e1.settingDefaultValueData = e0.settingDefaultValueData)
    (hp : e1.settingPermissions = e0.settingPermissions) :
    s.EntriesKept ⟨replaceEntry k0 e1 s.entries⟩ := by
  intro k e he
  by_cases hk : k = k0
  · subst hk
    rw [h0] at he
    cases he
    exact ⟨e1, by rw [lookupEntry_replaceEntry_self, h0]; rfl, ht, hd, hp⟩
  · exact ⟨e, by rw [lookupEntry_replaceEntry_ne k0 k e1 s.entries hk, he], rfl, rfl, rfl⟩

theorem insertEntry_perm (k : CString) (v : SettingValue_t)
    (l : List (CString × SettingValue_t)) : (insertEntry k v l).Perm ((k, v) :: l) := by
  induction l with
  | nil => exact List.Perm.refl _
  | cons x rest ih =>
    obtain ⟨k', v'⟩ := x
    simp only [insertEntry]
    split
    · exact List.Perm.refl _
    · exact (List.Perm.cons _ ih).trans (List.Perm.swap _ _ _)

theorem mem_replaceEntry (k : CString) (v : SettingValue_t)
    (l : List (CString × SettingValue_t)) (x : CString × SettingValue_t)
    (hx : x ∈ replaceEntry k v l) : x ∈ l ∨ x = (k, v) := by
  induction l with
  | nil => simp [replaceEntry] at hx
  | cons y rest ih =>
    obtain ⟨k', v'⟩ := y
    simp only [replaceEntry] at hx
    split at hx
    · rename_i hk
      subst hk
      simp only [List.mem_cons] at hx ⊢
      rcases hx with hx | hx
      · exact Or.inr hx
      · exact Or.inl (Or.inr hx)
    · simp only [List.mem_cons] at hx ⊢
      rcases hx with hx | hx
      · exact Or.inl (Or.inl hx)
      · rcases ih hx with h | h
        · exact Or.inl (Or.inr h)
        · exact Or.inr h

theorem wellFormed_empty (MAX : Nat) : Settings_t.WellFormed MAX ⟨[]⟩ := by
  simp [Settings_t.WellFormed]

theorem wellFormed_insertEntry (MAX : Nat) (s : Settings_t) (k : CString)
    (v : SettingValue_t) (hwf : s.WellFormed MAX) (habs : lookupEntry k s.entries = none)
    (hk : k ≠ [] ∧ k.length ≤ MAX) (hv : v.WellTyped) :
    Settings_t.WellFormed MAX ⟨insertEntry k v s.entries⟩ := by
  obtain ⟨hnd, hall⟩ := hwf
  have hperm := insertEntry_perm k v s.entries
  constructor
  · rw [(hperm.map Prod.fst).nodup_iff]
    simp only [List.map_cons, List.nodup_cons]
    refine ⟨fun hmem => ?_, hnd⟩
    obtain ⟨e, he⟩ := lookupEntry_of_mem_keys k s.entries hmem
    rw [habs] at he
    cases he
  · intro x hx
    rcases List.mem_cons.mp (hperm.mem_iff.mp hx) with h | h
    · subst h
      exact ⟨hk.1, hk.2, hv⟩
    · exact hall x h

theorem wellFormed_replaceEntry (MAX : Nat) (s : Settings_t) (k : CString)
    (e v : SettingValue_t) (hwf : s.WellFormed MAX) (he : lookupEntry k s.entries = some e)
    (hv : v.WellTyped) : Settings_t.WellFormed MAX ⟨replaceEntry k v s.entries⟩ := by
  obtain ⟨hnd, hall⟩ := hwf
  constructor
  · rw [map_fst_replaceEntry]
    exact hnd
  · intro x hx
    rcases mem_replaceEntry k v s.entries x hx with h | h
    · exact hall x h
    · subst h
      have hk := hall (k, e) (lookupEntry_mem k e s.entries he)
      exact ⟨hk.1, hk.2.1, hv⟩

/-! ## Lemmas on the output buffer -/

theorem storeBytes_append (buffer : List Nat) (a b : List (Nat × Nat)) :
    storeBytes buffer (a ++ b) = storeBytes (storeBytes buffer a) b := by
  simp [storeBytes, List.foldl_append]

theorem length_storeBytes (stores : List (Nat × Nat)) (buffer : List Nat) :
    (storeBytes buffer stores).length = buffer.length := by
  induction stores generalizing buffer with
  | nil => rfl
  | cons s rest ih => simp [storeBytes] at ih ⊢; rw [ih]; simp

theorem getElem?_storeBytes_strncpy (src : CString) (buffer : List Nat) (n j : Nat) :
    (storeBytes buffer (strncpy src n))[j]? =
      if j < n ∧ j < buffer.length then some (src.getD j 0) else buffer[j]? := by
  induction n with
  | zero => simp [strncpy, storeBytes]
  | succ n ih =>
    have : strncpy src (n + 1) = strncpy src n ++ [(n, src.getD n 0)] := by
      simp [strncpy, List.range_succ]
    rw [this, storeBytes_append]
    simp only [storeBytes, List.foldl_cons, List.foldl_nil] at ih ⊢
    rw [List.getElem?_set]
    by_cases hj : n = j
    · subst hj
      have hl := length_storeBytes (strncpy src n) buffer
      simp only [storeBytes] at hl
      simp only [hl, if_true, lt_add_iff_pos_right, zero_lt_one, true_and]
      by_cases hb : n < buffer.length
      · simp [hb]
      · simp only [hb, if_false]
        exact (List.getElem?_eq_none (by omega)).symm
    · simp only [hj, if_false, ih]
      have : j < n + 1 ↔ j < n := by omega
      simp [this]

theorem take_storeBytes_getString (src : CString) (buffer : List Nat) (n : Nat)
    (hlen : src.length < n) (hbuf : n ≤ buffer.length) :
    (storeBytes buffer (strncpy src n ++ [(n, 0)])).take (src.length + 1) = src ++ [0] := by
  rw [storeBytes_append]
  apply List.ext_getElem?
  intro j
  rw [List.getElem?_take]
  simp only [storeBytes, List.foldl_cons, List.foldl_nil]
  have h := getElem?_storeBytes_strncpy src buffer n j
  simp only [storeBytes] at h
  by_cases hj : j < src.length + 1
  · rw [if_pos hj, List.getElem?_set_ne (by omega), h, if_pos ⟨by omega, by omega⟩]
    by_cases hj2 : j < src.length
    · rw [List.getElem?_append_left hj2]
      simp [List.getD_eq_getElem?_getD, List.getElem?_eq_getElem hj2]
    · have : j = src.length := by omega
      subst this
      simp [List.getD_eq_getElem?_getD]
  · rw [if_neg hj]
    symm
    apply List.getElem?_eq_none
    simp; omega

/-! ## Lemmas on the single-key operations -/

namespace SettingsStorage

open SettingError_t SettingValueType_t

theorem entryOf_eq (MAX : Nat) (s : Settings_t) (key : CString) :
    s.entryOf MAX key = lookupEntry (storedKey MAX key) s.entries := rfl

theorem entryOf_of_length_le (MAX : Nat) (s : Settings_t) (key : CString)
    (h : key.length ≤ MAX) : s.entryOf MAX key = lookupEntry key s.entries := by
  rw [entryOf_eq, storedKey_of_length_le MAX key h]

theorem getSettingValue_some (MAX : Nat) (s : Settings_t) (key : CString) (hkey : key ≠ []) :
    getSettingValue MAX s (some key) =
      match s.entryOf MAX key with
      | none => (KEY_NOT_FOUND_ERROR, none)
      | some value => (NO_ERROR, some value) := by
  cases key with
  | nil => exact absurd rfl hkey
  | cons c cs => simp only [getSettingValue, Settings_t.entryOf]

theorem entryOf_insertEntry (MAX : Nat) (s : Settings_t) (key key' : CString)
    (e : SettingValue_t) (h : s.entryOf MAX key = none) :
    Settings_t.entryOf MAX ⟨insertEntry (storedKey MAX key) e s.entries⟩ key' =
      if storedKey MAX key' = storedKey MAX key then some e else s.entryOf MAX key' := by
  rw [entryOf_eq] at h
  simp only [entryOf_eq]
  split
  · rename_i heq
    rw [heq]
    exact lookupEntry_insertEntry_self _ _ _ h
  · rename_i hne
    exact lookupEntry_insertEntry_ne _ _ _ _ hne

theorem entryOf_replaceEntry (MAX : Nat) (s : Settings_t) (key key' : CString)
    (e : SettingValue_t) :
    Settings_t.entryOf MAX ⟨replaceEntry (storedKey MAX key) e s.entries⟩ key' =
      if storedKey MAX key' = storedKey MAX key then (s.entryOf MAX key).map (fun _ => e)
      else s.entryOf MAX key' := by
  simp only [entryOf_eq]
  split
  · rename_i heq
    rw [heq]
    exact lookupEntry_replaceEntry_self _ _ _
  · rename_i hne
    exact lookupEntry_replaceEntry_ne _ _ _ _ hne

theorem insertIfNotExists_eq (MAX : Nat) (s : Settings_t) (key : CString) (e : SettingValue_t) :
    s.insertIfNotExists key (strnlen key MAX) e =
      match s.entryOf MAX key with
      | some old => (s, some old)
      | none => (⟨insertEntry (storedKey MAX key) e s.entries⟩, none) := rfl

theorem registerSettingAsInt_eq (MAX : Nat) (s : Settings_t) (key : CString)
    (p : SettingPermissions_t) (v : Int) (hkey : key ≠ []) (hperm : validatePermissions p = true) :
    registerSettingAsInt MAX s (some key) p v =
      match s.entryOf MAX key with
      | some _ => (s, KEY_EXISTS_ERROR)
      | none => (⟨insertEntry (storedKey MAX key) ⟨p, INTEGER, .integer v, .integer v⟩ s.entries⟩,
          NO_ERROR) := by
  cases key with
  | nil => exact absurd rfl hkey
  | cons c cs =>
    simp only [registerSettingAsInt, hperm, insertIfNotExists_eq]
    cases s.entryOf MAX (c :: cs) <;> simp

theorem registerSettingAsReal_eq (MAX : Nat) (s : Settings_t) (key : CString)
    (p : SettingPermissions_t) (v : Double) (hkey : key ≠ [])
    (hperm : validatePermissions p = true) :
    registerSettingAsReal MAX s (some key) p v =
      match s.entryOf MAX key with
      | some _ => (s, KEY_EXISTS_ERROR)
      | none => (⟨insertEntry (storedKey MAX key) ⟨p, REAL, .real v, .real v⟩ s.entries⟩,
          NO_ERROR) := by
  cases key with
  | nil => exact absurd rfl hkey
  | cons c cs =>
    simp only [registerSettingAsReal, hperm, insertIfNotExists_eq]
    cases s.entryOf MAX (c :: cs) <;> simp

theorem registerSettingAsString_eq (MAX : Nat) (s : Settings_t) (key : CString)
    (p : SettingPermissions_t) (v : CString) (hkey : key ≠ [])
    (hperm : validatePermissions p = true) :
    registerSettingAsString MAX s (some key) p (some v) =
      match s.entryOf MAX key with
      | some _ => (s, KEY_EXISTS_ERROR)
      | none => (⟨insertEntry (storedKey MAX key) ⟨p, STRING, .string v, .string v⟩ s.entries⟩,
          NO_ERROR) := by
  cases key with
  | nil => exact absurd rfl hkey
  | cons c cs =>
    simp only [registerSettingAsString, hperm, insertIfNotExists_eq]
    cases s.entryOf MAX (c :: cs) <;> simp

theorem getSettingValueAsInt_eq (MAX : Nat) (s : Settings_t) (type : TypeofSettingValue)
    (key : CString) (out : Int) (q : Option SettingPermissions_t) (hkey : key ≠ []) :
    getSettingValueAsInt MAX s type (some key) out q =
      match s.entryOf MAX key with
      | none => (KEY_NOT_FOUND_ERROR, out, q)
      | some e =>
        if e.settingValueType ≠ INTEGER then (TYPE_MISMATCH_ERROR, out, q)
        else (NO_ERROR,
          if type = .DefaultValue then e.settingDefaultValueData.getInteger
          else e.settingValueData.getInteger,
          q.map (fun _ => e.settingPermissions)) := by
  simp only [getSettingValueAsInt, getSettingValue_some MAX s key hkey]
  cases s.entryOf MAX key <;> simp

theorem getSettingValueAsReal_eq (MAX : Nat) (s : Settings_t) (type : TypeofSettingValue)
    (key : CString) (out : Double) (q : Option SettingPermissions_t) (hkey : key ≠ []) :
    getSettingValueAsReal MAX s type (some key) out q =
      match s.entryOf MAX key with
      | none => (KEY_NOT_FOUND_ERROR, out, q)
      | some e =>
        if e.settingValueType ≠ REAL then (TYPE_MISMATCH_ERROR, out, q)
        else (NO_ERROR,
          if type = .DefaultValue then e.settingDefaultValueData.getReal
          else e.settingValueData.getReal,
          q.map (fun _ => e.settingPermissions)) := by
  simp only [getSettingValueAsReal, getSettingValue_some MAX s key hkey]
  cases s.entryOf MAX key <;> simp

theorem getSettingValueAsString_eq (MAX : Nat) (s : Settings_t) (type : TypeofSettingValue)
    (key : CString) (buffer : List Nat) (n : Nat) (q : Option SettingPermissions_t)
    (hkey : key ≠ []) :
    getSettingValueAsString MAX s type (some key) (some buffer) n q =
      match s.entryOf MAX key with
      | none => (KEY_NOT_FOUND_ERROR, [], q)
      | some e =>
        if e.settingValueType ≠ STRING then (TYPE_MISMATCH_ERROR, [], q)
        else if (if type = .DefaultValue then e.settingDefaultValueData.getString
            else e.settingValueData.getString).length ≥ n then
          (INSUFFICIENT_BUFFER_SIZE_ERROR, [], q)
        else (NO_ERROR,
          strncpy (if type = .DefaultValue then e.settingDefaultValueData.getString
            else e.settingValueData.getString) n ++ [(n, 0)],
          q.map (fun _ => e.settingPermissions)) := by
  simp only [getSettingValueAsString, getSettingValue_some MAX s key hkey]
  cases s.entryOf MAX key <;> simp

theorem putSettingValueAsInt_eq (MAX : Nat) (s : Settings_t) (key : CString) (v : Int)
    (hkey : key ≠ []) :
    putSettingValueAsInt MAX s (some key) v =
      match s.entryOf MAX key with
      | none => (s, KEY_NOT_FOUND_ERROR)
      | some e =>
        if e.settingValueType ≠ INTEGER then (s, TYPE_MISMATCH_ERROR)
        else (⟨replaceEntry (storedKey MAX key) { e with settingValueData := .integer v }
          s.entries⟩, NO_ERROR) := by
  simp only [putSettingValueAsInt, getSettingValue_some MAX s key hkey]
  cases s.entryOf MAX key <;> simp [writeThrough, Settings_t.assign, storedKey]

theorem putSettingValueAsReal_eq (MAX : Nat) (s : Settings_t) (key : CString) (v : Double)
    (hkey : key ≠ []) :
    putSettingValueAsReal MAX s (some key) v =
      match s.entryOf MAX key with
      | none => (s, KEY_NOT_FOUND_ERROR)
      | some e =>
        if e.settingValueType ≠ REAL then (s, TYPE_MISMATCH_ERROR)
        else (⟨replaceEntry (storedKey MAX key) { e with settingValueData := .real v }
          s.entries⟩, NO_ERROR) := by
  simp only [putSettingValueAsReal, getSettingValue_some MAX s key hkey]
  cases s.entryOf MAX key <;> simp [writeThrough, Settings_t.assign, storedKey]

theorem putSettingValueAsString_eq (MAX : Nat) (s : Settings_t) (key : CString) (v : CString)
    (hkey : key ≠ []) :
    putSettingValueAsString MAX s (some key) (some v) =
      match s.entryOf MAX key with
      | none => (s, KEY_NOT_FOUND_ERROR)
      | some e =>
        if e.settingValueType ≠ STRING then (s, TYPE_MISMATCH_ERROR)
        else (⟨replaceEntry (storedKey MAX key) { e with settingValueData := .string v }
          s.entries⟩, NO_ERROR) := by
  simp only [putSettingValueAsString, getSettingValue_some MAX s key hkey]
  cases s.entryOf MAX key <;> simp [writeThrough, Settings_t.assign, storedKey]

theorem getSettingValue_of_empty (MAX : Nat) (s : Settings_t) (key : Option CString)
    (h : key = none ∨ key = some []) :
    getSettingValue MAX s key = (INVALID_INPUT_ERROR, none) := by
  rcases h with h | h <;> subst h <;> rfl

theorem key_cases (key : Option CString) :
    (key = none ∨ key = some []) ∨ ∃ k, key = some k ∧ k ≠ [] := by
  rcases key with _ | k
  · exact Or.inl (Or.inl rfl)
  · cases k with
    | nil => exact Or.inl (Or.inr rfl)
    | cons c cs => exact Or.inr ⟨c :: cs, rfl, by simp⟩

theorem registerSettingAsInt_invalid (MAX : Nat) (s : Settings_t) (key : Option CString)
    (p : SettingPermissions_t) (v : Int)
    (h : key = none ∨ key = some [] ∨ validatePermissions p = false) :
    registerSettingAsInt MAX s key p v = (s, INVALID_INPUT_ERROR) := by
  rcases key with _ | k
  · rfl
  · cases k with
    | nil => rfl
    | cons c cs =>
      rcases h with h | h | h
      · cases h
      · cases h
      · simp [registerSettingAsInt, h]

theorem registerSettingAsReal_invalid (MAX : Nat) (s : Settings_t) (key : Option CString)
    (p : SettingPermissions_t) (v : Double)
    (h : key = none ∨ key = some [] ∨ validatePermissions p = false) :
    registerSettingAsReal MAX s key p v = (s, INVALID_INPUT_ERROR) := by
  rcases key with _ | k
  · rfl
  · cases k with
    | nil => rfl
    | cons c cs =>
      rcases h with h | h | h
      · cases h
      · cases h
      · simp [registerSettingAsReal, h]

theorem registerSettingAsString_invalid (MAX : Nat) (s : Settings_t) (key : Option CString)
    (p : SettingPermissions_t) (v : Option CString)
    (h : key = none ∨ key = some [] ∨ validatePermissions p = false ∨ v = none) :
    registerSettingAsString MAX s key p v = (s, INVALID_INPUT_ERROR) := by
  rcases key with _ | k
  · rfl
  · cases k with
    | nil => rfl
    | cons c cs =>
      rcases h with h | h | h | h
      · cases h
      · cases h
      · simp [registerSettingAsString, h]
      · subst h
        simp only [registerSettingAsString]
        split <;> rfl

theorem registerSettingAsInt_unchanged_or_ok (MAX : Nat) (s : Settings_t)
    (key : Option CString) (p : SettingPermissions_t) (v : Int) :
    (registerSettingAsInt MAX s key p v).1 = s ∨
      (registerSettingAsInt MAX s key p v).2 = NO_ERROR := by
  rcases key_cases key with h | ⟨k, rfl, hk⟩
  · rw [registerSettingAsInt_invalid MAX s key p v (by tauto)]; exact Or.inl rfl
  · by_cases hp : validatePermissions p = true
    · rw [registerSettingAsInt_eq MAX s k p v hk hp]
      cases s.entryOf MAX k <;> simp
    · rw [registerSettingAsInt_invalid MAX s _ p v (by simp [hp])]; exact Or.inl rfl

theorem registerSettingAsReal_unchanged_or_ok (MAX : Nat) (s : Settings_t)
    (key : Option CString) (p : SettingPermissions_t) (v : Double) :
    (registerSettingAsReal MAX s key p v).1 = s ∨
      (registerSettingAsReal MAX s key p v).2 = NO_ERROR := by
  rcases key_cases key with h | ⟨k, rfl, hk⟩
  · rw [registerSettingAsReal_invalid MAX s key p v (by tauto)]; exact Or.inl rfl
  · by_cases hp : validatePermissions p = true
    · rw [registerSettingAsReal_eq MAX s k p v hk hp]
      cases s.entryOf MAX k <;> simp
    · rw [registerSettingAsReal_invalid MAX s _ p v (by simp [hp])]; exact Or.inl rfl

theorem registerSettingAsString_unchanged_or_ok (MAX : Nat) (s : Settings_t)
    (key : Option CString) (p : SettingPermissions_t) (v : Option CString) :
    (registerSettingAsString MAX s key p v).1 = s ∨
      (registerSettingAsString MAX s key p v).2 = NO_ERROR := by
  rcases key_cases key with h | ⟨k, rfl, hk⟩
  · rw [registerSettingAsString_invalid MAX s key p v (by tauto)]; exact Or.inl rfl
  · by_cases hp : validatePermissions p = true
    · cases v with
      | none => rw [registerSettingAsString_invalid MAX s _ p none (by simp)]; exact Or.inl rfl
      | some str =>
        rw [registerSettingAsString_eq MAX s k p str hk hp]
        cases s.entryOf MAX k <;> simp
    · rw [registerSettingAsString_invalid MAX s _ p v (by simp [hp])]; exact Or.inl rfl

theorem putSettingValueAsInt_unchanged_or_ok (MAX : Nat) (s : Settings_t)
    (key : Option CString) (v : Int) :
    (putSettingValueAsInt MAX s key v).1 = s ∨
      (putSettingValueAsInt MAX s key v).2 = NO_ERROR := by
  rcases key_cases key with h | ⟨k, rfl, hk⟩
  · simp [putSettingValueAsInt, getSettingValue_of_empty MAX s key h]
  · rw [putSettingValueAsInt_eq MAX s k v hk]
    cases s.entryOf MAX k with
    | none => simp
    | some e => by_cases ht : e.settingValueType = INTEGER <;> simp [ht]

theorem putSettingValueAsReal_unchanged_or_ok (MAX : Nat) (s : Settings_t)
    (key : Option CString) (v : Double) :
    (putSettingValueAsReal MAX s key v).1 = s ∨
      (putSettingValueAsReal MAX s key v).2 = NO_ERROR := by
  rcases key_cases key with h | ⟨k, rfl, hk⟩
  · simp [putSettingValueAsReal, getSettingValue_of_empty MAX s key h]
  · rw [putSettingValueAsReal_eq MAX s k v hk]
    cases s.entryOf MAX k with
    | none => simp
    | some e => by_cases ht : e.settingValueType = REAL <;> simp [ht]

theorem putSettingValueAsString_unchanged_or_ok (MAX : Nat) (s : Settings_t)
    (key : Option CString) (v : Option CString) :
    (putSettingValueAsString MAX s key v).1 = s ∨
      (putSettingValueAsString MAX s key v).2 = NO_ERROR := by
  cases v with
  | none => exact Or.inl rfl
  | some str =>
    rcases key_cases key with h | ⟨k, rfl, hk⟩
    · simp [putSettingValueAsString, getSettingValue_of_empty MAX s key h]
    · rw [putSettingValueAsString_eq MAX s k str hk]
      cases s.entryOf MAX k with
      | none => simp
      | some e => by_cases ht : e.settingValueType = STRING <;> simp [ht]

/-! ### Listing -/

theorem visitEntries_collect (keep : SettingValue_t → Bool)
    (callback : SettingsKeysList_t → CString → SettingValue_t →
      SettingsKeysList_t × SettingError_t)
    (hcb : ∀ out k v, callback out k v = (if keep v then out ++ [k] else out, NO_ERROR))
    (l : List (CString × SettingValue_t)) (out : SettingsKeysList_t) :
    visitEntries NO_ERROR callback out l =
      (out ++ (l.filter (fun e => keep e.2)).map Prod.fst, NO_ERROR) := by
  induction l generalizing out with
  | nil => simp [visitEntries]
  | cons e rest ih =>
    obtain ⟨k, v⟩ := e
    simp only [visitEntries, hcb, if_true]
    rw [ih]
    by_cases hk : keep v = true
    · simp [hk, List.filter_cons]
    · simp [hk, List.filter_cons]

theorem listSettingsKeys_listed (MAX : Nat) (s : Settings_t) (pre : CString)
    (P : SettingPermissions_t) (out : SettingsKeysList_t)
    (hP : validatePermissions P = true) :
    listSettingsKeys MAX s (some pre) P .MatchSettingsWithAnyPermissionsListed out =
      (out ++ ((s.entriesUnder pre (strnlen pre MAX)).filter
        (fun e => decide (e.2.settingPermissions &&& P ≠ 0))).map Prod.fst, NO_ERROR) ∧
    listSettingsKeys MAX s (some pre) P .MatchSettingsWithAllPermissionsListed out =
      (out ++ ((s.entriesUnder pre (strnlen pre MAX)).filter
        (fun e => decide (e.2.settingPermissions = P))).map Prod.fst, NO_ERROR) ∧
    listSettingsKeys MAX s (some pre) P .ExcludeSettingsWithAllPermissionsListed out =
      (out ++ ((s.entriesUnder pre (strnlen pre MAX)).filter
        (fun e => decide (e.2.settingPermissions ≠ P))).map Prod.fst, NO_ERROR) ∧
    listSettingsKeys MAX s (some pre) P .ExcludeSettingsWithAnyPermissionsListed out =
      (out ++ ((s.entriesUnder pre (strnlen pre MAX)).filter
        (fun e => decide (e.2.settingPermissions &&& P = 0))).map Prod.fst, NO_ERROR) := by
  refine ⟨?_, ?_, ?_, ?_⟩
  · simp only [listSettingsKeys, hP, Settings_t.iterateOverPrefix]
    exact visitEntries_collect (fun v => decide (v.settingPermissions &&& P ≠ 0)) _
      (fun out k v => by
        simp only [listSettingsKeysCallback, gt_iff_lt, Nat.pos_iff_ne_zero, decide_eq_true_eq]) _ _
  · simp only [listSettingsKeys, hP, Settings_t.iterateOverPrefix]
    exact visitEntries_collect (fun v => decide (v.settingPermissions = P)) _
      (fun out k v => by simp only [listSettingsKeysCallback, decide_eq_true_eq]) _ _
  · simp only [listSettingsKeys, hP, Settings_t.iterateOverPrefix]
    exact visitEntries_collect (fun v => decide (v.settingPermissions ≠ P)) _
      (fun out k v => by simp only [listSettingsKeysCallback, decide_eq_true_eq]) _ _
  · simp only [listSettingsKeys, hP, Settings_t.iterateOverPrefix]
    exact visitEntries_collect (fun v => decide (v.settingPermissions &&& P = 0)) _
      (fun out k v => by simp only [listSettingsKeysCallback, decide_eq_true_eq]) _ _

/-! ### Restoring defaults -/

theorem restoreValue_idem (e : SettingValue_t) :
    restoreValue (restoreValue e) = restoreValue e := by
  unfold restoreValue
  by_cases h : e.settingValueType = STRING
  · simp [h, SettingValueData_t.getString]
  · simp [h]

theorem restoreValue_of_wellTyped (e : SettingValue_t) (h : e.WellTyped) :
    restoreValue e = { e with settingValueData := e.settingDefaultValueData } := by
  unfold restoreValue
  by_cases ht : e.settingValueType = STRING
  · have hd := h.2
    rw [ht] at hd
    cases hdef : e.settingDefaultValueData with
    | real v => rw [hdef] at hd; simp [SettingValueData_t.hasType] at hd
    | integer v => rw [hdef] at hd; simp [SettingValueData_t.hasType] at hd
    | string v => simp [ht, SettingValueData_t.getString]
  · simp [ht]

theorem restoreDefaultSettingsLoop_eq (MAX : Nat) (ks : SettingsKeysList_t) :
    ∀ s : Settings_t, (s.entries.map Prod.fst).Nodup →
      (∀ k ∈ s.entries.map Prod.fst, k ≠ [] ∧ k.length ≤ MAX) →
      (∀ k ∈ ks, k ∈ s.entries.map Prod.fst) →
      restoreDefaultSettingsLoop MAX s ks =
        (⟨s.entries.map (fun x => if x.1 ∈ ks then (x.1, restoreValue x.2) else x)⟩,
          NO_ERROR) := by
  induction ks with
  | nil =>
    intro s _ _ _
    simp [restoreDefaultSettingsLoop]
  | cons key rest ih =>
    intro s hnd hkeys hsub
    have hmem : key ∈ s.entries.map Prod.fst := hsub key (List.mem_cons_self _ _)
    obtain ⟨hne, hlen⟩ := hkeys key hmem
    obtain ⟨e, he⟩ := lookupEntry_of_mem_keys key s.entries hmem
    have hstored : storedKey MAX key = key := storedKey_of_length_le MAX key hlen
    have hentry : s.entryOf MAX key = some e := by rw [entryOf_eq, hstored, he]
    have hfst : (replaceEntry key (restoreValue e) s.entries).map Prod.fst =
        s.entries.map Prod.fst := map_fst_replaceEntry _ _ _
    have hstep := ih ⟨replaceEntry key (restoreValue e) s.entries⟩
      (by rw [hfst]; exact hnd) (by rw [hfst]; exact hkeys)
      (by rw [hfst]; exact fun k hk => hsub k (List.mem_cons_of_mem _ hk))
    simp only [restoreDefaultSettingsLoop, getSettingValue_some MAX s key hne, hentry,
      writeThrough, Settings_t.assign]
    have hs : key.take (strnlen key MAX) = key := hstored
    rw [hs, hstep, replaceEntry_eq_map key (restoreValue e) s.entries hnd, List.map_map]
    congr 2
    apply List.map_congr_left
    intro x hx
    by_cases hxk : x.1 = key
    · have hx2 : x.2 = e := by
        have := lookupEntry_of_mem s.entries hnd x hx
        rw [hxk, he] at this
        exact (Option.some.inj this).symm
      simp only [Function.comp, hxk, if_true, List.mem_cons, true_or, hx2]
      by_cases hr : key ∈ rest
      · simp [hr, restoreValue_idem]
      · simp [hr]
    · simp only [Function.comp, hxk, if_false, List.mem_cons, false_or]

theorem lookupEntry_map (g : CString × SettingValue_t → CString × SettingValue_t)
    (hg : ∀ x, (g x).1 = x.1) (k : CString) (l : List (CString × SettingValue_t)) :
    lookupEntry k (l.map g) = (lookupEntry k l).map (fun v => (g (k, v)).2) := by
  induction l with
  | nil => rfl
  | cons x rest ih =>
    obtain ⟨k', v'⟩ := x
    have h1 := hg (k', v')
    simp only [List.map_cons]
    rw [show g (k', v') = ((g (k', v')).1, (g (k', v')).2) from rfl, h1]
    simp only [lookupEntry]
    split
    · rename_i hk
      subst hk
      simp
    · exact ih

theorem selection_congr (p : CString → SettingPermissions_t → Bool)
    (l l' : List (CString × SettingValue_t))
    (h : l'.map (fun x => (x.1, x.2.settingPermissions)) =
      l.map (fun x => (x.1, x.2.settingPermissions))) :
    (l'.filter (fun x => p x.1 x.2.settingPermissions)).map Prod.fst =
      (l.filter (fun x => p x.1 x.2.settingPermissions)).map Prod.fst := by
  have key : ∀ m : List (CString × SettingValue_t),
      (m.filter (fun x => p x.1 x.2.settingPermissions)).map Prod.fst =
        ((m.map (fun x => (x.1, x.2.settingPermissions))).filter
          (fun y => p y.1 y.2)).map Prod.fst := by
    intro m
    induction m with
    | nil => rfl
    | cons x rest ih =>
      by_cases hp : p x.1 x.2.settingPermissions = true
      · simp [List.filter_cons, hp, ih]
      · simp [List.filter_cons, hp, ih]
  rw [key l', key l, h]

theorem listSettingsKeys_selection (MAX : Nat) (pre : CString) (P : SettingPermissions_t)
    (mode : SettingPermissionsFilterMode_t) (hP : validatePermissions P = true)
    (hmode : ∀ raw, mode ≠ .Unlisted raw) :
    ∃ p : CString → SettingPermissions_t → Bool, ∀ (s : Settings_t) (out : SettingsKeysList_t),
      listSettingsKeys MAX s (some pre) P mode out =
        (out ++ (s.entries.filter (fun x => p x.1 x.2.settingPermissions)).map Prod.fst,
          NO_ERROR) := by
  cases mode with
  | MatchSettingsWithAnyPermissionsListed =>
    refine ⟨fun k pm => (storedKey MAX pre).isPrefixOf k && decide (pm &&& P ≠ 0),
      fun s out => ?_⟩
    rw [(listSettingsKeys_listed MAX s pre P out hP).1, Settings_t.entriesUnder,
      List.filter_filter]
    simp only [storedKey, Bool.and_comm]
  | MatchSettingsWithAllPermissionsListed =>
    refine ⟨fun k pm => (storedKey MAX pre).isPrefixOf k && decide (pm = P),
      fun s out => ?_⟩
    rw [(listSettingsKeys_listed MAX s pre P out hP).2.1, Settings_t.entriesUnder,
      List.filter_filter]
    simp only [storedKey, Bool.and_comm]
  | ExcludeSettingsWithAllPermissionsListed =>
    refine ⟨fun k pm => (storedKey MAX pre).isPrefixOf k && decide (pm ≠ P),
      fun s out => ?_⟩
    rw [(listSettingsKeys_listed MAX s pre P out hP).2.2.1, Settings_t.entriesUnder,
      List.filter_filter]
    simp only [storedKey, Bool.and_comm]
  | ExcludeSettingsWithAnyPermissionsListed =>
    refine ⟨fun k pm => (storedKey MAX pre).isPrefixOf k && decide (pm &&& P = 0),
      fun s out => ?_⟩
    rw [(listSettingsKeys_listed MAX s pre P out hP).2.2.2, Settings_t.entriesUnder,
      List.filter_filter]
    simp only [storedKey, Bool.and_comm]
  | Unlisted raw => exact absurd rfl (hmode raw)

theorem restoreDefaultSettings_eq (MAX : Nat) (s : Settings_t) (pre : CString)
    (P : SettingPermissions_t) (mode : SettingPermissionsFilterMode_t)
    (hnd : (s.entries.map Prod.fst).Nodup)
    (hkeys : ∀ k ∈ s.entries.map Prod.fst, k ≠ [] ∧ k.length ≤ MAX)
    (hP : validatePermissions P = true) (hmode : ∀ raw, mode ≠ .Unlisted raw) :
    restoreDefaultSettings MAX s (some pre) P mode =
      (⟨s.entries.map (fun x =>
        if x.1 ∈ (listSettingsKeys MAX s (some pre) P mode []).1 then (x.1, restoreValue x.2)
        else x)⟩, NO_ERROR) := by
  obtain ⟨p, hp⟩ := listSettingsKeys_selection MAX pre P mode hP hmode
  simp only [restoreDefaultSettings, hp s [], List.nil_append]
  apply restoreDefaultSettingsLoop_eq MAX _ s hnd hkeys
  intro k hk
  exact ((List.filter_sublist _).map Prod.fst).subset hk

theorem restore_after_replace (MAX : Nat) (s : Settings_t) (pre : CString)
    (P : SettingPermissions_t) (mode : SettingPermissionsFilterMode_t) (key : CString)
    (e e1 : SettingValue_t) (hnd : (s.entries.map Prod.fst).Nodup)
    (hkeys : ∀ k ∈ s.entries.map Prod.fst, k ≠ [] ∧ k.length ≤ MAX)
    (hP : validatePermissions P = true) (hmode : ∀ raw, mode ≠ .Unlisted raw)
    (he : s.entryOf MAX key = some e)
    (hsel : storedKey MAX key ∈
      (listSettingsKeys MAX ⟨replaceEntry (storedKey MAX key) e1 s.entries⟩ (some pre) P mode
        []).1) :
    Settings_t.entryOf MAX
      (restoreDefaultSettings MAX ⟨replaceEntry (storedKey MAX key) e1 s.entries⟩ (some pre) P
        mode).1 key = some (restoreValue e1) := by
  have hfst : (replaceEntry (storedKey MAX key) e1 s.entries).map Prod.fst =
      s.entries.map Prod.fst := map_fst_replaceEntry _ _ _
  rw [restoreDefaultSettings_eq MAX ⟨replaceEntry (storedKey MAX key) e1 s.entries⟩ pre P mode
    (by rw [hfst]; exact hnd) (by rw [hfst]; exact hkeys) hP hmode]
  rw [entryOf_eq, lookupEntry_map _ (fun x => by split <;> rfl),
    lookupEntry_replaceEntry_self]
  rw [entryOf_eq] at he
  simp [he, hsel]

/-! ### What every operation keeps -/

theorem entriesKept_registerSettingAsInt (MAX : Nat) (s : Settings_t) (key : Option CString)
    (p : SettingPermissions_t) (v : Int) :
    s.EntriesKept (registerSettingAsInt MAX s key p v).1 := by
  rcases key_cases key with h | ⟨k, rfl, hk⟩
  · rw [registerSettingAsInt_invalid MAX s key p v (by tauto)]; exact entriesKept_refl s
  · by_cases hp : validatePermissions p = true
    · rw [registerSettingAsInt_eq MAX s k p v hk hp]
      cases he : s.entryOf MAX k with
      | none => exact entriesKept_insertEntry _ _ s he
      | some e => exact entriesKept_refl s
    · rw [registerSettingAsInt_invalid MAX s _ p v (by simp [hp])]; exact entriesKept_refl s

theorem entriesKept_registerSettingAsReal (MAX : Nat) (s : Settings_t) (key : Option CString)
    (p : SettingPermissions_t) (v : Double) :
    s.EntriesKept (registerSettingAsReal MAX s key p v).1 := by
  rcases key_cases key with h | ⟨k, rfl, hk⟩
  · rw [registerSettingAsReal_invalid MAX s key p v (by tauto)]; exact entriesKept_refl s
  · by_cases hp : validatePermissions p = true
    · rw [registerSettingAsReal_eq MAX s k p v hk hp]
      cases he : s.entryOf MAX k with
      | none => exact entriesKept_insertEntry _ _ s he
      | some e => exact entriesKept_refl s
    · rw [registerSettingAsReal_invalid MAX s _ p v (by simp [hp])]; exact entriesKept_refl s

theorem entriesKept_registerSettingAsString (MAX : Nat) (s : Settings_t)
    (key : Option CString) (p : SettingPermissions_t) (v : Option CString) :
    s.EntriesKept (registerSettingAsString MAX s key p v).1 := by
  rcases key_cases key with h | ⟨k, rfl, hk⟩
  · rw [registerSettingAsString_invalid MAX s key p v (by tauto)]; exact entriesKept_refl s
  · by_cases hp : validatePermissions p = true
    · cases v with
      | none =>
        rw [registerSettingAsString_invalid MAX s _ p none (by simp)]; exact entriesKept_refl s
      | some str =>
        rw [registerSettingAsString_eq MAX s k p str hk hp]
        cases he : s.entryOf MAX k with
        | none => exact entriesKept_insertEntry _ _ s he
        | some e => exact entriesKept_refl s
    · rw [registerSettingAsString_invalid MAX s _ p v (by simp [hp])]
      exact entriesKept_refl s

theorem entriesKept_putSettingValueAsInt (MAX : Nat) (s : Settings_t) (key : Option CString)
    (v : Int) : s.EntriesKept (putSettingValueAsInt MAX s key v).1 := by
  rcases key_cases key with h | ⟨k, rfl, hk⟩
  · simp only [putSettingValueAsInt, getSettingValue_of_empty MAX s key h]
    exact entriesKept_refl s
  · rw [putSettingValueAsInt_eq MAX s k v hk]
    cases he : s.entryOf MAX k with
    | none => exact entriesKept_refl s
    | some e =>
      by_cases ht : e.settingValueType = INTEGER
      · simp only [ht, ne_eq, not_true_eq_false, if_false]
        exact entriesKept_replaceEntry _ e _ s he ht.symm rfl rfl
      · simp only [ht, ne_eq, not_false_eq_true, if_true]
        exact entriesKept_refl s

theorem entriesKept_putSettingValueAsReal (MAX : Nat) (s : Settings_t) (key : Option CString)
    (v : Double) : s.EntriesKept (putSettingValueAsReal MAX s key v).1 := by
  rcases key_cases key with h | ⟨k, rfl, hk⟩
  · simp only [putSettingValueAsReal, getSettingValue_of_empty MAX s key h]
    exact entriesKept_refl s
  · rw [putSettingValueAsReal_eq MAX s k v hk]
    cases he : s.entryOf MAX k with
    | none => exact entriesKept_refl s
    | some e =>
      by_cases ht : e.settingValueType = REAL
      · simp only [ht, ne_eq, not_true_eq_false, if_false]
        exact entriesKept_replaceEntry _ e _ s he ht.symm rfl rfl
      · simp only [ht, ne_eq, not_false_eq_true, if_true]
        exact entriesKept_refl s

theorem entriesKept_putSettingValueAsString (MAX : Nat) (s : Settings_t)
    (key : Option CString) (v : Option CString) :
    s.EntriesKept (putSettingValueAsString MAX s key v).1 := by
  cases v with
  | none => exact entriesKept_refl s
  | some str =>
    rcases key_cases key with h | ⟨k, rfl, hk⟩
    · simp only [putSettingValueAsString, getSettingValue_of_empty MAX s key h]
      exact entriesKept_refl s
    · rw [putSettingValueAsString_eq MAX s k str hk]
      cases he : s.entryOf MAX k with
      | none => exact entriesKept_refl s
      | some e =>
        by_cases ht : e.settingValueType = STRING
        · simp only [ht, ne_eq, not_true_eq_false, if_false]
          exact entriesKept_replaceEntry _ e _ s he ht.symm rfl rfl
        · simp only [ht, ne_eq, not_false_eq_true, if_true]
          exact entriesKept_refl s

theorem entriesKept_restoreDefaultSettingsLoop (MAX : Nat) (ks : SettingsKeysList_t) :
    ∀ s : Settings_t, s.EntriesKept (restoreDefaultSettingsLoop MAX s ks).1 := by
  induction ks with
  | nil => exact fun s => entriesKept_refl s
  | cons key rest ih =>
    intro s
    cases key with
    | nil => exact entriesKept_refl s
    | cons c cs =>
      have hne : (c :: cs) ≠ [] := by simp
      simp only [restoreDefaultSettingsLoop, getSettingValue_some MAX s (c :: cs) hne]
      cases he : s.entryOf MAX (c :: cs) with
      | none => exact entriesKept_refl s
      | some e =>
        simp only [writeThrough, Settings_t.assign]
        refine entriesKept_trans ?_ (ih _)
        refine entriesKept_replaceEntry _ e _ s he ?_ ?_ ?_ <;>
          (unfold restoreValue; split <;> rfl)

theorem entriesKept_restoreDefaultSettings (MAX : Nat) (s : Settings_t)
    (pre : Option CString) (P : SettingPermissions_t)
    (mode : SettingPermissionsFilterMode_t) :
    s.EntriesKept (restoreDefaultSettings MAX s pre P mode).1 := by
  cases pre with
  | none => exact entriesKept_refl s
  | some pr =>
    simp only [restoreDefaultSettings]
    split
    · exact entriesKept_restoreDefaultSettingsLoop MAX _ s
    · exact entriesKept_refl s

theorem entriesKept_of_eq {α : Type} {s s' : Settings_t} {r : Settings_t × α}
    {err : α} (h : r = (s', err)) (hk : s.EntriesKept r.1) :
    s.EntriesKept s' := by
  subst h
  exact hk

theorem entriesKept_loadSetting (MAX : Nat) (target : Target) (s : Settings_t)
    (settingStr : CString) : s.EntriesKept (loadSetting MAX target s settingStr).1 := by
  unfold loadSetting
  simp only []
  repeat' split
  all_goals first
    | exact entriesKept_refl s
    | (rename_i heq
       exact entriesKept_of_eq heq (entriesKept_putSettingValueAsReal MAX s _ _))
    | (rename_i heq
       exact entriesKept_of_eq heq (entriesKept_registerSettingAsReal MAX s _ _ _))
    | (rename_i heq
       exact entriesKept_of_eq heq (entriesKept_putSettingValueAsInt MAX s _ _))
    | (rename_i heq
       exact entriesKept_of_eq heq (entriesKept_registerSettingAsInt MAX s _ _ _))
    | (rename_i heq
       exact entriesKept_of_eq heq (entriesKept_putSettingValueAsString MAX s _ _))
    | (rename_i heq
       exact entriesKept_of_eq heq (entriesKept_registerSettingAsString MAX s _ _ _))

theorem entriesKept_loadSettingsLoop (MAX : Nat) (target : Target) (unread : List CString) :
    ∀ (s : Settings_t) (script : List SettingsFileResult),
      s.EntriesKept (loadSettingsLoop MAX target s script unread).1 := by
  induction unread with
  | nil =>
    intro s script
    unfold loadSettingsLoop
    split
    · exact entriesKept_refl s
    · exact entriesKept_refl s
    · exact entriesKept_refl s
  | cons settingStr rest ih =>
    intro s script
    unfold loadSettingsLoop
    split
    · simp only []
      split
      · exact ih s _
      · split
        · rename_i heq
          exact entriesKept_trans
            (entriesKept_of_eq heq (entriesKept_loadSetting MAX target s settingStr)) (ih _ _)
        · exact entriesKept_refl s
    · exact entriesKept_refl s
    · exact entriesKept_refl s

theorem entriesKept_loadSettingsFromPersistentStorage (MAX : Nat) (target : Target)
    (s : Settings_t) (settingsFile : SettingsFile) :
    s.EntriesKept (loadSettingsFromPersistentStorage MAX target s settingsFile).1 := by
  unfold loadSettingsFromPersistentStorage
  split
  · split
    · split
      · rename_i heq
        have hk := entriesKept_of_eq heq (entriesKept_loadSettingsLoop MAX target _ s _)
        split <;> exact hk
      · rename_i heq
        exact entriesKept_of_eq heq (entriesKept_loadSettingsLoop MAX target _ s _)
    · exact entriesKept_refl s
  · exact entriesKept_refl s

/-! ### Well-formed stores are what the operations produce -/

theorem storedKey_bounds (MAX : Nat) (key : CString) (hMAX : 0 < MAX) (hkey : key ≠ []) :
    storedKey MAX key ≠ [] ∧ (storedKey MAX key).length ≤ MAX := by
  rw [storedKey_eq_take]
  constructor
  · cases key with
    | nil => exact absurd rfl hkey
    | cons c cs =>
      cases MAX with
      | zero => exact absurd hMAX (by simp)
      | succ n => simp
  · simp [List.length_take]

theorem wellFormed_registerSettingAsInt (MAX : Nat) (s : Settings_t) (key : Option CString)
    (p : SettingPermissions_t) (v : Int) (hMAX : 0 < MAX) (hwf : s.WellFormed MAX) :
    (registerSettingAsInt MAX s key p v).1.WellFormed MAX := by
  rcases key_cases key with h | ⟨k, rfl, hk⟩
  · rw [registerSettingAsInt_invalid MAX s key p v (by tauto)]; exact hwf
  · by_cases hp : validatePermissions p = true
    · rw [registerSettingAsInt_eq MAX s k p v hk hp]
      cases he : s.entryOf MAX k with
      | none =>
        exact wellFormed_insertEntry MAX s _ _ hwf he (storedKey_bounds MAX k hMAX hk)
          ⟨rfl, rfl⟩
      | some e => exact hwf
    · rw [registerSettingAsInt_invalid MAX s _ p v (by simp [hp])]; exact hwf

theorem wellFormed_registerSettingAsReal (MAX : Nat) (s : Settings_t) (key : Option CString)
    (p : SettingPermissions_t) (v : Double) (hMAX : 0 < MAX) (hwf : s.WellFormed MAX) :
    (registerSettingAsReal MAX s key p v).1.WellFormed MAX := by
  rcases key_cases key with h | ⟨k, rfl, hk⟩
  · rw [registerSettingAsReal_invalid MAX s key p v (by tauto)]; exact hwf
  · by_cases hp : validatePermissions p = true
    · rw [registerSettingAsReal_eq MAX s k p v hk hp]
      cases he : s.entryOf MAX k with
      | none =>
        exact wellFormed_insertEntry MAX s _ _ hwf he (storedKey_bounds MAX k hMAX hk)
          ⟨rfl, rfl⟩
      | some e => exact hwf
    · rw [registerSettingAsReal_invalid MAX s _ p v (by simp [hp])]; exact hwf

theorem wellFormed_registerSettingAsString (MAX : Nat) (s : Settings_t)
    (key : Option CString) (p : SettingPermissions_t) (v : Option CString) (hMAX : 0 < MAX)
    (hwf : s.WellFormed MAX) : (registerSettingAsString MAX s key p v).1.WellFormed MAX := by
  rcases key_cases key with h | ⟨k, rfl, hk⟩
  · rw [registerSettingAsString_invalid MAX s key p v (by tauto)]; exact hwf
  · by_cases hp : validatePermissions p = true
    · cases v with
      | none => rw [registerSettingAsString_invalid MAX s _ p none (by simp)]; exact hwf
      | some str =>
        rw [registerSettingAsString_eq MAX s k p str hk hp]
        cases he : s.entryOf MAX k with
        | none =>
          exact wellFormed_insertEntry MAX s _ _ hwf he (storedKey_bounds MAX k hMAX hk)
            ⟨rfl, rfl⟩
        | some e => exact hwf
    · rw [registerSettingAsString_invalid MAX s _ p v (by simp [hp])]; exact hwf

theorem wellFormed_putSettingValueAsInt (MAX : Nat) (s : Settings_t) (key : Option CString)
    (v : Int) (hwf : s.WellFormed MAX) : (putSettingValueAsInt MAX s key v).1.WellFormed MAX := by
  rcases key_cases key with h | ⟨k, rfl, hk⟩
  · simp only [putSettingValueAsInt, getSettingValue_of_empty MAX s key h]
    exact hwf
  · rw [putSettingValueAsInt_eq MAX s k v hk]
    cases he : s.entryOf MAX k with
    | none => exact hwf
    | some e =>
      have hwt : e.WellTyped := (hwf.2 _ (lookupEntry_mem _ e _ he)).2.2
      by_cases ht : e.settingValueType = INTEGER
      · simp only [ht, ne_eq, not_true_eq_false, if_false]
        refine wellFormed_replaceEntry MAX s _ e _ hwf he ⟨rfl, ?_⟩
        have := hwt.2
        rw [ht] at this
        exact this
      · simp only [ht, ne_eq, not_false_eq_true, if_true]
        exact hwf

theorem wellFormed_putSettingValueAsReal (MAX : Nat) (s : Settings_t) (key : Option CString)
    (v : Double) (hwf : s.WellFormed MAX) :
    (putSettingValueAsReal MAX s key v).1.WellFormed MAX := by
  rcases key_cases key with h | ⟨k, rfl, hk⟩
  · simp only [putSettingValueAsReal, getSettingValue_of_empty MAX s key h]
    exact hwf
  · rw [putSettingValueAsReal_eq MAX s k v hk]
    cases he : s.entryOf MAX k with
    | none => exact hwf
    | some e =>
      have hwt : e.WellTyped := (hwf.2 _ (lookupEntry_mem _ e _ he)).2.2
      by_cases ht : e.settingValueType = REAL
      · simp only [ht, ne_eq, not_true_eq_false, if_false]
        refine wellFormed_replaceEntry MAX s _ e _ hwf he ⟨rfl, ?_⟩
        have := hwt.2
        rw [ht] at this
        exact this
      · simp only [ht, ne_eq, not_false_eq_true, if_true]
        exact hwf

theorem wellFormed_putSettingValueAsString (MAX : Nat) (s : Settings_t)
    (key : Option CString) (v : Option CString) (hwf : s.WellFormed MAX) :
    (putSettingValueAsString MAX s key v).1.WellFormed MAX := by
  cases v with
  | none => exact hwf
  | some str =>
    rcases key_cases key with h | ⟨k, rfl, hk⟩
    · simp only [putSettingValueAsString, getSettingValue_of_empty MAX s key h]
      exact hwf
    · rw [putSettingValueAsString_eq MAX s k str hk]
      cases he : s.entryOf MAX k with
      | none => exact hwf
      | some e =>
        have hwt : e.WellTyped := (hwf.2 _ (lookupEntry_mem _ e _ he)).2.2
        by_cases ht : e.settingValueType = STRING
        · simp only [ht, ne_eq, not_true_eq_false, if_false]
          refine wellFormed_replaceEntry MAX s _ e _ hwf he ⟨rfl, ?_⟩
          have := hwt.2
          rw [ht] at this
          exact this
        · simp only [ht, ne_eq, not_false_eq_true, if_true]
          exact hwf

theorem wellTyped_restoreValue (e : SettingValue_t) (h : e.WellTyped) :
    (restoreValue e).WellTyped := by
  rw [restoreValue_of_wellTyped e h]
  exact ⟨h.2, h.2⟩

theorem wellFormed_restoreDefaultSettingsLoop (MAX : Nat) (ks : SettingsKeysList_t) :
    ∀ s : Settings_t, s.WellFormed MAX → (restoreDefaultSettingsLoop MAX s ks).1.WellFormed MAX := by
  induction ks with
  | nil => exact fun s h => h
  | cons key rest ih =>
    intro s hwf
    cases key with
    | nil => exact hwf
    | cons c cs =>
      have hne : (c :: cs) ≠ [] := by simp
      simp only [restoreDefaultSettingsLoop, getSettingValue_some MAX s (c :: cs) hne]
      cases he : s.entryOf MAX (c :: cs) with
      | none => exact hwf
      | some e =>
        simp only [writeThrough, Settings_t.assign]
        exact ih _ (wellFormed_replaceEntry MAX s _ e _ hwf he
          (wellTyped_restoreValue e (hwf.2 _ (lookupEntry_mem _ e _ he)).2.2))

theorem wellFormed_restoreDefaultSettings (MAX : Nat) (s : Settings_t)
    (pre : Option CString) (P : SettingPermissions_t)
    (mode : SettingPermissionsFilterMode_t) (hwf : s.WellFormed MAX) :
    (restoreDefaultSettings MAX s pre P mode).1.WellFormed MAX := by
  cases pre with
  | none => exact hwf
  | some pr =>
    simp only [restoreDefaultSettings]
    split
    · exact wellFormed_restoreDefaultSettingsLoop MAX _ s hwf
    · exact hwf

theorem wellFormed_of_eq {α : Type} {MAX : Nat} {s' : Settings_t} {r : Settings_t × α}
    {err : α} (h : r = (s', err)) (hk : r.1.WellFormed MAX) : s'.WellFormed MAX := by
  subst h
  exact hk

theorem wellFormed_loadSetting (MAX : Nat) (target : Target) (s : Settings_t)
    (settingStr : CString) (hMAX : 0 < MAX) (hwf : s.WellFormed MAX) :
    (loadSetting MAX target s settingStr).1.WellFormed MAX := by
  unfold loadSetting
  simp only []
  repeat' split
  all_goals first
    | exact hwf
    | (rename_i heq
       exact wellFormed_of_eq heq (wellFormed_putSettingValueAsReal MAX s _ _ hwf))
    | (rename_i heq
       exact wellFormed_of_eq heq (wellFormed_registerSettingAsReal MAX s _ _ _ hMAX hwf))
    | (rename_i heq
       exact wellFormed_of_eq heq (wellFormed_putSettingValueAsInt MAX s _ _ hwf))
    | (rename_i heq
       exact wellFormed_of_eq heq (wellFormed_registerSettingAsInt MAX s _ _ _ hMAX hwf))
    | (rename_i heq
       exact wellFormed_of_eq heq (wellFormed_putSettingValueAsString MAX s _ _ hwf))
    | (rename_i heq
       exact wellFormed_of_eq heq (wellFormed_registerSettingAsString MAX s _ _ _ hMAX hwf))

theorem wellFormed_loadSettingsLoop (MAX : Nat) (target : Target) (hMAX : 0 < MAX)
    (unread : List CString) :
    ∀ (s : Settings_t) (script : List SettingsFileResult), s.WellFormed MAX →
      (loadSettingsLoop MAX target s script unread).1.WellFormed MAX := by
  induction unread with
  | nil =>
    intro s script hwf
    unfold loadSettingsLoop
    split
    · exact hwf
    · exact hwf
    · exact hwf
  | cons settingStr rest ih =>
    intro s script hwf
    unfold loadSettingsLoop
    split
    · simp only []
      split
      · exact ih s _ hwf
      · split
        · rename_i heq
          exact ih _ _
            (wellFormed_of_eq heq (wellFormed_loadSetting MAX target s settingStr hMAX hwf))
        · exact hwf
    · exact hwf
    · exact hwf

theorem wellFormed_loadSettingsFromPersistentStorage (MAX : Nat) (target : Target)
    (s : Settings_t) (settingsFile : SettingsFile) (hMAX : 0 < MAX) (hwf : s.WellFormed MAX) :
    (loadSettingsFromPersistentStorage MAX target s settingsFile).1.WellFormed MAX := by
  unfold loadSettingsFromPersistentStorage
  split
  · split
    · split
      · rename_i heq
        have hk := wellFormed_of_eq heq (wellFormed_loadSettingsLoop MAX target hMAX _ s _ hwf)
        split <;> exact hk
      · rename_i heq
        exact wellFormed_of_eq heq (wellFormed_loadSettingsLoop MAX target hMAX _ s _ hwf)
    · exact hwf
  · exact hwf

end SettingsStorage

/-! ## The claims -/

namespace SettingsStorage

open SettingError_t SettingValueType_t

/-- C1 (register/get round trip). For a non-empty key for which the store holds
no entry (the store files a key under its first `MAX_SETTING_KEY_SIZE` bytes,
so for a key within that length: a key absent from the registry), a valid
permission mask `p` and a value `v`: registering as Integer, Real or String
returns NO_ERROR, and right afterwards the getter of the current value and the
getter of the default value both return NO_ERROR with `v` and `p`. For a
String the getters are given a buffer of `n > strlen(v)` bytes, which then
holds `v` followed by a NUL. -/
theorem register_get_round_trip (MAX : Nat) (settings : Settings_t) (key : CString)
    (p : SettingPermissions_t) (hkey : key ≠ []) (habsent : settings.entryOf MAX key = none)
    (hperm : validatePermissions p = true) :
    (∀ (v out : Int) (q : SettingPermissions_t),
      (registerSettingAsInt MAX settings (some key) p v).2 = NO_ERROR ∧
      getSettingAsInt MAX (registerSettingAsInt MAX settings (some key) p v).1 (some key) out
        (some q) = (NO_ERROR, v, some p) ∧
      getDefaultSettingAsInt MAX (registerSettingAsInt MAX settings (some key) p v).1
        (some key) out (some q) = (NO_ERROR, v, some p)) ∧
    (∀ (v out : Double) (q : SettingPermissions_t),
      (registerSettingAsReal MAX settings (some key) p v).2 = NO_ERROR ∧
      getSettingAsReal MAX (registerSettingAsReal MAX settings (some key) p v).1 (some key) out
        (some q) = (NO_ERROR, v, some p) ∧
      getDefaultSettingAsReal MAX (registerSettingAsReal MAX settings (some key) p v).1
        (some key) out (some q) = (NO_ERROR, v, some p)) ∧
    (∀ (v : CString) (buffer : List Nat) (n : Nat) (q : SettingPermissions_t),
      v.length < n → n ≤ buffer.length →
      (registerSettingAsString MAX settings (some key) p (some v)).2 = NO_ERROR ∧
      (getSettingAsString MAX (registerSettingAsString MAX settings (some key) p (some v)).1
        (some key) (some buffer) n (some q)).1 = NO_ERROR ∧
      (storeBytes buffer
        (getSettingAsString MAX (registerSettingAsString MAX settings (some key) p (some v)).1
          (some key) (some buffer) n (some q)).2.1).take (v.length + 1) = v ++ [0] ∧
      (getSettingAsString MAX (registerSettingAsString MAX settings (some key) p (some v)).1
        (some key) (some buffer) n (some q)).2.2 = some p ∧
      (getDefaultSettingAsString MAX
        (registerSettingAsString MAX settings (some key) p (some v)).1
        (some key) (some buffer) n (some q)).1 = NO_ERROR ∧
      (storeBytes buffer
        (getDefaultSettingAsString MAX
          (registerSettingAsString MAX settings (some key) p (some v)).1
          (some key) (some buffer) n (some q)).2.1).take (v.length + 1) = v ++ [0] ∧
      (getDefaultSettingAsString MAX
        (registerSettingAsString MAX settings (some key) p (some v)).1
        (some key) (some buffer) n (some q)).2.2 = some p) := by
  refine ⟨fun v out q => ?_, fun v out q => ?_, fun v buffer n q hlen hbuf => ?_⟩
  · rw [registerSettingAsInt_eq MAX settings key p v hkey hperm, habsent]
    simp only [getSettingAsInt, getDefaultSettingAsInt, getSettingValueAsInt_eq _ _ _ _ _ _ hkey,
      entryOf_insertEntry MAX settings key key _ habsent]
    simp [SettingValueData_t.getInteger]
  · rw [registerSettingAsReal_eq MAX settings key p v hkey hperm, habsent]
    simp only [getSettingAsReal, getDefaultSettingAsReal,
      getSettingValueAsReal_eq _ _ _ _ _ _ hkey,
      entryOf_insertEntry MAX settings key key _ habsent]
    simp [SettingValueData_t.getReal]
  · rw [registerSettingAsString_eq MAX settings key p v hkey hperm, habsent]
    simp only [getSettingAsString, getDefaultSettingAsString,
      getSettingValueAsString_eq _ _ _ _ _ _ _ hkey,
      entryOf_insertEntry MAX settings key key _ habsent]
    have hn : ¬ v.length ≥ n := by omega
    simp [SettingValueData_t.getString, hn, take_storeBytes_getString v buffer n hlen hbuf]

/-- C1 at a concrete input: the key "net.timeout" in an empty registry. -/
theorem register_get_round_trip_witness :
    getSettingAsInt 32 (registerSettingAsInt 32 ⟨[]⟩ (some (bytes "net.timeout")) 1 30).1
      (some (bytes "net.timeout")) 0 (some 0) = (NO_ERROR, 30, some 1) :=
  ((register_get_round_trip 32 ⟨[]⟩ (bytes "net.timeout") 1 (by decide) (by decide)
    (by decide)).1 30 0 0).2.1

/-- C3 (result characterisation of the typed getters). `getSettingAsInt` and
`getDefaultSettingAsInt` are `getSettingValueAsInt` reading the current and the
default value, and likewise for Real. For every store, key and output
parameters the getter returns INVALID_INPUT_ERROR iff the key is null or
empty, KEY_NOT_FOUND_ERROR iff the key is non-empty and the store holds no
entry for it, TYPE_MISMATCH_ERROR iff the store holds an entry of another
type for it, and otherwise NO_ERROR with the entry's current (resp. default)
value and permissions; on an error the output parameters keep their content.
The getters are functions of the store and yield no new store. -/
theorem typed_getter_results (MAX : Nat) (s : Settings_t) (type : TypeofSettingValue)
    (key : Option CString) (q : Option SettingPermissions_t) :
    (∀ out : Int,
      ((getSettingValueAsInt MAX s type key out q).1 = INVALID_INPUT_ERROR ↔
        (key = none ∨ key = some [])) ∧
      ((getSettingValueAsInt MAX s type key out q).1 = KEY_NOT_FOUND_ERROR ↔
        ∃ k, key = some k ∧ k ≠ [] ∧ s.entryOf MAX k = none) ∧
      ((getSettingValueAsInt MAX s type key out q).1 = TYPE_MISMATCH_ERROR ↔
        ∃ k e, key = some k ∧ k ≠ [] ∧ s.entryOf MAX k = some e ∧
          e.settingValueType ≠ INTEGER) ∧
      (∀ k e, key = some k → k ≠ [] → s.entryOf MAX k = some e →
        e.settingValueType = INTEGER →
        getSettingValueAsInt MAX s type key out q =
          (NO_ERROR,
            if type = .DefaultValue then e.settingDefaultValueData.getInteger
            else e.settingValueData.getInteger,
            q.map (fun _ => e.settingPermissions))) ∧
      ((getSettingValueAsInt MAX s type key out q).1 ≠ NO_ERROR →
        (getSettingValueAsInt MAX s type key out q).2 = (out, q))) ∧
    (∀ out : Double,
      ((getSettingValueAsReal MAX s type key out q).1 = INVALID_INPUT_ERROR ↔
        (key = none ∨ key = some [])) ∧
      ((getSettingValueAsReal MAX s type key out q).1 = KEY_NOT_FOUND_ERROR ↔
        ∃ k, key = some k ∧ k ≠ [] ∧ s.entryOf MAX k = none) ∧
      ((getSettingValueAsReal MAX s type key out q).1 = TYPE_MISMATCH_ERROR ↔
        ∃ k e, key = some k ∧ k ≠ [] ∧ s.entryOf MAX k = some e ∧
          e.settingValueType ≠ REAL) ∧
      (∀ k e, key = some k → k ≠ [] → s.entryOf MAX k = some e →
        e.settingValueType = REAL →
        getSettingValueAsReal MAX s type key out q =
          (NO_ERROR,
            if type = .DefaultValue then e.settingDefaultValueData.getReal
            else e.settingValueData.getReal,
            q.map (fun _ => e.settingPermissions))) ∧
      ((getSettingValueAsReal MAX s type key out q).1 ≠ NO_ERROR →
        (getSettingValueAsReal MAX s type key out q).2 = (out, q))) ∧
    getSettingAsInt MAX s key = getSettingValueAsInt MAX s .Value key ∧
    getDefaultSettingAsInt MAX s key = getSettingValueAsInt MAX s .DefaultValue key ∧
    getSettingAsReal MAX s key = getSettingValueAsReal MAX s .Value key ∧
    getDefaultSettingAsReal MAX s key = getSettingValueAsReal MAX s .DefaultValue key := by
  refine ⟨fun out => ?_, fun out => ?_, rfl, rfl, rfl, rfl⟩
  · rcases key_cases key with h | ⟨k, rfl, hk⟩
    · have hg : getSettingValueAsInt MAX s type key out q = (INVALID_INPUT_ERROR, out, q) := by
        simp only [getSettingValueAsInt, getSettingValue_of_empty MAX s key h]
      rw [hg]
      rcases h with h | h
      · subst h
        simp
      · subst h
        simp only [true_iff, or_true, reduceCtorEq, false_iff, ne_eq, not_false_eq_true,
          implies_true, and_true]
        simp
        intro k e hk1 hk2
        exact absurd hk1 hk2
    · rw [getSettingValueAsInt_eq MAX s type k out q hk]
      cases he : s.entryOf MAX k with
      | none =>
        simp [hk, he]
        intro k1 e1 h1 _ h2
        subst h1
        rw [he] at h2
        cases h2
      | some e =>
        by_cases ht : e.settingValueType = INTEGER
        · simp only [ht, ne_eq, not_true_eq_false, if_false]
          simp [hk, he, ht]
          intro k1 e1 h1 _ h2
          subst h1
          rw [he] at h2
          cases h2
          simp_all
        · simp [hk, he, ht]
          intro k1 e1 h1 _ h2
          subst h1
          rw [he] at h2
          cases h2
          simp_all
  · rcases key_cases key with h | ⟨k, rfl, hk⟩
    · have hg : getSettingValueAsReal MAX s type key out q = (INVALID_INPUT_ERROR, out, q) := by
        simp only [getSettingValueAsReal, getSettingValue_of_empty MAX s key h]
      rw [hg]
      rcases h with h | h
      · subst h
        simp
      · subst h
        simp only [true_iff, or_true, reduceCtorEq, false_iff, ne_eq, not_false_eq_true,
          implies_true, and_true]
        simp
        intro k e hk1 hk2
        exact absurd hk1 hk2
    · rw [getSettingValueAsReal_eq MAX s type k out q hk]
      cases he : s.entryOf MAX k with
      | none =>
        simp [hk, he]
        intro k1 e1 h1 _ h2
        subst h1
        rw [he] at h2
        cases h2
      | some e =>
        by_cases ht : e.settingValueType = REAL
        · simp only [ht, ne_eq, not_true_eq_false, if_false]
          simp [hk, he, ht]
          intro k1 e1 h1 _ h2
          subst h1
          rw [he] at h2
          cases h2
          simp_all
        · simp [hk, he, ht]
          intro k1 e1 h1 _ h2
          subst h1
          rw [he] at h2
          cases h2
          simp_all

/-- C4 (put overwrites the current value only). For a non-empty key for which
the store holds an entry `e` of type T and a value `v` of type T,
`putSettingValueAs<T>` returns NO_ERROR; afterwards the getter of the current
value returns `v` with the entry's permissions, the getter of the default
value returns what it returned before, the store has the same keys, and the
entry of every other stored key is the one it was. For a String the getter is
given a buffer of `n > strlen(v)` bytes, which then holds `v` followed by a
NUL. -/
theorem put_overwrites_current_only (MAX : Nat) (s : Settings_t) (key : CString)
    (e : SettingValue_t) (hkey : key ≠ []) (he : s.entryOf MAX key = some e) :
    (e.settingValueType = INTEGER → ∀ v : Int,
      (putSettingValueAsInt MAX s (some key) v).2 = NO_ERROR ∧
      (∀ out q, getSettingAsInt MAX (putSettingValueAsInt MAX s (some key) v).1 (some key)
        out q = (NO_ERROR, v, q.map (fun _ => e.settingPermissions))) ∧
      (∀ out q, getDefaultSettingAsInt MAX (putSettingValueAsInt MAX s (some key) v).1
        (some key) out q = getDefaultSettingAsInt MAX s (some key) out q) ∧
      (putSettingValueAsInt MAX s (some key) v).1.entries.map Prod.fst =
        s.entries.map Prod.fst ∧
      (∀ k', k' ≠ storedKey MAX key →
        lookupEntry k' (putSettingValueAsInt MAX s (some key) v).1.entries =
          lookupEntry k' s.entries)) ∧
    (e.settingValueType = REAL → ∀ v : Double,
      (putSettingValueAsReal MAX s (some key) v).2 = NO_ERROR ∧
      (∀ out q, getSettingAsReal MAX (putSettingValueAsReal MAX s (some key) v).1 (some key)
        out q = (NO_ERROR, v, q.map (fun _ => e.settingPermissions))) ∧
      (∀ out q, getDefaultSettingAsReal MAX (putSettingValueAsReal MAX s (some key) v).1
        (some key) out q = getDefaultSettingAsReal MAX s (some key) out q) ∧
      (putSettingValueAsReal MAX s (some key) v).1.entries.map Prod.fst =
        s.entries.map Prod.fst ∧
      (∀ k', k' ≠ storedKey MAX key →
        lookupEntry k' (putSettingValueAsReal MAX s (some key) v).1.entries =
          lookupEntry k' s.entries)) ∧
    (e.settingValueType = STRING → ∀ v : CString,
      (putSettingValueAsString MAX s (some key) (some v)).2 = NO_ERROR ∧
      (∀ (buffer : List Nat) (n : Nat) q, v.length < n → n ≤ buffer.length →
        (getSettingAsString MAX (putSettingValueAsString MAX s (some key) (some v)).1
          (some key) (some buffer) n q).1 = NO_ERROR ∧
        (storeBytes buffer
          (getSettingAsString MAX (putSettingValueAsString MAX s (some key) (some v)).1
            (some key) (some buffer) n q).2.1).take (v.length + 1) = v ++ [0] ∧
        (getSettingAsString MAX (putSettingValueAsString MAX s (some key) (some v)).1
          (some key) (some buffer) n q).2.2 = q.map (fun _ => e.settingPermissions)) ∧
      (∀ buffer n q,
        getDefaultSettingAsString MAX (putSettingValueAsString MAX s (some key) (some v)).1
          (some key) buffer n q = getDefaultSettingAsString MAX s (some key) buffer n q) ∧
      (putSettingValueAsString MAX s (some key) (some v)).1.entries.map Prod.fst =
        s.entries.map Prod.fst ∧
      (∀ k', k' ≠ storedKey MAX key →
        lookupEntry k' (putSettingValueAsString MAX s (some key) (some v)).1.entries =
          lookupEntry k' s.entries)) := by
  refine ⟨fun ht v => ?_, fun ht v => ?_, fun ht v => ?_⟩
  · rw [putSettingValueAsInt_eq MAX s key v hkey, he]
    simp only [ht, ne_eq, not_true_eq_false, if_false]
    refine ⟨trivial, fun out q => ?_, fun out q => ?_, map_fst_replaceEntry _ _ _,
      fun k' hk' => lookupEntry_replaceEntry_ne _ _ _ _ hk'⟩
    · simp [getSettingAsInt, getSettingValueAsInt_eq _ _ _ _ _ _ hkey, entryOf_replaceEntry, he,
        ht, SettingValueData_t.getInteger]
    · simp [getDefaultSettingAsInt, getSettingValueAsInt_eq _ _ _ _ _ _ hkey,
        entryOf_replaceEntry, he, ht]
  · rw [putSettingValueAsReal_eq MAX s key v hkey, he]
    simp only [ht, ne_eq, not_true_eq_false, if_false]
    refine ⟨trivial, fun out q => ?_, fun out q => ?_, map_fst_replaceEntry _ _ _,
      fun k' hk' => lookupEntry_replaceEntry_ne _ _ _ _ hk'⟩
    · simp [getSettingAsReal, getSettingValueAsReal_eq _ _ _ _ _ _ hkey, entryOf_replaceEntry,
        he, ht, SettingValueData_t.getReal]
    · simp [getDefaultSettingAsReal, getSettingValueAsReal_eq _ _ _ _ _ _ hkey,
        entryOf_replaceEntry, he, ht]
  · rw [putSettingValueAsString_eq MAX s key v hkey, he]
    simp only [ht, ne_eq, not_true_eq_false, if_false]
    refine ⟨trivial, fun buffer n q hlen hbuf => ?_, fun buffer n q => ?_,
      map_fst_replaceEntry _ _ _, fun k' hk' => lookupEntry_replaceEntry_ne _ _ _ _ hk'⟩
    · have hn : ¬ v.length ≥ n := by omega
      simp [getSettingAsString, getSettingValueAsString_eq _ _ _ _ _ _ _ hkey,
        entryOf_replaceEntry, he, ht, SettingValueData_t.getString, hn,
        take_storeBytes_getString v buffer n hlen hbuf]
    · cases buffer with
      | none => rfl
      | some cells =>
        simp [getDefaultSettingAsString, getSettingValueAsString_eq _ _ _ _ _ _ _ hkey,
          entryOf_replaceEntry, he, ht]

/-- C4 at a concrete input: "net.timeout" registered with default 30, then put
to 45. -/
theorem put_overwrites_current_only_witness :
    getSettingAsInt 32
      (putSettingValueAsInt 32 ⟨[(bytes "net.timeout", ⟨1, INTEGER, .integer 30, .integer 30⟩)]⟩
        (some (bytes "net.timeout")) 45).1 (some (bytes "net.timeout")) 0 (some 0) =
      (NO_ERROR, 45, some 1) :=
  (((put_overwrites_current_only 32
    ⟨[(bytes "net.timeout", ⟨1, INTEGER, .integer 30, .integer 30⟩)]⟩ (bytes "net.timeout")
    ⟨1, INTEGER, .integer 30, .integer 30⟩ (by decide) (by decide)).1 rfl 45).2.1 0 (some 0))

/-- C5 (atomicity of the single-key operations). Whenever a register or put
call returns a result other than NO_ERROR, the store it leaves is the store it
was given (the getters yield no new store at all); and registering, with a
valid mask, a non-empty key for which the store already holds an entry
returns KEY_EXISTS_ERROR and leaves the store, with the existing entry, as it
was. -/
theorem error_leaves_registry_unchanged (MAX : Nat) (s : Settings_t) (key : Option CString)
    (p : SettingPermissions_t) :
    (∀ v : Int, (registerSettingAsInt MAX s key p v).2 ≠ NO_ERROR →
      (registerSettingAsInt MAX s key p v).1 = s) ∧
    (∀ v : Double, (registerSettingAsReal MAX s key p v).2 ≠ NO_ERROR →
      (registerSettingAsReal MAX s key p v).1 = s) ∧
    (∀ v : Option CString, (registerSettingAsString MAX s key p v).2 ≠ NO_ERROR →
      (registerSettingAsString MAX s key p v).1 = s) ∧
    (∀ v : Int, (putSettingValueAsInt MAX s key v).2 ≠ NO_ERROR →
      (putSettingValueAsInt MAX s key v).1 = s) ∧
    (∀ v : Double, (putSettingValueAsReal MAX s key v).2 ≠ NO_ERROR →
      (putSettingValueAsReal MAX s key v).1 = s) ∧
    (∀ v : Option CString, (putSettingValueAsString MAX s key v).2 ≠ NO_ERROR →
      (putSettingValueAsString MAX s key v).1 = s) ∧
    (∀ k e, key = some k → k ≠ [] → validatePermissions p = true →
      s.entryOf MAX k = some e →
      (∀ v : Int, registerSettingAsInt MAX s key p v = (s, KEY_EXISTS_ERROR)) ∧
      (∀ v : Double, registerSettingAsReal MAX s key p v = (s, KEY_EXISTS_ERROR)) ∧
      (∀ v : CString, registerSettingAsString MAX s key p (some v) = (s, KEY_EXISTS_ERROR))) := by
  refine ⟨fun v h => ?_, fun v h => ?_, fun v h => ?_, fun v h => ?_, fun v h => ?_,
    fun v h => ?_, fun k e hk hne hp he => ?_⟩
  · exact (registerSettingAsInt_unchanged_or_ok MAX s key p v).resolve_right h
  · exact (registerSettingAsReal_unchanged_or_ok MAX s key p v).resolve_right h
  · exact (registerSettingAsString_unchanged_or_ok MAX s key p v).resolve_right h
  · exact (putSettingValueAsInt_unchanged_or_ok MAX s key v).resolve_right h
  · exact (putSettingValueAsReal_unchanged_or_ok MAX s key v).resolve_right h
  · exact (putSettingValueAsString_unchanged_or_ok MAX s key v).resolve_right h
  · subst hk
    refine ⟨fun v => ?_, fun v => ?_, fun v => ?_⟩
    · rw [registerSettingAsInt_eq MAX s k p v hne hp, he]
    · rw [registerSettingAsReal_eq MAX s k p v hne hp, he]
    · rw [registerSettingAsString_eq MAX s k p v hne hp, he]

/-- C5 at a concrete input: registering "abcd" a second time. -/
theorem error_leaves_registry_unchanged_witness :
    registerSettingAsInt 32 ⟨[(bytes "abcd", ⟨1, INTEGER, .integer 30, .integer 30⟩)]⟩
      (some (bytes "abcd")) 2 7 =
      (⟨[(bytes "abcd", ⟨1, INTEGER, .integer 30, .integer 30⟩)]⟩, KEY_EXISTS_ERROR) :=
  ((error_leaves_registry_unchanged 32
    ⟨[(bytes "abcd", ⟨1, INTEGER, .integer 30, .integer 30⟩)]⟩ (some (bytes "abcd")) 2).2.2.2.2.2.2
    (bytes "abcd") ⟨1, INTEGER, .integer 30, .integer 30⟩ rfl (by decide) (by decide)
    (by decide)).1 7

/-- C6 (register input validation). A mask is valid exactly when it has no bit
outside SYSTEM, ADMIN, USER and VOLATILE. `registerSettingAsInt`, `AsReal` and
`AsString` return INVALID_INPUT_ERROR and leave the store as it was when the
key is null or empty, or when the mask has a bit outside the four flags;
`registerSettingAsString` does so as well for a null default; and it accepts
the empty string as default: for a non-empty key for which the store holds no
entry and a valid mask it returns NO_ERROR. -/
theorem register_input_validation (MAX : Nat) (s : Settings_t) (key : Option CString)
    (p : SettingPermissions_t) :
    (validatePermissions p = true ↔ p &&& ALL_PERMISSIONS_VOLATILE = p) ∧
    ((key = none ∨ key = some [] ∨ p &&& ALL_PERMISSIONS_VOLATILE ≠ p) →
      (∀ v : Int, registerSettingAsInt MAX s key p v = (s, INVALID_INPUT_ERROR)) ∧
      (∀ v : Double, registerSettingAsReal MAX s key p v = (s, INVALID_INPUT_ERROR)) ∧
      (∀ v : Option CString,
        registerSettingAsString MAX s key p v = (s, INVALID_INPUT_ERROR))) ∧
    registerSettingAsString MAX s key p none = (s, INVALID_INPUT_ERROR) ∧
    (∀ k, key = some k → k ≠ [] → validatePermissions p = true → s.entryOf MAX k = none →
      (registerSettingAsString MAX s key p (some [])).2 = NO_ERROR) := by
  have hvalid : validatePermissions p = true ↔ p &&& ALL_PERMISSIONS_VOLATILE = p := by
    have hall : ALL_PERMISSIONS_VOLATILE = 2 ^ 4 - 1 := by decide
    simp only [validatePermissions, decide_eq_true_eq, hall]
    constructor
    · intro h
      exact Nat.and_pow_two_sub_one_of_lt_two_pow (Nat.lt_of_le_of_lt h (by norm_num))
    · intro h
      rw [← h]
      exact Nat.and_le_right
  refine ⟨hvalid, fun h => ?_, registerSettingAsString_invalid MAX s key p none (by simp),
    fun k hk hne hp habs => ?_⟩
  · have h' : key = none ∨ key = some [] ∨ validatePermissions p = false := by
      rcases h with h | h | h
      · exact Or.inl h
      · exact Or.inr (Or.inl h)
      · refine Or.inr (Or.inr ?_)
        cases hv : validatePermissions p
        · rfl
        · exact absurd (hvalid.mp hv) h
    refine ⟨fun v => registerSettingAsInt_invalid MAX s key p v h',
      fun v => registerSettingAsReal_invalid MAX s key p v h', fun v => ?_⟩
    exact registerSettingAsString_invalid MAX s key p v (by tauto)
  · subst hk
    rw [registerSettingAsString_eq MAX s k p [] hne hp, habs]

/-- C6 at concrete inputs: the mask 16 is rejected, and the empty string is
accepted as the default of the absent key "name". -/
theorem register_input_validation_witness :
    registerSettingAsInt 32 ⟨[]⟩ (some (bytes "name")) 16 0 = (⟨[]⟩, INVALID_INPUT_ERROR) ∧
    (registerSettingAsString 32 ⟨[]⟩ (some (bytes "name")) 4 (some [])).2 = NO_ERROR :=
  ⟨((register_input_validation 32 ⟨[]⟩ (some (bytes "name")) 16).2.1
      (Or.inr (Or.inr (by decide)))).1 0,
    (register_input_validation 32 ⟨[]⟩ (some (bytes "name")) 4).2.2.2 (bytes "name") rfl
      (by decide) (by decide) (by decide)⟩

/-- C7, the claim as stated fails: with `MAX_SETTING_KEY_SIZE = 4`, registering
the five-byte key "abcde" with the valid mask SYSTEM in an empty registry
returns NO_ERROR, not INVALID_INPUT_ERROR, and inserts an entry under the
truncated key "abcd". -/
theorem overlong_key_not_rejected :
    4 < (bytes "abcde").length ∧ validatePermissions SettingPermissions_t.SYSTEM = true ∧
    registerSettingAsInt 4 ⟨[]⟩ (some (bytes "abcde")) SettingPermissions_t.SYSTEM 7 =
      (⟨[(bytes "abcd", ⟨SettingPermissions_t.SYSTEM, INTEGER, .integer 7, .integer 7⟩)]⟩,
        NO_ERROR) := by
  decide

/-- C7 as amended. A key longer than `MAX_SETTING_KEY_SIZE` is not rejected: it
is filed under its first `MAX_SETTING_KEY_SIZE` bytes. With a valid mask,
`registerSettingAsInt`, `AsReal` and `AsString` (with a non-null default)
return NO_ERROR and insert the new entry under the truncated key when the
store has no entry under it, after which the truncated key is found with the
new entry; and they return KEY_EXISTS_ERROR and leave the store as it was when
the store has an entry under the truncated key. -/
theorem overlong_key_registered_truncated (MAX : Nat) (s : Settings_t) (key : CString)
    (p : SettingPermissions_t) (hlong : MAX < key.length)
    (hp : validatePermissions p = true) :
    (lookupEntry (key.take MAX) s.entries = none →
      (∀ v : Int, registerSettingAsInt MAX s (some key) p v =
        (⟨insertEntry (key.take MAX) ⟨p, INTEGER, .integer v, .integer v⟩ s.entries⟩,
          NO_ERROR)) ∧
      (∀ v : Double, registerSettingAsReal MAX s (some key) p v =
        (⟨insertEntry (key.take MAX) ⟨p, REAL, .real v, .real v⟩ s.entries⟩, NO_ERROR)) ∧
      (∀ v : CString, registerSettingAsString MAX s (some key) p (some v) =
        (⟨insertEntry (key.take MAX) ⟨p, STRING, .string v, .string v⟩ s.entries⟩,
          NO_ERROR)) ∧
      (∀ e, lookupEntry (key.take MAX) (insertEntry (key.take MAX) e s.entries) = some e)) ∧
    (∀ old, lookupEntry (key.take MAX) s.entries = some old →
      (∀ v : Int, registerSettingAsInt MAX s (some key) p v = (s, KEY_EXISTS_ERROR)) ∧
      (∀ v : Double, registerSettingAsReal MAX s (some key) p v = (s, KEY_EXISTS_ERROR)) ∧
      (∀ v : CString,
        registerSettingAsString MAX s (some key) p (some v) = (s, KEY_EXISTS_ERROR))) := by
  have hkey : key ≠ [] := by
    intro h
    rw [h] at hlong
    exact absurd hlong (by simp)
  have hentry : s.entryOf MAX key = lookupEntry (key.take MAX) s.entries := by
    rw [entryOf_eq, storedKey_eq_take]
  have hstored := storedKey_eq_take MAX key
  refine ⟨fun habs => ⟨fun v => ?_, fun v => ?_, fun v => ?_, fun e => ?_⟩,
    fun old hold => ⟨fun v => ?_, fun v => ?_, fun v => ?_⟩⟩
  · rw [registerSettingAsInt_eq MAX s key p v hkey hp, hentry, habs, hstored]
  · rw [registerSettingAsReal_eq MAX s key p v hkey hp, hentry, habs, hstored]
  · rw [registerSettingAsString_eq MAX s key p v hkey hp, hentry, habs, hstored]
  · exact lookupEntry_insertEntry_self _ _ _ habs
  · rw [registerSettingAsInt_eq MAX s key p v hkey hp, hentry, hold]
  · rw [registerSettingAsReal_eq MAX s key p v hkey hp, hentry, hold]
  · rw [registerSettingAsString_eq MAX s key p v hkey hp, hentry, hold]

/-- C7 as amended, at a concrete input: "abcde" when "abcd" is registered. -/
theorem overlong_key_registered_truncated_witness :
    registerSettingAsInt 4 ⟨[(bytes "abcd", ⟨1, INTEGER, .integer 30, .integer 30⟩)]⟩
      (some (bytes "abcde")) 2 7 =
      (⟨[(bytes "abcd", ⟨1, INTEGER, .integer 30, .integer 30⟩)]⟩, KEY_EXISTS_ERROR) :=
  ((overlong_key_registered_truncated 4
    ⟨[(bytes "abcd", ⟨1, INTEGER, .integer 30, .integer 30⟩)]⟩ (bytes "abcde") 2 (by decide)
    (by decide)).2 ⟨1, INTEGER, .integer 30, .integer 30⟩ (by decide)).1 7

/-- C8, the claim as stated fails for a prefix longer than
`MAX_SETTING_KEY_SIZE`: with `MAX_SETTING_KEY_SIZE = 4` and a registry whose
only key is "abcd" (mask SYSTEM), listing under the prefix "abcde" with the
target SYSTEM and MatchAny appends "abcd", a key that is not under the prefix
"abcde". -/
theorem list_overlong_prefix_lists_other_key :
    (bytes "abcde").isPrefixOf (bytes "abcd") = false ∧
    listSettingsKeys 4
      ⟨[(bytes "abcd", ⟨SettingPermissions_t.SYSTEM, INTEGER, .integer 0, .integer 0⟩)]⟩
      (some (bytes "abcde")) SettingPermissions_t.SYSTEM
      .MatchSettingsWithAnyPermissionsListed [] = ([bytes "abcd"], NO_ERROR) := by
  decide

/-- C8 as amended (filter truth table). For every store, non-null prefix,
valid target mask `P`, previous content `out` of the output list and each of
the four filter modes, `listSettingsKeys` returns NO_ERROR and appends to the
output list the keys of exactly the entries under the first
`MAX_SETTING_KEY_SIZE` bytes of the prefix (the prefix itself when it is within
that length) whose mask `E` satisfies the mode's predicate (MatchAny:
`E & P ≠ 0`; MatchAll: `E = P`; ExcludeAll: `E ≠ P`; ExcludeAny: `E & P = 0`),
in the store's enumeration order. When the keys of the store are distinct, no
key is appended twice. -/
theorem list_filter_truth_table (MAX : Nat) (s : Settings_t) (pre : CString)
    (P : SettingPermissions_t) (out : SettingsKeysList_t)
    (hP : validatePermissions P = true) :
    listSettingsKeys MAX s (some pre) P .MatchSettingsWithAnyPermissionsListed out =
      (out ++ ((s.entries.filter (fun e => (storedKey MAX pre).isPrefixOf e.1)).filter
        (fun e => decide (e.2.settingPermissions &&& P ≠ 0))).map Prod.fst, NO_ERROR) ∧
    listSettingsKeys MAX s (some pre) P .MatchSettingsWithAllPermissionsListed out =
      (out ++ ((s.entries.filter (fun e => (storedKey MAX pre).isPrefixOf e.1)).filter
        (fun e => decide (e.2.settingPermissions = P))).map Prod.fst, NO_ERROR) ∧
    listSettingsKeys MAX s (some pre) P .ExcludeSettingsWithAllPermissionsListed out =
      (out ++ ((s.entries.filter (fun e => (storedKey MAX pre).isPrefixOf e.1)).filter
        (fun e => decide (e.2.settingPermissions ≠ P))).map Prod.fst, NO_ERROR) ∧
    listSettingsKeys MAX s (some pre) P .ExcludeSettingsWithAnyPermissionsListed out =
      (out ++ ((s.entries.filter (fun e => (storedKey MAX pre).isPrefixOf e.1)).filter
        (fun e => decide (e.2.settingPermissions &&& P = 0))).map Prod.fst, NO_ERROR) ∧
    (pre.length ≤ MAX → storedKey MAX pre = pre) ∧
    ((s.entries.map Prod.fst).Nodup → ∀ keep : CString × SettingValue_t → Bool,
      (((s.entries.filter (fun e => (storedKey MAX pre).isPrefixOf e.1)).filter keep).map
        Prod.fst).Nodup) := by
  obtain ⟨h1, h2, h3, h4⟩ := listSettingsKeys_listed MAX s pre P out hP
  refine ⟨h1, h2, h3, h4, storedKey_of_length_le MAX pre, fun hnd keep => ?_⟩
  exact hnd.sublist (((List.filter_sublist _).trans (List.filter_sublist _)).map Prod.fst)

/-- C8 as amended, at the spec's example: entries with the masks SYSTEM, USER, SYSTEM|USER
and VOLATILE and the target SYSTEM; MatchAll keeps only the entry whose mask
is exactly SYSTEM. -/
theorem list_filter_truth_table_witness :
    listSettingsKeys 32
      ⟨[(bytes "a", ⟨1, INTEGER, .integer 0, .integer 0⟩),
        (bytes "b", ⟨4, INTEGER, .integer 0, .integer 0⟩),
        (bytes "c", ⟨5, INTEGER, .integer 0, .integer 0⟩),
        (bytes "d", ⟨8, INTEGER, .integer 0, .integer 0⟩)]⟩
      (some []) 1 .MatchSettingsWithAllPermissionsListed [] = ([bytes "a"], NO_ERROR) :=
  (list_filter_truth_table 32 _ [] 1 [] (by decide)).2.1

/-- C9, what the code does: with a filter mode that is none of the four
policies (and a non-null prefix and a valid mask), `listSettingsKeys` returns
INVALID_INPUT_ERROR only when the store has an entry under the prefix; when it
has none the callback is never called and the result is NO_ERROR. -/
theorem unlisted_filter_mode_result (MAX : Nat) (s : Settings_t) (pre : CString)
    (P : SettingPermissions_t) (raw : Nat) (out : SettingsKeysList_t)
    (hP : validatePermissions P = true) :
    listSettingsKeys MAX s (some pre) P (.Unlisted raw) out =
      (out, if s.entriesUnder pre (strnlen pre MAX) = [] then NO_ERROR
        else INVALID_INPUT_ERROR) := by
  simp only [listSettingsKeys, hP, Settings_t.iterateOverPrefix]
  cases s.entriesUnder pre (strnlen pre MAX) with
  | nil => simp [visitEntries]
  | cons e rest =>
    obtain ⟨k, v⟩ := e
    simp [visitEntries, listSettingsKeysCallback]

/-- C9 at the failing input: an empty registry, the empty prefix, the mask
SYSTEM and a filter mode outside the four policies give NO_ERROR. -/
theorem unlisted_filter_mode_result_witness :
    listSettingsKeys 32 ⟨[]⟩ (some []) SettingPermissions_t.SYSTEM (.Unlisted 4) [] =
      ([], NO_ERROR) :=
  unlisted_filter_mode_result 32 ⟨[]⟩ [] SettingPermissions_t.SYSTEM 4 [] (by decide)

/-- C10 (postcondition of `restoreDefaultSettings`). For a well-formed store
(one that registrations produce), a non-null prefix, a valid mask and one of
the four filter modes, `restoreDefaultSettings` returns NO_ERROR and keeps the
keys; afterwards every key that `listSettingsKeys` selects for the same
arguments has an entry whose current value is its default value (and is
otherwise the entry it was), and the entry of every key not selected is the
one it was; restoring again with the same arguments gives the same store; and
after a put of any value to a key, a restore that selects the key makes the
getter of the current value return what the getter of the default value
returned before the put. -/
theorem restore_defaults_postcondition (MAX : Nat) (s : Settings_t) (pre : CString)
    (P : SettingPermissions_t) (mode : SettingPermissionsFilterMode_t)
    (hwf : s.WellFormed MAX) (hP : validatePermissions P = true)
    (hmode : ∀ raw, mode ≠ .Unlisted raw) :
    (restoreDefaultSettings MAX s (some pre) P mode).2 = NO_ERROR ∧
    (restoreDefaultSettings MAX s (some pre) P mode).1.entries.map Prod.fst =
      s.entries.map Prod.fst ∧
    (∀ k e, k ∈ (listSettingsKeys MAX s (some pre) P mode []).1 →
      lookupEntry k s.entries = some e →
      lookupEntry k (restoreDefaultSettings MAX s (some pre) P mode).1.entries =
        some { e with settingValueData := e.settingDefaultValueData }) ∧
    (∀ k, k ∉ (listSettingsKeys MAX s (some pre) P mode []).1 →
      lookupEntry k (restoreDefaultSettings MAX s (some pre) P mode).1.entries =
        lookupEntry k s.entries) ∧
    restoreDefaultSettings MAX (restoreDefaultSettings MAX s (some pre) P mode).1 (some pre) P
      mode = ((restoreDefaultSettings MAX s (some pre) P mode).1, NO_ERROR) ∧
    (∀ key e, key ≠ [] → s.entryOf MAX key = some e →
      (e.settingValueType = INTEGER → ∀ (v' out : Int) (q : Option SettingPermissions_t),
        storedKey MAX key ∈
          (listSettingsKeys MAX (putSettingValueAsInt MAX s (some key) v').1 (some pre) P mode
            []).1 →
        getSettingAsInt MAX
          (restoreDefaultSettings MAX (putSettingValueAsInt MAX s (some key) v').1 (some pre) P
            mode).1 (some key) out q = getDefaultSettingAsInt MAX s (some key) out q) ∧
      (e.settingValueType = REAL → ∀ (v' out : Double) (q : Option SettingPermissions_t),
        storedKey MAX key ∈
          (listSettingsKeys MAX (putSettingValueAsReal MAX s (some key) v').1 (some pre) P mode
            []).1 →
        getSettingAsReal MAX
          (restoreDefaultSettings MAX (putSettingValueAsReal MAX s (some key) v').1 (some pre) P
            mode).1 (some key) out q = getDefaultSettingAsReal MAX s (some key) out q) ∧
      (e.settingValueType = STRING → ∀ (v' : CString) (buffer : Option (List Nat)) (n : Nat)
          (q : Option SettingPermissions_t),
        storedKey MAX key ∈
          (listSettingsKeys MAX (putSettingValueAsString MAX s (some key) (some v')).1
            (some pre) P mode []).1 →
        getSettingAsString MAX
          (restoreDefaultSettings MAX (putSettingValueAsString MAX s (some key) (some v')).1
            (some pre) P mode).1 (some key) buffer n q =
          getDefaultSettingAsString MAX s (some key) buffer n q)) := by
  obtain ⟨hnd, hall⟩ := hwf
  have hkeys : ∀ k ∈ s.entries.map Prod.fst, k ≠ [] ∧ k.length ≤ MAX := by
    intro k hk
    obtain ⟨x, hx, rfl⟩ := List.mem_map.mp hk
    exact ⟨(hall x hx).1, (hall x hx).2.1⟩
  have hr := restoreDefaultSettings_eq MAX s pre P mode hnd hkeys hP hmode
  have hg : ∀ x : CString × SettingValue_t,
      (if x.1 ∈ (listSettingsKeys MAX s (some pre) P mode []).1 then (x.1, restoreValue x.2)
        else x).1 = x.1 := fun x => by split <;> rfl
  have hfst : (restoreDefaultSettings MAX s (some pre) P mode).1.entries.map Prod.fst =
      s.entries.map Prod.fst := by
    rw [hr, List.map_map]
    exact List.map_congr_left (fun x _ => hg x)
  refine ⟨by rw [hr], hfst, fun k e hk he => ?_, fun k hk => ?_, ?_, fun key e hkey he => ?_⟩
  · rw [hr, lookupEntry_map _ hg, he]
    have hwt : e.WellTyped := (hall (k, e) (lookupEntry_mem k e _ he)).2.2
    simp [hk, restoreValue_of_wellTyped e hwt]
  · rw [hr, lookupEntry_map _ hg]
    cases lookupEntry k s.entries <;> simp [hk]
  · obtain ⟨p, hp⟩ := listSettingsKeys_selection MAX pre P mode hP hmode
    have hperm : ∀ e : SettingValue_t,
        (restoreValue e).settingPermissions = e.settingPermissions := by
      intro e
      unfold restoreValue
      split <;> rfl
    have hsame : (restoreDefaultSettings MAX s (some pre) P mode).1.entries.map
          (fun x => (x.1, x.2.settingPermissions)) =
        s.entries.map (fun x => (x.1, x.2.settingPermissions)) := by
      rw [hr, List.map_map]
      apply List.map_congr_left
      intro x _
      simp only [Function.comp]
      split
      · simp [hperm]
      · rfl
    have hsel : (listSettingsKeys MAX (restoreDefaultSettings MAX s (some pre) P mode).1
          (some pre) P mode []).1 = (listSettingsKeys MAX s (some pre) P mode []).1 := by
      rw [hp, hp]
      simp only [List.nil_append]
      exact selection_congr p _ _ hsame
    rw [restoreDefaultSettings_eq MAX _ pre P mode (by rw [hfst]; exact hnd)
      (by rw [hfst]; exact hkeys) hP hmode, hsel]
    congr 1
    rw [hr]
    simp only [List.map_map]
    congr 1
    apply List.map_congr_left
    intro x _
    simp only [Function.comp]
    by_cases hx : x.1 ∈ (listSettingsKeys MAX s (some pre) P mode []).1
    · simp [hx, restoreValue_idem]
    · simp [hx]
  · refine ⟨fun ht v' out q hsel => ?_, fun ht v' out q hsel => ?_,
      fun ht v' buffer n q hsel => ?_⟩
    · rw [putSettingValueAsInt_eq MAX s key v' hkey, he] at hsel ⊢
      simp only [ht, ne_eq, not_true_eq_false, if_false] at hsel ⊢
      simp only [getSettingAsInt, getDefaultSettingAsInt,
        getSettingValueAsInt_eq _ _ _ _ _ _ hkey,
        restore_after_replace MAX s pre P mode key e _ hnd hkeys hP hmode he hsel, he]
      simp [restoreValue, ht]
    · rw [putSettingValueAsReal_eq MAX s key v' hkey, he] at hsel ⊢
      simp only [ht, ne_eq, not_true_eq_false, if_false] at hsel ⊢
      simp only [getSettingAsReal, getDefaultSettingAsReal,
        getSettingValueAsReal_eq _ _ _ _ _ _ hkey,
        restore_after_replace MAX s pre P mode key e _ hnd hkeys hP hmode he hsel, he]
      simp [restoreValue, ht]
    · rw [putSettingValueAsString_eq MAX s key v' hkey, he] at hsel ⊢
      simp only [ht, ne_eq, not_true_eq_false, if_false] at hsel ⊢
      cases buffer with
      | none => rfl
      | some cells =>
        simp only [getSettingAsString, getDefaultSettingAsString,
          getSettingValueAsString_eq _ _ _ _ _ _ _ hkey,
          restore_after_replace MAX s pre P mode key e _ hnd hkeys hP hmode he hsel, he]
        simp [restoreValue, ht, SettingValueData_t.getString]

/-- C2 (entry immutability). For every store and every operation that yields a
store (the three register functions, the three put functions,
`restoreDefaultSettings` and `loadSettingsFromPersistentStorage`, with any
arguments, null pointers included, and whatever result they return), every key
that had an entry before still has one afterwards, with the same type, the same
default value and the same permissions: only the current value of an entry can
change. The getters, `listSettingsKeys` and `storeSettingsInPersistentStorage`
only read the store: they are functions of it that yield no new store. -/
theorem entries_kept_by_every_operation (MAX : Nat) (target : Target) (s : Settings_t) :
    (∀ key p (v : Int), s.EntriesKept (registerSettingAsInt MAX s key p v).1) ∧
    (∀ key p (v : Double), s.EntriesKept (registerSettingAsReal MAX s key p v).1) ∧
    (∀ key p (v : Option CString), s.EntriesKept (registerSettingAsString MAX s key p v).1) ∧
    (∀ key (v : Int), s.EntriesKept (putSettingValueAsInt MAX s key v).1) ∧
    (∀ key (v : Double), s.EntriesKept (putSettingValueAsReal MAX s key v).1) ∧
    (∀ key (v : Option CString), s.EntriesKept (putSettingValueAsString MAX s key v).1) ∧
    (∀ keyPrefix permissions filterMode,
      s.EntriesKept (restoreDefaultSettings MAX s keyPrefix permissions filterMode).1) ∧
    (∀ settingsFile,
      s.EntriesKept (loadSettingsFromPersistentStorage MAX target s settingsFile).1) :=
  ⟨entriesKept_registerSettingAsInt MAX s, entriesKept_registerSettingAsReal MAX s,
    entriesKept_registerSettingAsString MAX s, entriesKept_putSettingValueAsInt MAX s,
    entriesKept_putSettingValueAsReal MAX s, entriesKept_putSettingValueAsString MAX s,
    entriesKept_restoreDefaultSettings MAX s,
    entriesKept_loadSettingsFromPersistentStorage MAX target s⟩

/-- C10 at the spec's instance: "net.timeout" with default 30 is put to 45; a
restore over the empty prefix that matches SYSTEM makes the getter return 30. -/
theorem restore_defaults_postcondition_witness :
    getSettingAsInt 32
      (restoreDefaultSettings 32
        (putSettingValueAsInt 32
          ⟨[(bytes "net.timeout", ⟨1, INTEGER, .integer 30, .integer 30⟩)]⟩
          (some (bytes "net.timeout")) 45).1
        (some []) 1 .MatchSettingsWithAnyPermissionsListed).1
      (some (bytes "net.timeout")) 0 (some 0) = (NO_ERROR, 30, some 1) :=
  ((((restore_defaults_postcondition 32
    ⟨[(bytes "net.timeout", ⟨1, INTEGER, .integer 30, .integer 30⟩)]⟩ [] 1
    .MatchSettingsWithAnyPermissionsListed (by decide) (by decide)
    (fun raw h => by cases h)).2.2.2.2.2 (bytes "net.timeout")
    ⟨1, INTEGER, .integer 30, .integer 30⟩ (by decide) (by decide)).1 rfl 45 0 (some 0)
    (by decide)).trans (by decide))

end SettingsStorage

namespace SettingsStorage

open SettingError_t SettingValueType_t

/-- C11 (string buffer boundary). For a non-empty key for which the store
holds a String entry, a non-null output buffer and a size `n`:
`getSettingAsString` (with `s` the current value) and
`getDefaultSettingAsString` (with `s` the default value) return
INSUFFICIENT_BUFFER_SIZE_ERROR, storing nothing, when `n ≤ strlen(s)`, and
NO_ERROR with the entry's permissions when `n ≥ strlen(s) + 1`; in that case a
buffer of at least `n` bytes then holds `s` followed by a NUL. -/
theorem string_buffer_boundary (MAX : Nat) (s : Settings_t) (key : CString)
    (e : SettingValue_t) (buffer : List Nat) (n : Nat) (q : Option SettingPermissions_t)
    (hkey : key ≠ []) (he : s.entryOf MAX key = some e) (ht : e.settingValueType = STRING) :
    (n ≤ e.settingValueData.getString.length →
      getSettingAsString MAX s (some key) (some buffer) n q =
        (INSUFFICIENT_BUFFER_SIZE_ERROR, [], q)) ∧
    (e.settingValueData.getString.length + 1 ≤ n →
      (getSettingAsString MAX s (some key) (some buffer) n q).1 = NO_ERROR ∧
      (getSettingAsString MAX s (some key) (some buffer) n q).2.2 =
        q.map (fun _ => e.settingPermissions) ∧
      (n ≤ buffer.length →
        (storeBytes buffer (getSettingAsString MAX s (some key) (some buffer) n q).2.1).take
          (e.settingValueData.getString.length + 1) = e.settingValueData.getString ++ [0])) ∧
    (n ≤ e.settingDefaultValueData.getString.length →
      getDefaultSettingAsString MAX s (some key) (some buffer) n q =
        (INSUFFICIENT_BUFFER_SIZE_ERROR, [], q)) ∧
    (e.settingDefaultValueData.getString.length + 1 ≤ n →
      (getDefaultSettingAsString MAX s (some key) (some buffer) n q).1 = NO_ERROR ∧
      (getDefaultSettingAsString MAX s (some key) (some buffer) n q).2.2 =
        q.map (fun _ => e.settingPermissions) ∧
      (n ≤ buffer.length →
        (storeBytes buffer
          (getDefaultSettingAsString MAX s (some key) (some buffer) n q).2.1).take
          (e.settingDefaultValueData.getString.length + 1) =
          e.settingDefaultValueData.getString ++ [0])) := by
  refine ⟨fun h => ?_, fun h => ?_, fun h => ?_, fun h => ?_⟩
  · simp [getSettingAsString, getSettingValueAsString_eq _ _ _ _ _ _ _ hkey, he, ht, h]
  · have hn : ¬ e.settingValueData.getString.length ≥ n := by omega
    simp only [getSettingAsString, getSettingValueAsString_eq _ _ _ _ _ _ _ hkey, he, ht]
    simp only [ne_eq, not_true_eq_false, if_false, reduceCtorEq, hn, true_and]
    exact fun hb => take_storeBytes_getString _ buffer n (by omega) hb
  · simp [getDefaultSettingAsString, getSettingValueAsString_eq _ _ _ _ _ _ _ hkey, he, ht, h]
  · have hn : ¬ e.settingDefaultValueData.getString.length ≥ n := by omega
    simp only [getDefaultSettingAsString, getSettingValueAsString_eq _ _ _ _ _ _ _ hkey, he, ht]
    simp only [ne_eq, not_true_eq_false, if_false, if_true, hn, true_and]
    exact fun hb => take_storeBytes_getString _ buffer n (by omega) hb

/-- C11 at the boundary: the value "hello" and a buffer of five bytes, which is
`strlen` of the value, give INSUFFICIENT_BUFFER_SIZE_ERROR. -/
theorem string_buffer_boundary_witness :
    getSettingAsString 32
      ⟨[(bytes "name", ⟨4, STRING, .string (bytes "hello"), .string (bytes "hello")⟩)]⟩
      (some (bytes "name")) (some [0, 0, 0, 0, 0]) 5 (some 0) =
      (INSUFFICIENT_BUFFER_SIZE_ERROR, [], some 0) :=
  (string_buffer_boundary 32
    ⟨[(bytes "name", ⟨4, STRING, .string (bytes "hello"), .string (bytes "hello")⟩)]⟩
    (bytes "name") ⟨4, STRING, .string (bytes "hello"), .string (bytes "hello")⟩
    [0, 0, 0, 0, 0] 5 (some 0) (by decide) (by decide) rfl).1 (by decide)

/-- C12 (load is all-or-nothing on a checksum failure). Whenever
`validateChecksum` returns an error for the Backing File,
`loadSettingsFromPersistentStorage` returns SETTINGS_FILESYSTEM_ERROR and
leaves the store it was given, keys and entries, as it was (the file is left
as the validation left it). `validateChecksum` is a function of the file alone:
it is given no store and yields none. -/
theorem load_aborts_on_checksum_failure (MAX : Nat) (target : Target) (s : Settings_t)
    (settingsFile : SettingsFile)
    (h : (validateChecksum target settingsFile).2 ≠ NO_ERROR) :
    loadSettingsFromPersistentStorage MAX target s settingsFile =
      (s, (validateChecksum target settingsFile).1, SETTINGS_FILESYSTEM_ERROR) := by
  unfold loadSettingsFromPersistentStorage
  cases hv : validateChecksum target settingsFile with
  | mk f0 r =>
    rw [hv] at h
    cases r <;> first | exact absurd rfl h | rfl

set_option maxRecDepth 100000 in
/-- C12 at a concrete input: a file whose trailer holds 0 while the checksum of
its data line is not 0; the registered setting keeps its value 30. -/
theorem load_aborts_on_checksum_failure_witness :
    loadSettingsFromPersistentStorage 32 ⟨64, fun d => formatNat d.bits, fun t => (⟨0⟩, t)⟩
      ⟨[(bytes "a", ⟨1, INTEGER, .integer 30, .integer 30⟩)]⟩
      ⟨bytes "a\t0\t1\n\r0\n", [], []⟩ =
      (⟨[(bytes "a", ⟨1, INTEGER, .integer 30, .integer 30⟩)]⟩,
        (validateChecksum ⟨64, fun d => formatNat d.bits, fun t => (⟨0⟩, t)⟩
          ⟨bytes "a\t0\t1\n\r0\n", [], []⟩).1, SETTINGS_FILESYSTEM_ERROR) :=
  load_aborts_on_checksum_failure 32 ⟨64, fun d => formatNat d.bits, fun t => (⟨0⟩, t)⟩ _
    ⟨bytes "a\t0\t1\n\r0\n", [], []⟩ (by decide)

end SettingsStorage

/-! ## Lemmas on the checksum and the Backing File -/

theorem crc_calculate_append (a b : List Nat) (c : Option Nat) :
    CRC.Calculate b (some (CRC.Calculate a c)) = CRC.Calculate (a ++ b) c := by
  cases c <;> simp [CRC.Calculate, List.foldl_append, Nat.xor_cancel_right]

theorem crc_calculate_nil_some (c : Nat) : CRC.Calculate [] (some c) = c := by
  simp [CRC.Calculate, Nat.xor_cancel_right]

theorem crc_calculate_nil_none : CRC.Calculate [] none = 0 := by
  decide

theorem nextResult_of_allSucceed (script : List SettingsFileResult)
    (h : ∀ r ∈ script, r = SettingsFileResult.Success) :
    nextResult script = (SettingsFileResult.Success, script.tail) ∧
      ∀ r ∈ script.tail, r = SettingsFileResult.Success := by
  cases script with
  | nil => exact ⟨rfl, fun r hr => by simp at hr⟩
  | cons r rs =>
    have hr : r = SettingsFileResult.Success := h r (List.mem_cons_self _ _)
    subst hr
    exact ⟨rfl, fun r' hr' => h r' (List.mem_cons_of_mem _ hr')⟩

theorem write_of_success (f : SettingsFile) (data : List Nat)
    (h : (f.write data).1 = SettingsFileResult.Success) :
    (f.write data).2.content = f.content ++ data := by
  unfold SettingsFile.write at h ⊢
  cases hn : nextResult f.script with
  | mk r rs =>
    rw [hn] at h
    cases r <;> simp_all

theorem write_of_allSucceed (f : SettingsFile) (data : List Nat) (h : f.AllSucceed) :
    f.write data =
      (SettingsFileResult.Success,
        { f with content := f.content ++ data, script := f.script.tail }) ∧
      (f.write data).2.AllSucceed := by
  obtain ⟨h1, h2⟩ := nextResult_of_allSucceed f.script h
  unfold SettingsFile.write
  rw [h1]
  exact ⟨rfl, h2⟩

theorem close_of_allSucceed (f : SettingsFile) (h : f.AllSucceed) :
    f.close = (SettingsFileResult.Success, { f with script := f.script.tail }) ∧
      f.close.2.AllSucceed := by
  obtain ⟨h1, h2⟩ := nextResult_of_allSucceed f.script h
  unfold SettingsFile.close
  rw [h1]
  exact ⟨rfl, h2⟩

theorem openForWrite_of_allSucceed (f : SettingsFile) (h : f.AllSucceed) :
    f.openForWrite =
      (SettingsFileResult.Success,
        { f with content := [], unread := [], script := f.script.tail }) ∧
      f.openForWrite.2.AllSucceed := by
  obtain ⟨h1, h2⟩ := nextResult_of_allSucceed f.script h
  unfold SettingsFile.openForWrite
  rw [h1]
  exact ⟨rfl, h2⟩

theorem openForRead_of_allSucceed (f : SettingsFile) (h : f.AllSucceed) :
    f.openForRead =
      (SettingsFileResult.Success,
        { f with unread := splitLines f.content, script := f.script.tail }) ∧
      f.openForRead.2.AllSucceed := by
  obtain ⟨h1, h2⟩ := nextResult_of_allSucceed f.script h
  unfold SettingsFile.openForRead
  rw [h1]
  exact ⟨rfl, h2⟩

namespace SettingsStorage

open SettingError_t SettingValueType_t

theorem storeCallback_volatile (target : Target) (data : SettingsFile × Nat × Bool)
    (key : CString) (e : SettingValue_t) (h : e.isPersistent = false) :
    storeSettingsInPersistentStorageCallback target data key e =
      (data, SettingsFileResult.Success) := by
  have hv : e.settingPermissions &&& SettingPermissions_t.VOLATILE ≠ 0 := by
    simpa [SettingValue_t.isPersistent] using h
  simp [storeSettingsInPersistentStorageCallback, hv]

theorem formattedString_eq (target : Target) (e : SettingValue_t) :
    (match e.settingValueType with
      | REAL => target.formatDouble e.settingValueData.getReal ++ [10]
      | INTEGER => formatInt e.settingValueData.getInteger ++ [10]
      | STRING => e.settingValueData.getString ++ [10]) = formattedValue target e ++ [10] := by
  unfold formattedValue
  cases e.settingValueType <;> rfl

theorem storeCallback_persistent (target : Target) (f : SettingsFile) (crc : Nat)
    (first : Bool) (key : CString) (e : SettingValue_t) (hp : e.isPersistent = true)
    (h : (storeSettingsInPersistentStorageCallback target (f, crc, first) key e).2 =
      SettingsFileResult.Success) :
    (storeSettingsInPersistentStorageCallback target (f, crc, first) key e).1.1.content =
        f.content ++ persistedLine target key e ∧
      (storeSettingsInPersistentStorageCallback target (f, crc, first) key e).1.2.1 =
        CRC.Calculate (persistedLine target key e) (if first then none else some crc) ∧
      (storeSettingsInPersistentStorageCallback target (f, crc, first) key e).1.2.2 =
        false := by
  have hv : ¬ (e.settingPermissions &&& SettingPermissions_t.VOLATILE ≠ 0) := by
    simpa [SettingValue_t.isPersistent] using hp
  unfold storeSettingsInPersistentStorageCallback at h ⊢
  simp only [hv, if_false, formattedString_eq] at h ⊢
  cases hw1 : f.write key with
  | mk r1 f1 =>
    rw [hw1] at h
    cases r1
    case Success =>
      simp only [hw1] at h ⊢
      cases hw2 : f1.write ([9] ++ formatNat e.settingValueType.code ++ [9]) with
      | mk r2 f2 =>
        rw [hw2] at h
        cases r2
        case Success =>
          simp only [hw2] at h ⊢
          have c1 := write_of_success f key (by rw [hw1])
          have c2 := write_of_success f1 _ (by rw [hw2])
          have c3 := write_of_success f2 (formattedValue target e ++ [10]) h
          rw [hw1] at c1
          rw [hw2] at c2
          simp only at c1 c2
          refine ⟨?_, ?_, trivial⟩
          · rw [c3, c2, c1]
            simp [persistedLine]
          · cases first
            · simp [crc_calculate_append, persistedLine]
            · simp [crc_calculate_append, persistedLine]
        all_goals simp at h
    all_goals simp at h

theorem persistedData_of_not_any (target : Target) (entries : List (CString × SettingValue_t))
    (h : entries.any (fun x => x.2.isPersistent) = false) : persistedData target entries = [] := by
  induction entries with
  | nil => rfl
  | cons x rest ih =>
    simp only [List.any_cons, Bool.or_eq_false_iff] at h
    simp [persistedData, h.1, ih h.2]

theorem storeVisit_of_success (target : Target) (entries : List (CString × SettingValue_t)) :
    ∀ (f : SettingsFile) (crc : Nat) (first : Bool),
      (visitEntries SettingsFileResult.Success (storeSettingsInPersistentStorageCallback target)
        (f, crc, first) entries).2 = SettingsFileResult.Success →
      (visitEntries SettingsFileResult.Success (storeSettingsInPersistentStorageCallback target)
        (f, crc, first) entries).1.1.content = f.content ++ persistedData target entries ∧
      (visitEntries SettingsFileResult.Success (storeSettingsInPersistentStorageCallback target)
        (f, crc, first) entries).1.2.1 =
        (if entries.any (fun x => x.2.isPersistent) then
          CRC.Calculate (persistedData target entries) (if first then none else some crc)
        else crc) := by
  induction entries with
  | nil =>
    intro f crc first _
    simp [visitEntries, persistedData]
  | cons x rest ih =>
    intro f crc first h
    obtain ⟨k, e⟩ := x
    by_cases hp : e.isPersistent = true
    · by_cases hs : (storeSettingsInPersistentStorageCallback target (f, crc, first) k e).2 =
          SettingsFileResult.Success
      · obtain ⟨c1, c2, c3⟩ := storeCallback_persistent target f crc first k e hp hs
        simp only [visitEntries, hs, if_true] at h ⊢
        have hstate : (storeSettingsInPersistentStorageCallback target (f, crc, first) k e).1 =
            ((storeSettingsInPersistentStorageCallback target (f, crc, first) k e).1.1,
              (storeSettingsInPersistentStorageCallback target (f, crc, first) k e).1.2.1,
              false) := by
          rw [← c3]
        rw [hstate] at h ⊢
        obtain ⟨i1, i2⟩ := ih _ _ false h
        refine ⟨?_, ?_⟩
        · rw [i1, c1]
          simp [persistedData, hp, List.append_assoc]
        · rw [i2, c2]
          simp only [List.any_cons, hp, Bool.true_or, if_true, persistedData]
          by_cases hr : rest.any (fun x => x.2.isPersistent) = true
          · simp [hr, crc_calculate_append]
          · have hr' : rest.any (fun x => x.2.isPersistent) = false := by simpa using hr
            rw [persistedData_of_not_any target rest hr']
            simp [hr']
      · simp only [visitEntries, hs, if_false] at h
    · have hp' : e.isPersistent = false := by simpa using hp
      simp only [visitEntries, storeCallback_volatile target _ k e hp', if_true] at h ⊢
      obtain ⟨i1, i2⟩ := ih f crc first h
      refine ⟨?_, ?_⟩
      · rw [i1]
        simp [persistedData, hp']
      · rw [i2]
        simp only [persistedData, hp', List.any_cons, Bool.false_or]
        simp

theorem storeVisit_of_allSucceed (target : Target) (entries : List (CString × SettingValue_t)) :
    ∀ (f : SettingsFile) (crc : Nat) (first : Bool), f.AllSucceed →
      (visitEntries SettingsFileResult.Success (storeSettingsInPersistentStorageCallback target)
        (f, crc, first) entries).2 = SettingsFileResult.Success ∧
      (visitEntries SettingsFileResult.Success (storeSettingsInPersistentStorageCallback target)
        (f, crc, first) entries).1.1.AllSucceed := by
  induction entries with
  | nil =>
    intro f crc first h
    exact ⟨rfl, h⟩
  | cons x rest ih =>
    intro f crc first h
    obtain ⟨k, e⟩ := x
    by_cases hp : e.isPersistent = true
    · have hv : ¬ (e.settingPermissions &&& SettingPermissions_t.VOLATILE ≠ 0) := by
        simpa [SettingValue_t.isPersistent] using hp
      obtain ⟨w1, a1⟩ := write_of_allSucceed f k h
      obtain ⟨w2, a2⟩ := write_of_allSucceed (f.write k).2
        ([9] ++ formatNat e.settingValueType.code ++ [9]) a1
      obtain ⟨w3, a3⟩ := write_of_allSucceed
        ((f.write k).2.write ([9] ++ formatNat e.settingValueType.code ++ [9])).2
        (formattedValue target e ++ [10]) a2
      have hcb : (storeSettingsInPersistentStorageCallback target (f, crc, first) k e).2 =
            SettingsFileResult.Success ∧
          (storeSettingsInPersistentStorageCallback target (f, crc, first) k e).1.1.AllSucceed := by
        unfold storeSettingsInPersistentStorageCallback
        simp only [hv, if_false, formattedString_eq]
        rw [w1] at w2 w3 a3 ⊢
        simp only at w2 w3 a3 ⊢
        rw [w2] at w3 a3 ⊢
        simp only at w3 a3 ⊢
        rw [w3] at a3 ⊢
        exact ⟨rfl, a3⟩
      simp only [visitEntries, hcb.1, if_true]
      exact ih _ _ _ hcb.2
    · have hp' : e.isPersistent = false := by simpa using hp
      simp only [visitEntries, storeCallback_volatile target _ k e hp', if_true]
      exact ih f crc first h

theorem openForWrite_of_success (f : SettingsFile)
    (h : f.openForWrite.1 = SettingsFileResult.Success) : f.openForWrite.2.content = [] := by
  unfold SettingsFile.openForWrite at h ⊢
  cases hn : nextResult f.script with
  | mk r rs =>
    rw [hn] at h
    cases r <;> simp_all

theorem store_of_success (target : Target) (s : Settings_t) (f : SettingsFile) (crc32 : Nat)
    (h : (storeSettingsInPersistentStorage target s f crc32).2 = NO_ERROR) :
    (storeSettingsInPersistentStorage target s f crc32).1.content =
      persistedData target s.entries ++
        trailerLine (if s.entries.any (fun x => x.2.isPersistent) then
          CRC.Calculate (persistedData target s.entries) none else crc32) := by
  unfold storeSettingsInPersistentStorage at h ⊢
  cases ho : f.openForWrite with
  | mk r0 f0 =>
    rw [ho] at h
    cases r0
    case Success =>
      simp only [ho] at h ⊢
      have hc0 : f0.content = [] := by
        have := openForWrite_of_success f (by rw [ho])
        rw [ho] at this
        exact this
      cases hv : s.iterateOverAll SettingsFileResult.Success
          (storeSettingsInPersistentStorageCallback target) (f0, crc32, true) with
      | mk st r1 =>
        obtain ⟨f1, crc, fl⟩ := st
        rw [hv] at h
        cases r1
        case Success =>
          simp only [hv] at h ⊢
          obtain ⟨v1, v2⟩ := storeVisit_of_success target s.entries f0 crc32 true
            (by
              have := congrArg Prod.snd hv
              simpa [Settings_t.iterateOverAll] using this)
          have hv' : visitEntries SettingsFileResult.Success
              (storeSettingsInPersistentStorageCallback target) (f0, crc32, true) s.entries =
              ((f1, crc, fl), SettingsFileResult.Success) := hv
          rw [hv'] at v1 v2
          simp only [if_true] at v1 v2
          cases hw : f1.write ([13] ++ formatNat crc ++ [10]) with
          | mk r2 f2 =>
            rw [hw] at h
            cases r2
            case Success =>
              simp only [hw] at h ⊢
              have hc2 : f2.content = f1.content ++ ([13] ++ formatNat crc ++ [10]) := by
                have := write_of_success f1 ([13] ++ formatNat crc ++ [10]) (by rw [hw])
                rw [hw] at this
                exact this
              cases hcl : f2.close with
              | mk r3 f3 =>
                rw [hcl] at h
                have hc3 : f3.content = f2.content := by
                  have := congrArg (fun p => p.2.content) hcl
                  simpa [SettingsFile.close] using this.symm
                cases r3
                case Success =>
                  simp only [hc3, hc2, v1, hc0, v2, trailerLine, List.nil_append]
                all_goals simp at h
            all_goals simp at h
        all_goals simp at h
    all_goals simp at h

theorem store_of_allSucceed (target : Target) (s : Settings_t) (f : SettingsFile) (crc32 : Nat)
    (h : f.AllSucceed) :
    (storeSettingsInPersistentStorage target s f crc32).2 = NO_ERROR ∧
      (storeSettingsInPersistentStorage target s f crc32).1.AllSucceed := by
  obtain ⟨o1, o2⟩ := openForWrite_of_allSucceed f h
  obtain ⟨v1, v2⟩ := storeVisit_of_allSucceed target s.entries f.openForWrite.2 crc32 true o2
  unfold storeSettingsInPersistentStorage
  cases hv : visitEntries SettingsFileResult.Success
      (storeSettingsInPersistentStorageCallback target) (f.openForWrite.2, crc32, true)
      s.entries with
  | mk st r1 =>
    obtain ⟨f1, crc, fl⟩ := st
    rw [hv] at v1 v2
    simp only at v1 v2
    subst v1
    obtain ⟨w1, w2⟩ := write_of_allSucceed f1 ([13] ++ formatNat crc ++ [10]) v2
    obtain ⟨c1, c2⟩ := close_of_allSucceed (f1.write ([13] ++ formatNat crc ++ [10])).2 w2
    rw [o1] at hv ⊢
    simp only [Settings_t.iterateOverAll]
    simp only at hv
    rw [hv]
    simp only
    rw [w1] at c1 c2 ⊢
    simp only at c1 c2 ⊢
    rw [c1] at c2 ⊢
    exact ⟨rfl, c2⟩

end SettingsStorage

namespace SettingsStorage

open SettingError_t SettingValueType_t

/-- C13 (store wire format). When every call on the Backing File succeeds,
`storeSettingsInPersistentStorage` returns NO_ERROR and the content of the
file is exactly: for each entry without the VOLATILE flag, in the store's
enumeration order, its key, a TAB, the decimal type code, a TAB, the formatted
current value and a LF; then one trailer line, a CR, one decimal number and a
LF (the number is the checksum of the preceding bytes when a data line was
written, else the content of the local `crc32`). -/
theorem store_wire_format (target : Target) (s : Settings_t) (f : SettingsFile) (crc32 : Nat)
    (h : f.AllSucceed) :
    (storeSettingsInPersistentStorage target s f crc32).2 = NO_ERROR ∧
    (storeSettingsInPersistentStorage target s f crc32).1.content =
      persistedData target s.entries ++
        trailerLine (if s.entries.any (fun x => x.2.isPersistent) then
          CRC.Calculate (persistedData target s.entries) none else crc32) :=
  ⟨(store_of_allSucceed target s f crc32 h).1,
    store_of_success target s f crc32 (store_of_allSucceed target s f crc32 h).1⟩

set_option maxRecDepth 100000 in
/-- C13 at a concrete input: "net.timeout" (SYSTEM, Integer, current 45) is
written as one data line, the VOLATILE "vol" is not written. -/
theorem store_wire_format_witness :
    (storeSettingsInPersistentStorage ⟨64, fun d => formatNat d.bits, fun t => (⟨0⟩, t)⟩
      ⟨[(bytes "net.timeout", ⟨1, INTEGER, .integer 45, .integer 30⟩),
        (bytes "vol", ⟨8, INTEGER, .integer 7, .integer 7⟩)]⟩ ⟨[], [], []⟩ 0).1.content =
      bytes "net.timeout\t0\t45\n\r3023842618\n" :=
  ((store_wire_format ⟨64, fun d => formatNat d.bits, fun t => (⟨0⟩, t)⟩
    ⟨[(bytes "net.timeout", ⟨1, INTEGER, .integer 45, .integer 30⟩),
      (bytes "vol", ⟨8, INTEGER, .integer 7, .integer 7⟩)]⟩ ⟨[], [], []⟩ 0
    (by decide)).2).trans (by decide)

/-- C14, what the code does. After a store that returned NO_ERROR: when the
store holds an entry without the VOLATILE flag, the number in the trailer is
the checksum of all the bytes written before the trailer; when it holds none
(an empty registry, or VOLATILE entries only), no callback assigns the local
`crc32` and the trailer holds the content that the local happens to have, not
the checksum of the empty byte sequence. -/
theorem store_trailer_checksum (target : Target) (s : Settings_t) (f : SettingsFile)
    (crc32 : Nat) (h : (storeSettingsInPersistentStorage target s f crc32).2 = NO_ERROR) :
    (s.entries.any (fun x => x.2.isPersistent) = true →
      (storeSettingsInPersistentStorage target s f crc32).1.content =
        persistedData target s.entries ++
          trailerLine (CRC.Calculate (persistedData target s.entries) none)) ∧
    (s.entries.any (fun x => x.2.isPersistent) = false →
      (storeSettingsInPersistentStorage target s f crc32).1.content = trailerLine crc32) := by
  have hc := store_of_success target s f crc32 h
  refine ⟨fun hp => ?_, fun hp => ?_⟩
  · rw [hc, hp]
    rfl
  · rw [hc, hp, persistedData_of_not_any target s.entries hp]
    rfl

set_option maxRecDepth 100000 in
/-- C14 at the failing input: the empty registry with 12345 in the local
`crc32`; the trailer holds 12345, while the checksum of the empty byte sequence
is 0. -/
theorem store_trailer_checksum_witness :
    (storeSettingsInPersistentStorage ⟨64, fun d => formatNat d.bits, fun t => (⟨0⟩, t)⟩ ⟨[]⟩
      ⟨[], [], []⟩ 12345).1.content = bytes "\r12345\n" ∧
    CRC.Calculate [] none = 0 :=
  ⟨((store_trailer_checksum ⟨64, fun d => formatNat d.bits, fun t => (⟨0⟩, t)⟩ ⟨[]⟩
      ⟨[], [], []⟩ 12345 (by decide)).2 (by decide)).trans (by decide), by decide⟩

end SettingsStorage

/-! ## Lemmas on the load -/

namespace SettingsStorage

open SettingError_t SettingValueType_t

theorem loadSetting_unchanged_or_applied (MAX : Nat) (target : Target) (s : Settings_t)
    (settingStr : CString) :
    (loadSetting MAX target s settingStr).1 = s ∨
      (loadSetting MAX target s settingStr).2 = true := by
  unfold loadSetting
  simp only []
  repeat' split
  all_goals first
    | exact Or.inl rfl
    | exact Or.inr rfl

theorem loadSetting_of_false (MAX : Nat) (target : Target) (s : Settings_t)
    (settingStr : CString) (h : (loadSetting MAX target s settingStr).2 = false) :
    (loadSetting MAX target s settingStr).1 = s := by
  rcases loadSetting_unchanged_or_applied MAX target s settingStr with h1 | h1
  · exact h1
  · rw [h] at h1
    cases h1

theorem loadSettingsLoop_of_allSucceed (MAX : Nat) (target : Target) (lines : List CString) :
    ∀ (s : Settings_t) (script : List SettingsFileResult),
      (∀ r ∈ script, r = SettingsFileResult.Success) →
      (loadSettingsLoop MAX target s script lines).1 = (applyLines MAX target s lines).1 ∧
      (loadSettingsLoop MAX target s script lines).2.2.2 =
        (if (applyLines MAX target s lines).2 then some SettingsFileResult.EndOfFile else none) ∧
      (∀ r ∈ (loadSettingsLoop MAX target s script lines).2.1,
        r = SettingsFileResult.Success) := by
  induction lines with
  | nil =>
    intro s script h
    obtain ⟨h1, h2⟩ := nextResult_of_allSucceed script h
    unfold loadSettingsLoop
    rw [h1]
    exact ⟨rfl, rfl, h2⟩
  | cons l rest ih =>
    intro s script h
    obtain ⟨h1, h2⟩ := nextResult_of_allSucceed script h
    unfold loadSettingsLoop
    rw [h1]
    simp only [applyLines, isTrailer, decide_eq_true_eq]
    by_cases ht : l.head? = some 13
    · simp only [ht, if_true]
      exact ih s _ h2
    · simp only [ht, if_false]
      cases hl : loadSetting MAX target s l with
      | mk s' ok =>
        cases ok
        · simp only [Bool.false_eq_true, if_false, true_and]
          intro r hr
          rw [(nextResult_of_allSucceed _ h2).1] at hr
          exact (nextResult_of_allSucceed _ h2).2 r hr
        · simp only
          exact ih s' _ h2

end SettingsStorage

namespace SettingsStorage

open SettingError_t SettingValueType_t

theorem ofCode_eq_some (n : Nat) (t : SettingValueType_t)
    (h : SettingValueType_t.ofCode n = some t) : t.code = n := by
  unfold SettingValueType_t.ofCode at h
  repeat' split at h
  all_goals first
    | (cases h; symm; assumption)
    | cases h

theorem c_str_of_not_mem (s : CString) (h : 0 ∉ s) : c_str s = s := by
  unfold c_str
  rw [List.takeWhile_eq_self_iff]
  intro b hb
  exact bne_iff_ne.mpr (fun hb0 => h (hb0 ▸ hb))

theorem not_mem_c_str (s : CString) : 0 ∉ c_str s := by
  intro h
  have := List.mem_takeWhile_imp h
  simp at this

theorem loadSetting_eq (MAX : Nat) (target : Target) (s : Settings_t) (l : CString) :
    loadSetting MAX target s l =
      match readDataLine target l with
      | none => (s, false)
      | some (key, t, v) => applyParsed MAX s key t v := by
  unfold loadSetting readDataLine lineKey lineTypeText lineValueText
  simp only []
  by_cases h1 : (getline l 9).1 = []
  · simp [h1]
  · by_cases h2 : (getline (getline l 9).2 9).1 = []
    · simp [h1, h2]
    · by_cases h3 : (getline (getline (getline l 9).2 9).2 10).1 = []
      · simp [h1, h2, h3]
      · by_cases h0 : c_str (getline l 9).1 = []
        · simp only [h1, h2, h3, h0, if_false, or_true, if_true, putSettingValueAsReal,
            putSettingValueAsInt, putSettingValueAsString, getSettingValue]
          repeat' split
          all_goals rfl
        · simp only [h1, h2, h3, h0, if_false, or_self, parseTypeCode]
          by_cases h4 :
              (strtol target.LONG_BITS (c_str (getline (getline l 9).2 9).1)).2 ≠ [] ∨
              (strtol target.LONG_BITS (c_str (getline (getline l 9).2 9).1)).1 < 0 ∨
              (strtol target.LONG_BITS (c_str (getline (getline l 9).2 9).1)).1 ≥
                (MAX_SETTING_VALUE_TYPE_ENUM : Int)
          · have h4' : ¬ ((strtol target.LONG_BITS
                  (c_str (getline (getline l 9).2 9).1)).2 = [] ∧
                0 ≤ (strtol target.LONG_BITS (c_str (getline (getline l 9).2 9).1)).1 ∧
                (strtol target.LONG_BITS (c_str (getline (getline l 9).2 9).1)).1 <
                  (MAX_SETTING_VALUE_TYPE_ENUM : Int)) := by
              rintro ⟨a, b, c⟩
              rcases h4 with h | h | h
              · exact h a
              · omega
              · omega
            rw [if_pos h4, if_neg h4']
          · have h4' : ((strtol target.LONG_BITS
                  (c_str (getline (getline l 9).2 9).1)).2 = [] ∧
                0 ≤ (strtol target.LONG_BITS (c_str (getline (getline l 9).2 9).1)).1 ∧
                (strtol target.LONG_BITS (c_str (getline (getline l 9).2 9).1)).1 <
                  (MAX_SETTING_VALUE_TYPE_ENUM : Int)) := by
              push_neg at h4
              exact ⟨h4.1, h4.2.1, h4.2.2⟩
            rw [if_neg h4, if_pos h4']
            cases hc : SettingValueType_t.ofCode
                (strtol target.LONG_BITS (c_str (getline (getline l 9).2 9).1)).1.toNat with
            | none => rfl
            | some t =>
              cases t with
              | REAL =>
                simp only [parseValue]
                by_cases h5 : (target.strtod
                    (c_str (getline (getline (getline l 9).2 9).2 10).1)).2 = []
                · simp only [h5, if_true, ne_eq, not_true_eq_false, if_false]
                  rw [putSettingValueAsReal_eq MAX s _ _ h0]
                  unfold applyParsed
                  cases he : s.entryOf MAX (c_str (getline l 9).1) with
                  | none =>
                    simp only []
                    rw [registerSettingAsReal_eq MAX s _ _ _ h0 (by decide), he]
                  | some e =>
                    simp only []
                    by_cases ht : e.settingValueType = REAL
                    · simp [ht]
                    · simp [ht]
                · simp [h5]
              | INTEGER =>
                simp only [parseValue]
                by_cases h5 : (strtoll
                    (c_str (getline (getline (getline l 9).2 9).2 10).1)).2 = []
                · simp only [h5, if_true, ne_eq, not_true_eq_false, if_false]
                  rw [putSettingValueAsInt_eq MAX s _ _ h0]
                  unfold applyParsed
                  cases he : s.entryOf MAX (c_str (getline l 9).1) with
                  | none =>
                    simp only []
                    rw [registerSettingAsInt_eq MAX s _ _ _ h0 (by decide), he]
                  | some e =>
                    simp only []
                    by_cases ht : e.settingValueType = INTEGER
                    · simp [ht]
                    · simp [ht]
                · simp [h5]
              | STRING =>
                simp only [parseValue]
                rw [putSettingValueAsString_eq MAX s _ _ h0]
                unfold applyParsed
                cases he : s.entryOf MAX (c_str (getline l 9).1) with
                | none =>
                  simp only []
                  rw [registerSettingAsString_eq MAX s _ _ _ h0 (by decide), he]
                | some e =>
                  simp only []
                  by_cases ht : e.settingValueType = STRING
                  · simp [ht]
                  · simp [ht]

theorem readDataLine_key (target : Target) (l key : CString) (t : SettingValueType_t)
    (v : SettingValueData_t) (h : readDataLine target l = some (key, t, v)) :
    key = c_str (lineKey l) ∧ key ≠ [] := by
  unfold readDataLine at h
  split at h
  · cases h
  · rename_i hne
    split at h
    · cases h
    · split at h
      · cases h
      · cases h
        exact ⟨rfl, fun hk => hne (Or.inr (Or.inr (Or.inr hk)))⟩

theorem mem_of_mem_getline (s : CString) (d b : Nat) :
    (b ∈ (getline s d).1 → b ∈ s) ∧ (b ∈ (getline s d).2 → b ∈ s) := by
  unfold getline
  exact ⟨fun h => (List.takeWhile_sublist _).subset h,
    fun h => (List.dropWhile_sublist _).subset (List.mem_of_mem_drop h)⟩

theorem readDataLine_of_not_mem (target : Target) (l : CString) (h : 0 ∉ l) :
    readDataLine target l = parseLine target l := by
  have hk : 0 ∉ lineKey l := fun hm => h ((mem_of_mem_getline l 9 0).1 hm)
  have ht : 0 ∉ lineTypeText l := fun hm =>
    h ((mem_of_mem_getline l 9 0).2 ((mem_of_mem_getline _ 9 0).1 hm))
  have hv : 0 ∉ lineValueText l := fun hm =>
    h ((mem_of_mem_getline l 9 0).2 ((mem_of_mem_getline _ 9 0).2
      ((mem_of_mem_getline _ 10 0).1 hm)))
  unfold readDataLine parseLine
  rw [c_str_of_not_mem _ hk, c_str_of_not_mem _ ht, c_str_of_not_mem _ hv]
  by_cases h1 : lineKey l = []
  · simp [h1]
  · simp [h1]

theorem parseLine_key (target : Target) (l key : CString) (t : SettingValueType_t)
    (v : SettingValueData_t) (h : parseLine target l = some (key, t, v)) :
    key = lineKey l ∧ lineKey l ≠ [] := by
  unfold parseLine at h
  split at h
  · cases h
  · rename_i hne
    split at h
    · cases h
    · split at h
      · cases h
      · cases h
        exact ⟨rfl, fun hk => hne (Or.inl hk)⟩

theorem lookupEntry_applyParsed_ne (MAX : Nat) (s : Settings_t) (key k : CString)
    (t : SettingValueType_t) (v : SettingValueData_t) (h : storedKey MAX key ≠ k) :
    lookupEntry k (applyParsed MAX s key t v).1.entries = lookupEntry k s.entries := by
  unfold applyParsed
  split
  · split
    · exact lookupEntry_replaceEntry_ne _ _ _ _ (Ne.symm h)
    · rfl
  · exact lookupEntry_insertEntry_ne _ _ _ _ (Ne.symm h)

theorem lookupEntry_loadSetting_ne (MAX : Nat) (target : Target) (s : Settings_t)
    (l k : CString) (h : storedKey MAX (c_str (lineKey l)) ≠ k) :
    lookupEntry k (loadSetting MAX target s l).1.entries = lookupEntry k s.entries := by
  rw [loadSetting_eq]
  cases hp : readDataLine target l with
  | none => rfl
  | some p =>
    obtain ⟨key, t, v⟩ := p
    obtain ⟨hk, _⟩ := readDataLine_key target l key t v hp
    subst hk
    exact lookupEntry_applyParsed_ne MAX s _ k t v h

theorem lookupEntry_loadSettingsLoop_ne (MAX : Nat) (target : Target) (k : CString)
    (unread : List CString) :
    ∀ (s : Settings_t) (script : List SettingsFileResult),
      (∀ l ∈ unread, isTrailer l = false → storedKey MAX (c_str (lineKey l)) ≠ k) →
      lookupEntry k (loadSettingsLoop MAX target s script unread).1.entries =
        lookupEntry k s.entries := by
  induction unread with
  | nil =>
    intro s script _
    unfold loadSettingsLoop
    split <;> rfl
  | cons l rest ih =>
    intro s script h
    have hrest : ∀ l' ∈ rest, isTrailer l' = false →
        storedKey MAX (c_str (lineKey l')) ≠ k :=
      fun l' hl' => h l' (List.mem_cons_of_mem _ hl')
    unfold loadSettingsLoop
    split
    · simp only []
      split
      · exact ih s _ hrest
      · rename_i hnt
        have hl : storedKey MAX (c_str (lineKey l)) ≠ k :=
          h l (List.mem_cons_self _ _) (by simp [isTrailer, hnt])
        split
        · rename_i heq
          rw [ih _ _ hrest]
          have := lookupEntry_loadSetting_ne MAX target s l k hl
          rw [heq] at this
          exact this
        · rfl
    · rfl
    · rfl

theorem openForRead_content (f : SettingsFile) : f.openForRead.2.content = f.content := by
  unfold SettingsFile.openForRead
  split <;> rfl

theorem openForRead_unread (f f1 : SettingsFile)
    (h : f.openForRead = (SettingsFileResult.Success, f1)) :
    f1.unread = splitLines f.content := by
  unfold SettingsFile.openForRead at h
  split at h
  · cases h
    rfl
  · rename_i hne heq
    cases h
    exact (hne rfl).elim

theorem validateChecksum_content (target : Target) (f : SettingsFile) :
    (validateChecksum target f).1.content = f.content := by
  unfold validateChecksum
  split
  · rename_i f0 ho
    have h0 : f0.content = f.content := by
      have := openForRead_content f
      rw [ho] at this
      exact this
    split
    · split
      · rename_i hc
        have h := congrArg (fun x => x.2.content) hc
        simp only [SettingsFile.close] at h
        split <;> exact h.symm.trans h0
      · rename_i hc
        have h := congrArg (fun x => x.2.content) hc
        simp only [SettingsFile.close] at h
        exact h.symm.trans h0
    · exact h0
    · exact h0
  · rename_i f0 ho
    have := openForRead_content f
    rw [ho] at this
    exact this

theorem lookupEntry_load_ne (MAX : Nat) (target : Target) (s : Settings_t)
    (f : SettingsFile) (k : CString)
    (h : ∀ l ∈ splitLines f.content, isTrailer l = false →
      storedKey MAX (c_str (lineKey l)) ≠ k) :
    lookupEntry k (loadSettingsFromPersistentStorage MAX target s f).1.entries =
      lookupEntry k s.entries := by
  unfold loadSettingsFromPersistentStorage
  split
  · rename_i f0 hv
    have hc : f0.content = f.content := by
      have := validateChecksum_content target f
      rw [hv] at this
      exact this
    split
    · rename_i f1 ho
      have hu : f1.unread = splitLines f.content := by
        rw [← hc]
        exact openForRead_unread f0 f1 ho
      have hl := lookupEntry_loadSettingsLoop_ne MAX target k f1.unread s f1.script
        (by rw [hu]; exact h)
      split
      · rename_i heq
        rw [heq] at hl
        split <;> exact hl
      · rename_i heq
        rw [heq] at hl
        exact hl
    · rfl
  · rfl

theorem validateChecksumLoop_of_allSucceed (target : Target) (lines : List CString) :
    ∀ (e c : Nat) (b : Bool) (script : List SettingsFileResult),
      (∀ r ∈ script, r = SettingsFileResult.Success) → (b = true → c = 0) →
      (∀ r ∈ (validateChecksumLoop target e c b script lines).1,
        r = SettingsFileResult.Success) ∧
      (if lines.all (fun l => !isTrailer l || trailerWellFormed target l) = true then
        (validateChecksumLoop target e c b script lines).2.2.2.2 =
            some SettingsFileResult.EndOfFile ∧
          (validateChecksumLoop target e c b script lines).2.2.1 =
            storedChecksum target e lines ∧
          (validateChecksumLoop target e c b script lines).2.2.2.1 =
            CRC.Calculate (dataOfLines lines) (if b = true then none else some c)
      else (validateChecksumLoop target e c b script lines).2.2.2.2 = none) := by
  induction lines with
  | nil =>
    intro e c b script h hb
    obtain ⟨h1, h2⟩ := nextResult_of_allSucceed script h
    unfold validateChecksumLoop
    rw [h1]
    refine ⟨h2, ?_⟩
    simp only [List.all_nil, if_true, storedChecksum, dataOfLines, true_and]
    cases b
    · simp [crc_calculate_nil_some]
    · simp [crc_calculate_nil_none, hb rfl]
  | cons l rest ih =>
    intro e c b script h hb
    obtain ⟨h1, h2⟩ := nextResult_of_allSucceed script h
    unfold validateChecksumLoop
    rw [h1]
    simp only []
    by_cases ht : l.head? = some 13
    · have hT : isTrailer l = true := by simp [isTrailer, ht]
      rw [if_pos ht]
      by_cases hw : (strtol target.LONG_BITS (l.drop 1)).2.head? = some 10
      · have hW : trailerWellFormed target l = true := decide_eq_true hw
        rw [if_neg (not_not.mpr hw)]
        simp only [List.all_cons, hT, hW, Bool.not_true, Bool.false_or, Bool.true_and,
          storedChecksum, dataOfLines, if_true]
        exact ih _ c b _ h2 hb
      · have hW : trailerWellFormed target l = false := decide_eq_false hw
        rw [if_pos hw]
        simp only [List.all_cons, hT, hW, Bool.not_true, Bool.false_or, Bool.false_and,
          Bool.false_eq_true, if_false, and_true]
        intro r hr
        rw [(nextResult_of_allSucceed _ h2).1] at hr
        exact (nextResult_of_allSucceed _ h2).2 r hr
    · have hT : isTrailer l = false := by simp [isTrailer, ht]
      rw [if_neg ht]
      have := ih e (if b = true then CRC.Calculate l none else CRC.Calculate l (some c)) false
        script.tail h2 (by simp)
      simp only [List.all_cons, hT, Bool.not_false, Bool.true_or, Bool.true_and,
        storedChecksum, dataOfLines, Bool.false_eq_true, if_false]
      refine ⟨this.1, ?_⟩
      have h2' := this.2
      split
      · rename_i hall
        rw [if_pos hall] at h2'
        refine ⟨h2'.1, h2'.2.1, ?_⟩
        rw [h2'.2.2]
        simp only [Bool.false_eq_true, if_false]
        cases b
        · simp only [Bool.false_eq_true, if_false]
          exact crc_calculate_append l (dataOfLines rest) (some c)
        · simp only [if_true]
          exact crc_calculate_append l (dataOfLines rest) none
      · rename_i hall
        rw [if_neg hall] at h2'
        exact h2'

theorem validateChecksum_of_allSucceed (target : Target) (f : SettingsFile)
    (h : f.AllSucceed) :
    (validateChecksum target f).1.AllSucceed ∧
      (validateChecksum target f).2 =
        (if (splitLines f.content).all (fun l => !isTrailer l || trailerWellFormed target l)
              = true ∧
            storedChecksum target 0 (splitLines f.content) =
              CRC.Calculate (dataOfLines (splitLines f.content)) none
          then NO_ERROR else SETTINGS_FILESYSTEM_ERROR) := by
  obtain ⟨o1, o2⟩ := openForRead_of_allSucceed f h
  have hl := validateChecksumLoop_of_allSucceed target (splitLines f.content) 0 0 true
    f.script.tail (by rw [o1] at o2; exact o2) (fun _ => rfl)
  unfold validateChecksum
  rw [o1]
  simp only []
  cases hv : validateChecksumLoop target 0 0 true f.script.tail (splitLines f.content) with
  | mk rs rest1 =>
    obtain ⟨unread, expected, computed, res⟩ := rest1
    rw [hv] at hl
    simp only [if_true] at hl
    obtain ⟨hs, hr⟩ := hl
    by_cases hall : (splitLines f.content).all
        (fun l => !isTrailer l || trailerWellFormed target l) = true
    · rw [if_pos hall] at hr
      obtain ⟨r1, r2, r3⟩ := hr
      subst r1 r2 r3
      simp only [hall, true_and]
      obtain ⟨c1, c2⟩ := close_of_allSucceed
        ({ content := f.content, unread := unread, script := rs } : SettingsFile) hs
      rw [c1]
      simp only []
      rw [c1] at c2
      by_cases he : storedChecksum target 0 (splitLines f.content) =
          CRC.Calculate (dataOfLines (splitLines f.content)) none
      · simp only [he, ne_eq, not_true_eq_false, if_false, if_true]
        exact ⟨c2, trivial⟩
      · simp only [he, ne_eq, not_false_eq_true, if_true, if_false]
        exact ⟨c2, trivial⟩
    · rw [if_neg hall] at hr
      subst hr
      rw [if_neg (fun hh => hall hh.1)]
      exact ⟨hs, rfl⟩

theorem load_of_allSucceed (MAX : Nat) (target : Target) (s : Settings_t) (f : SettingsFile)
    (h : f.AllSucceed) (hv : (validateChecksum target f).2 = NO_ERROR) :
    (loadSettingsFromPersistentStorage MAX target s f).1 =
        (applyLines MAX target s (splitLines f.content)).1 ∧
      (loadSettingsFromPersistentStorage MAX target s f).2.2 =
        (if (applyLines MAX target s (splitLines f.content)).2 = true then NO_ERROR
          else SETTINGS_FILESYSTEM_ERROR) := by
  have hc := validateChecksum_content target f
  have ha := (validateChecksum_of_allSucceed target f h).1
  unfold loadSettingsFromPersistentStorage
  cases hvf : validateChecksum target f with
  | mk f0 err =>
    rw [hvf] at hv hc ha
    simp only at hv hc ha
    subst hv
    simp only []
    obtain ⟨o1, o2⟩ := openForRead_of_allSucceed f0 ha
    rw [o1]
    simp only []
    rw [o1] at o2
    obtain ⟨l1, l2, l3⟩ := loadSettingsLoop_of_allSucceed MAX target (splitLines f0.content) s
      f0.script.tail o2
    cases hl : loadSettingsLoop MAX target s f0.script.tail (splitLines f0.content) with
    | mk s' rest1 =>
      obtain ⟨rs, unread, res⟩ := rest1
      rw [hl] at l1 l2 l3
      simp only at l1 l2 l3
      rw [hc] at l1 l2
      subst l1
      cases hap : (applyLines MAX target s (splitLines f.content)).2
      · rw [hap] at l2
        simp only [Bool.false_eq_true, if_false] at l2
        subst l2
        simp
      · rw [hap] at l2
        simp only [if_true] at l2
        subst l2
        obtain ⟨c1, c2⟩ := close_of_allSucceed
          ({ content := f0.content, unread := unread, script := rs } : SettingsFile) l3
        simp only [if_true]
        rw [c1]
        exact ⟨rfl, rfl⟩

end SettingsStorage

/-! ## Lemmas on numbers, lines and fields -/

theorem digitsValue_append (ds : List Nat) (d : Nat) :
    digitsValue (ds ++ [d]) = 10 * digitsValue ds + (d - 48) := by
  simp [digitsValue, List.foldl_append]

theorem decimalDigits_spec (fuel : Nat) :
    ∀ (n : Nat) (acc : List Nat), n < 10 ^ (fuel + 1) →
      ∃ ds, decimalDigits (fuel + 1) n acc = ds ++ acc ∧ ds ≠ [] ∧
        (∀ d ∈ ds, isdigit d = true) ∧ digitsValue ds = n := by
  induction fuel with
  | zero =>
    intro n acc h
    have h10 : n < 10 := by simpa using h
    refine ⟨[48 + n], ?_, by simp, ?_, ?_⟩
    · simp [decimalDigits, h10]
    · intro d hd
      simp only [List.mem_singleton] at hd
      subst hd
      simp [isdigit]
      omega
    · simp [digitsValue]
  | succ fuel ih =>
    intro n acc h
    by_cases h10 : n < 10
    · refine ⟨[48 + n], ?_, by simp, ?_, ?_⟩
      · simp [decimalDigits, h10]
      · intro d hd
        simp only [List.mem_singleton] at hd
        subst hd
        simp [isdigit]
        omega
      · simp [digitsValue]
    · have hdiv : n / 10 < 10 ^ (fuel + 1) := by
        rw [Nat.div_lt_iff_lt_mul (by norm_num)]
        calc n < 10 ^ (fuel + 1 + 1) := h
          _ = 10 ^ (fuel + 1) * 10 := by ring
      obtain ⟨ds, e1, _, e3, e4⟩ := ih (n / 10) ((48 + n % 10) :: acc) hdiv
      refine ⟨ds ++ [48 + n % 10], ?_, by simp, ?_, ?_⟩
      · rw [decimalDigits, if_neg h10, e1]
        simp
      · intro d hd
        rcases List.mem_append.mp hd with hd | hd
        · exact e3 d hd
        · simp only [List.mem_singleton] at hd
          subst hd
          simp [isdigit]
          omega
      · rw [digitsValue_append, e4]
        omega

theorem formatNat_spec (n : Nat) :
    formatNat n ≠ [] ∧ (∀ d ∈ formatNat n, isdigit d = true) ∧ digitsValue (formatNat n) = n := by
  have h : n < 10 ^ (n + 1) :=
    Nat.lt_of_lt_of_le (Nat.lt_succ_self n) (Nat.lt_pow_self (by norm_num) _).le
  obtain ⟨ds, e1, e2, e3, e4⟩ := decimalDigits_spec n n [] h
  unfold formatNat
  rw [e1, List.append_nil]
  exact ⟨e2, e3, e4⟩

theorem isspace_of_isdigit (d : Nat) (h : isdigit d = true) : isspace d = false := by
  simp only [isdigit, Bool.and_eq_true, decide_eq_true_eq] at h
  simp [isspace]
  omega

theorem takeWhile_isdigit_append (ds rest : List Nat) (hd : ∀ d ∈ ds, isdigit d = true)
    (hr : ∀ b, rest.head? = some b → isdigit b = false) :
    (ds ++ rest).takeWhile isdigit = ds ∧ (ds ++ rest).dropWhile isdigit = rest := by
  induction ds with
  | nil =>
    cases rest with
    | nil => exact ⟨rfl, rfl⟩
    | cons b r =>
      have hb := hr b rfl
      simp [List.takeWhile, List.dropWhile, hb]
  | cons d ds ih =>
    have h1 := hd d (List.mem_cons_self _ _)
    obtain ⟨i1, i2⟩ := ih (fun d' hd' => hd d' (List.mem_cons_of_mem _ hd'))
    simp [List.takeWhile, List.dropWhile, h1, i1, i2]

theorem strtoInteger_digits (lo hi : Int) (ds rest : List Nat) (hne : ds ≠ [])
    (hd : ∀ d ∈ ds, isdigit d = true) (hr : ∀ b, rest.head? = some b → isdigit b = false) :
    strtoInteger lo hi (ds ++ rest) = (max lo (min hi (digitsValue ds : Int)), rest) := by
  obtain ⟨t1, t2⟩ := takeWhile_isdigit_append ds rest hd hr
  cases ds with
  | nil => exact absurd rfl hne
  | cons d ds' =>
    have h1 := hd d (List.mem_cons_self _ _)
    have hs := isspace_of_isdigit d h1
    have h45 : d ≠ 45 := by
      intro h; subst h; simp [isdigit] at h1
    have h43 : d ≠ 43 := by
      intro h; subst h; simp [isdigit] at h1
    have hdw : (d :: (ds' ++ rest)).dropWhile isspace = d :: (ds' ++ rest) := by
      simp [List.dropWhile, hs]
    have hcases : d = 48 ∨ d = 49 ∨ d = 50 ∨ d = 51 ∨ d = 52 ∨ d = 53 ∨ d = 54 ∨ d = 55 ∨
        d = 56 ∨ d = 57 := by
      simp only [isdigit, Bool.and_eq_true, decide_eq_true_eq] at h1
      omega
    unfold strtoInteger
    simp only [List.cons_append] at t1 t2 ⊢
    rw [hdw]
    rcases hcases with h | h | h | h | h | h | h | h | h | h <;> subst h <;>
      simp only [t1, t2] <;> simp

theorem strtoInteger_minus_digits (lo hi : Int) (ds rest : List Nat) (hne : ds ≠ [])
    (hd : ∀ d ∈ ds, isdigit d = true) (hr : ∀ b, rest.head? = some b → isdigit b = false) :
    strtoInteger lo hi (45 :: (ds ++ rest)) =
      (max lo (min hi (-(digitsValue ds : Int))), rest) := by
  obtain ⟨t1, t2⟩ := takeWhile_isdigit_append ds rest hd hr
  have hs : isspace 45 = false := by decide
  have hdw : (45 :: (ds ++ rest)).dropWhile isspace = 45 :: (ds ++ rest) := by
    simp [List.dropWhile, hs]
  unfold strtoInteger
  rw [hdw]
  simp only [t1, t2, hne]
  simp

theorem strtoll_formatInt (v : Int) (hlo : -(2 : Int) ^ 63 ≤ v) (hhi : v < (2 : Int) ^ 63) :
    strtoll (formatInt v) = (v, []) := by
  obtain ⟨f1, f2, f3⟩ := formatNat_spec v.natAbs
  unfold strtoll formatInt
  by_cases hneg : v < 0
  · rw [if_pos hneg]
    have := strtoInteger_minus_digits (-(2 : Int) ^ 63) ((2 : Int) ^ 63 - 1)
      (formatNat v.natAbs) [] f1 f2 (by simp)
    rw [List.append_nil] at this
    rw [this, f3]
    congr 1
    omega
  · rw [if_neg hneg]
    have := strtoInteger_digits (-(2 : Int) ^ 63) ((2 : Int) ^ 63 - 1)
      (formatNat v.natAbs) [] f1 f2 (by simp)
    rw [List.append_nil] at this
    rw [this, f3]
    congr 1
    omega

theorem strtol_formatNat (LONG_BITS n : Nat) (rest : List Nat)
    (hr : ∀ b, rest.head? = some b → isdigit b = false)
    (hn : (n : Int) < (2 : Int) ^ (LONG_BITS - 1)) :
    strtol LONG_BITS (formatNat n ++ rest) = ((n : Int), rest) := by
  obtain ⟨f1, f2, f3⟩ := formatNat_spec n
  unfold strtol
  rw [strtoInteger_digits _ _ _ _ f1 f2 hr, f3]
  congr 1
  have : (0 : Int) < (2 : Int) ^ (LONG_BITS - 1) := by positivity
  omega

theorem not_mem_of_isdigit (b : Nat) (ds : List Nat) (hd : ∀ d ∈ ds, isdigit d = true)
    (hb : isdigit b = false) : b ∉ ds := by
  intro h
  rw [hd b h] at hb
  cases hb

theorem formatInt_not_mem (v : Int) (b : Nat) (hb : isdigit b = false) (h45 : b ≠ 45) :
    b ∉ formatInt v := by
  obtain ⟨_, f2, _⟩ := formatNat_spec v.natAbs
  unfold formatInt
  split
  · intro h
    rcases List.mem_cons.mp h with h | h
    · exact h45 h
    · exact not_mem_of_isdigit b _ f2 hb h
  · exact not_mem_of_isdigit b _ f2 hb

theorem formatInt_ne_nil (v : Int) : formatInt v ≠ [] := by
  obtain ⟨f1, _, _⟩ := formatNat_spec v.natAbs
  unfold formatInt
  split
  · simp
  · exact f1

theorem getline_append (k rest : List Nat) (d : Nat) (h : d ∉ k) :
    getline (k ++ d :: rest) d = (k, rest) := by
  induction k with
  | nil => simp [getline, List.takeWhile, List.dropWhile]
  | cons b k ih =>
    have hb : b ≠ d := fun e => h (e ▸ List.mem_cons_self _ _)
    have hbd : (b != d) = true := bne_iff_ne.mpr hb
    have ih' := ih (fun hm => h (List.mem_cons_of_mem _ hm))
    simp only [getline, Prod.mk.injEq] at ih' ⊢
    rw [List.cons_append]
    simp only [List.takeWhile_cons, List.dropWhile_cons, hbd, if_true]
    exact ⟨by rw [ih'.1], ih'.2⟩

theorem getline_of_not_mem (k : List Nat) (d : Nat) (h : d ∉ k) : getline k d = (k, []) := by
  induction k with
  | nil => simp [getline]
  | cons b k ih =>
    have hb : b ≠ d := fun e => h (e ▸ List.mem_cons_self _ _)
    have hbd : (b != d) = true := bne_iff_ne.mpr hb
    have ih' := ih (fun hm => h (List.mem_cons_of_mem _ hm))
    simp only [getline, Prod.mk.injEq] at ih' ⊢
    simp only [List.takeWhile_cons, List.dropWhile_cons, hbd, if_true]
    exact ⟨by rw [ih'.1], ih'.2⟩

theorem splitLines_append (l rest : List Nat) (h : 10 ∉ l) :
    splitLines (l ++ 10 :: rest) = (l ++ [10]) :: splitLines rest := by
  induction l with
  | nil => simp [splitLines]
  | cons b l ih =>
    have hb : b ≠ 10 := fun e => h (e ▸ List.mem_cons_self _ _)
    have ih' := ih (fun hm => h (List.mem_cons_of_mem _ hm))
    rw [List.cons_append, splitLines, if_neg hb, ih']
    rfl

theorem crcShift_lt (c : Nat) (h : c < 2 ^ 32) : crcShift c < 2 ^ 32 := by
  unfold crcShift
  split
  · exact Nat.xor_lt_two_pow (by omega) (by norm_num)
  · omega

theorem crcByte_lt (r b : Nat) (h : r < 2 ^ 32) : crcByte r b < 2 ^ 32 := by
  unfold crcByte
  have h0 : r ^^^ (b % 256) < 2 ^ 32 :=
    Nat.xor_lt_two_pow h (Nat.lt_of_lt_of_le (Nat.mod_lt _ (by norm_num)) (by norm_num))
  exact crcShift_lt _ (crcShift_lt _ (crcShift_lt _ (crcShift_lt _ (crcShift_lt _
    (crcShift_lt _ (crcShift_lt _ (crcShift_lt _ h0)))))))

theorem foldl_crcByte_lt (data : List Nat) : ∀ r, r < 2 ^ 32 →
    data.foldl crcByte r < 2 ^ 32 := by
  induction data with
  | nil => intro r h; exact h
  | cons b data ih => intro r h; exact ih _ (crcByte_lt r b h)

theorem crc_calculate_lt (data : List Nat) : CRC.Calculate data none < 2 ^ 32 := by
  unfold CRC.Calculate
  exact Nat.xor_lt_two_pow (foldl_crcByte_lt data _ (by norm_num)) (by norm_num)

/-! ## Lemmas on the lines of a load -/

namespace SettingsStorage

open SettingError_t SettingValueType_t

theorem applyLines_append (MAX : Nat) (target : Target) (pre rest : List CString) :
    ∀ s : Settings_t, applyLines MAX target s (pre ++ rest) =
      if (applyLines MAX target s pre).2 = true then
        applyLines MAX target (applyLines MAX target s pre).1 rest
      else ((applyLines MAX target s pre).1, false) := by
  induction pre with
  | nil => intro s; simp [applyLines]
  | cons l pre ih =>
    intro s
    simp only [List.cons_append, applyLines]
    split
    · exact ih s
    · cases hl : loadSetting MAX target s l with
      | mk s' ok =>
        cases ok
        · simp
        · simp only []
          exact ih s'

theorem applyLines_cons_data (MAX : Nat) (target : Target) (s : Settings_t) (l : CString)
    (post : List CString) (ht : isTrailer l = false) :
    applyLines MAX target s (l :: post) =
      if (loadSetting MAX target s l).2 = true then
        applyLines MAX target (loadSetting MAX target s l).1 post
      else (s, false) := by
  simp only [applyLines, ht, Bool.false_eq_true, if_false]
  cases hl : loadSetting MAX target s l with
  | mk s' ok => cases ok <;> simp

theorem parseTypeCode_eq_none (target : Target) (text : CString)
    (h : (strtol target.LONG_BITS text).2 ≠ [] ∨ (strtol target.LONG_BITS text).1 < 0 ∨
      (strtol target.LONG_BITS text).1 ≥ (MAX_SETTING_VALUE_TYPE_ENUM : Int)) :
    parseTypeCode target text = none := by
  unfold parseTypeCode
  rw [if_neg]
  rintro ⟨a, b, c⟩
  rcases h with h | h | h
  · exact h a
  · omega
  · omega

theorem parseLine_eq_none (target : Target) (l : CString)
    (hm : lineKey l = [] ∨ lineTypeText l = [] ∨ lineValueText l = [] ∨
      (strtol target.LONG_BITS (lineTypeText l)).2 ≠ [] ∨
      (strtol target.LONG_BITS (lineTypeText l)).1 < 0 ∨
      (strtol target.LONG_BITS (lineTypeText l)).1 ≥ (MAX_SETTING_VALUE_TYPE_ENUM : Int) ∨
      (parseTypeCode target (lineTypeText l) = some INTEGER ∧
        (strtoll (lineValueText l)).2 ≠ []) ∨
      (parseTypeCode target (lineTypeText l) = some REAL ∧
        (target.strtod (lineValueText l)).2 ≠ [])) :
    parseLine target l = none := by
  unfold parseLine
  by_cases h0 : lineKey l = [] ∨ lineTypeText l = [] ∨ lineValueText l = []
  · rw [if_pos h0]
  · rw [if_neg h0]
    have hm' : (strtol target.LONG_BITS (lineTypeText l)).2 ≠ [] ∨
        (strtol target.LONG_BITS (lineTypeText l)).1 < 0 ∨
        (strtol target.LONG_BITS (lineTypeText l)).1 ≥ (MAX_SETTING_VALUE_TYPE_ENUM : Int) ∨
        (parseTypeCode target (lineTypeText l) = some INTEGER ∧
          (strtoll (lineValueText l)).2 ≠ []) ∨
        (parseTypeCode target (lineTypeText l) = some REAL ∧
          (target.strtod (lineValueText l)).2 ≠ []) := by
      rcases hm with h | h | h | h
      · exact absurd (Or.inl h) h0
      · exact absurd (Or.inr (Or.inl h)) h0
      · exact absurd (Or.inr (Or.inr h)) h0
      · exact h
    rcases hm' with h | h | h | h | h
    · rw [parseTypeCode_eq_none target _ (Or.inl h)]
    · rw [parseTypeCode_eq_none target _ (Or.inr (Or.inl h))]
    · rw [parseTypeCode_eq_none target _ (Or.inr (Or.inr h))]
    · rw [h.1]
      simp only [parseValue, if_neg h.2]
    · rw [h.1]
      simp only [parseValue, if_neg h.2]

theorem readDataLine_eq_none (target : Target) (l : CString)
    (hm : lineKey l = [] ∨ lineTypeText l = [] ∨ lineValueText l = [] ∨
      (strtol target.LONG_BITS (c_str (lineTypeText l))).2 ≠ [] ∨
      (strtol target.LONG_BITS (c_str (lineTypeText l))).1 < 0 ∨
      (strtol target.LONG_BITS (c_str (lineTypeText l))).1 ≥
        (MAX_SETTING_VALUE_TYPE_ENUM : Int) ∨
      (parseTypeCode target (c_str (lineTypeText l)) = some INTEGER ∧
        (strtoll (c_str (lineValueText l))).2 ≠ []) ∨
      (parseTypeCode target (c_str (lineTypeText l)) = some REAL ∧
        (target.strtod (c_str (lineValueText l))).2 ≠ [])) :
    readDataLine target l = none := by
  unfold readDataLine
  by_cases h0 : lineKey l = [] ∨ lineTypeText l = [] ∨ lineValueText l = [] ∨
      c_str (lineKey l) = []
  · rw [if_pos h0]
  · rw [if_neg h0]
    have hm' : (strtol target.LONG_BITS (c_str (lineTypeText l))).2 ≠ [] ∨
        (strtol target.LONG_BITS (c_str (lineTypeText l))).1 < 0 ∨
        (strtol target.LONG_BITS (c_str (lineTypeText l))).1 ≥
          (MAX_SETTING_VALUE_TYPE_ENUM : Int) ∨
        (parseTypeCode target (c_str (lineTypeText l)) = some INTEGER ∧
          (strtoll (c_str (lineValueText l))).2 ≠ []) ∨
        (parseTypeCode target (c_str (lineTypeText l)) = some REAL ∧
          (target.strtod (c_str (lineValueText l))).2 ≠ []) := by
      rcases hm with h | h | h | h
      · exact absurd (Or.inl h) h0
      · exact absurd (Or.inr (Or.inl h)) h0
      · exact absurd (Or.inr (Or.inr (Or.inl h))) h0
      · exact h
    rcases hm' with h | h | h | h | h
    · rw [parseTypeCode_eq_none target _ (Or.inl h)]
    · rw [parseTypeCode_eq_none target _ (Or.inr (Or.inl h))]
    · rw [parseTypeCode_eq_none target _ (Or.inr (Or.inr h))]
    · rw [h.1]
      simp only [parseValue, if_neg h.2]
    · rw [h.1]
      simp only [parseValue, if_neg h.2]

end SettingsStorage

namespace SettingsStorage

open SettingError_t SettingValueType_t

set_option maxRecDepth 100000 in
/-- C18 does not hold for every well-formed data line. The line whose key field
is "v", a NUL byte and "x", with the type code 0 and the value 5, has three
non-empty fields, a type code and an Integer value; its key field is not the
key of an entry of the registry, which holds the SYSTEM Integer "v" with the
value 1. The load of the file (the line and the trailer with its checksum)
returns NO_ERROR and registers no key: it has put 5 into "v", the key field
read up to its first NUL byte. -/
theorem load_reads_key_field_up_to_nul :
    parseLine ⟨64, fun d => formatNat d.bits, fun t => (⟨0⟩, t)⟩ (bytes "v\x00x\t0\t5\n") =
      some (bytes "v\x00x", INTEGER, .integer 5) ∧
    lookupEntry (bytes "v\x00x")
      [(bytes "v", (⟨1, INTEGER, .integer 1, .integer 1⟩ : SettingValue_t))] = none ∧
    (validateChecksum ⟨64, fun d => formatNat d.bits, fun t => (⟨0⟩, t)⟩
      ⟨bytes "v\x00x\t0\t5\n\r1482834469\n", [], []⟩).2 = NO_ERROR ∧
    (loadSettingsFromPersistentStorage 16 ⟨64, fun d => formatNat d.bits, fun t => (⟨0⟩, t)⟩
      ⟨[(bytes "v", ⟨1, INTEGER, .integer 1, .integer 1⟩)]⟩
      ⟨bytes "v\x00x\t0\t5\n\r1482834469\n", [], []⟩).2.2 = NO_ERROR ∧
    (loadSettingsFromPersistentStorage 16 ⟨64, fun d => formatNat d.bits, fun t => (⟨0⟩, t)⟩
      ⟨[(bytes "v", ⟨1, INTEGER, .integer 1, .integer 1⟩)]⟩
      ⟨bytes "v\x00x\t0\t5\n\r1482834469\n", [], []⟩).1 =
      ⟨[(bytes "v", ⟨1, INTEGER, .integer 5, .integer 1⟩)]⟩ := by
  decide

/-- C18, amended (per-line semantics of a load). For every checksum-valid file
on which every call succeeds, and every data line `l` of it that the load reads
as well formed (three non-empty fields which, each read as a C string up to its
first NUL byte, give a non-empty key, a type `t` and a parsed value `v`),
reached with all the lines before it applied, giving the store `s1`: when the
key is registered with type `t` the load replaces the current value of its
entry by `v` and goes on with the lines after `l`; when the key is absent the
load registers it with type `t`, permissions exactly VOLATILE and `v` as
current and default value (an entry for which a store writes no line) and goes
on; and when the key is registered with another type the load stops with the
store `s1` and returns SETTINGS_FILESYSTEM_ERROR. -/
theorem load_per_line_semantics (MAX : Nat) (target : Target) (s : Settings_t)
    (f : SettingsFile) (hf : f.AllSucceed) (hv : (validateChecksum target f).2 = NO_ERROR)
    (pre post : List CString) (l key : CString) (t : SettingValueType_t)
    (v : SettingValueData_t) (s1 : Settings_t)
    (hl : splitLines f.content = pre ++ l :: post)
    (hpre : applyLines MAX target s pre = (s1, true)) (ht : isTrailer l = false)
    (hp : readDataLine target l = some (key, t, v)) :
    (∀ e, s1.entryOf MAX key = some e → e.settingValueType = t →
      (loadSettingsFromPersistentStorage MAX target s f).1 =
        (applyLines MAX target
          ⟨replaceEntry (storedKey MAX key) { e with settingValueData := v } s1.entries⟩
          post).1 ∧
      (loadSettingsFromPersistentStorage MAX target s f).2.2 =
        (if (applyLines MAX target
          ⟨replaceEntry (storedKey MAX key) { e with settingValueData := v } s1.entries⟩
          post).2 = true then NO_ERROR else SETTINGS_FILESYSTEM_ERROR)) ∧
    (s1.entryOf MAX key = none →
      (loadSettingsFromPersistentStorage MAX target s f).1 =
        (applyLines MAX target
          ⟨insertEntry (storedKey MAX key) ⟨SettingPermissions_t.VOLATILE, t, v, v⟩
            s1.entries⟩ post).1 ∧
      (loadSettingsFromPersistentStorage MAX target s f).2.2 =
        (if (applyLines MAX target
          ⟨insertEntry (storedKey MAX key) ⟨SettingPermissions_t.VOLATILE, t, v, v⟩
            s1.entries⟩ post).2 = true then NO_ERROR else SETTINGS_FILESYSTEM_ERROR) ∧
      persistedData target
        [(storedKey MAX key, ⟨SettingPermissions_t.VOLATILE, t, v, v⟩)] = []) ∧
    (∀ e, s1.entryOf MAX key = some e → e.settingValueType ≠ t →
      (loadSettingsFromPersistentStorage MAX target s f).1 = s1 ∧
      (loadSettingsFromPersistentStorage MAX target s f).2.2 = SETTINGS_FILESYSTEM_ERROR) := by
  obtain ⟨h1, h2⟩ := load_of_allSucceed MAX target s f hf hv
  have ha : applyLines MAX target s (splitLines f.content) =
      if (loadSetting MAX target s1 l).2 = true then
        applyLines MAX target (loadSetting MAX target s1 l).1 post
      else (s1, false) := by
    rw [hl, applyLines_append, hpre]
    simp only [if_true]
    exact applyLines_cons_data MAX target s1 l post ht
  rw [loadSetting_eq, hp] at ha
  simp only [] at ha
  rw [h1, h2, ha]
  refine ⟨?_, ?_, ?_⟩
  · intro e he hte
    simp only [applyParsed, he, hte, if_true]
    exact ⟨trivial, trivial⟩
  · intro he
    simp only [applyParsed, he, if_true]
    exact ⟨trivial, trivial,
      by simp [persistedData, SettingValue_t.isPersistent, SettingPermissions_t.VOLATILE]⟩
  · intro e he hte
    simp only [applyParsed, he, hte, if_false, Bool.false_eq_true]
    exact ⟨trivial, trivial⟩

set_option maxRecDepth 100000 in
/-- C18 amended, at a concrete input: the line "a", type 0, value 45 loaded into the
empty store registers "a" as a VOLATILE Integer with current and default
value 45. -/
theorem load_per_line_semantics_witness :
    (loadSettingsFromPersistentStorage 16 ⟨64, fun d => formatNat d.bits, fun t => (⟨0⟩, t)⟩
      ⟨[]⟩ ⟨bytes "a\t0\t45\n\r705517583\n", [], []⟩).1 =
      ⟨[(bytes "a", ⟨SettingPermissions_t.VOLATILE, INTEGER, .integer 45, .integer 45⟩)]⟩ :=
  (((load_per_line_semantics 16 ⟨64, fun d => formatNat d.bits, fun t => (⟨0⟩, t)⟩ ⟨[]⟩
    ⟨bytes "a\t0\t45\n\r705517583\n", [], []⟩ (by decide) (by decide)
    [] [bytes "\r705517583\n"] (bytes "a\t0\t45\n") (bytes "a") INTEGER (.integer 45) ⟨[]⟩
    (by decide) (by decide) (by decide) (by decide)).2.1 (by decide)).1).trans (by decide)

end SettingsStorage

/-! ## Lemmas on stored files -/

theorem isdigit_false_of_eq (b : Nat) (h : b = 9 ∨ b = 10 ∨ b = 13) : isdigit b = false := by
  rcases h with h | h | h <;> subst h <;> decide

theorem formatNat_not_mem (n b : Nat) (hb : isdigit b = false) : b ∉ formatNat n :=
  not_mem_of_isdigit b _ (formatNat_spec n).2.1 hb

theorem splitLines_trailerLine (c : Nat) : splitLines (trailerLine c) = [trailerLine c] := by
  have h : (10 : Nat) ∉ [13] ++ formatNat c := by
    intro hm
    rcases List.mem_append.mp hm with hm | hm
    · simp at hm
    · exact formatNat_not_mem c 10 (by decide) hm
  have := splitLines_append ([13] ++ formatNat c) [] h
  simpa [trailerLine, splitLines] using this

theorem isTrailer_trailerLine (c : Nat) : isTrailer (trailerLine c) = true := by
  simp [isTrailer, trailerLine]

theorem strtol_trailerLine (target : Target) (c : Nat)
    (hc : (c : Int) < (2 : Int) ^ (target.LONG_BITS - 1)) :
    strtol target.LONG_BITS ((trailerLine c).drop 1) = ((c : Int), [10]) := by
  have : (trailerLine c).drop 1 = formatNat c ++ [10] := by simp [trailerLine]
  rw [this]
  exact strtol_formatNat target.LONG_BITS c [10] (by simp [isdigit]) hc

theorem trailerWellFormed_trailerLine (target : Target) (c : Nat)
    (hc : (c : Int) < (2 : Int) ^ (target.LONG_BITS - 1)) :
    trailerWellFormed target (trailerLine c) = true := by
  unfold trailerWellFormed
  rw [strtol_trailerLine target c hc]
  rfl

theorem trailerNumber_trailerLine (target : Target) (c : Nat)
    (hc : (c : Int) < (2 : Int) ^ (target.LONG_BITS - 1)) (h32 : c < 2 ^ 32) :
    trailerNumber target (trailerLine c) = c := by
  unfold trailerNumber
  rw [strtol_trailerLine target c hc]
  simp only []
  omega

theorem getline_persistedLine (target : Target) (key : CString) (e : SettingValue_t)
    (h9 : 9 ∉ key) :
    getline (persistedLine target key e) 9 =
      (key, formatNat e.settingValueType.code ++ [9] ++ formattedValue target e ++ [10]) := by
  have := getline_append key
    (formatNat e.settingValueType.code ++ [9] ++ formattedValue target e ++ [10]) 9 h9
  simpa [persistedLine] using this

theorem lineKey_persistedLine (target : Target) (key : CString) (e : SettingValue_t)
    (h9 : 9 ∉ key) : lineKey (persistedLine target key e) = key := by
  unfold lineKey
  rw [getline_persistedLine target key e h9]

theorem lineTypeText_persistedLine (target : Target) (key : CString) (e : SettingValue_t)
    (h9 : 9 ∉ key) :
    lineTypeText (persistedLine target key e) = formatNat e.settingValueType.code ∧
      (getline (getline (persistedLine target key e) 9).2 9).2 =
        formattedValue target e ++ [10] := by
  unfold lineTypeText
  rw [getline_persistedLine target key e h9]
  have := getline_append (formatNat e.settingValueType.code) (formattedValue target e ++ [10]) 9
    (formatNat_not_mem _ 9 (by decide))
  simp only [List.append_assoc, List.singleton_append, List.cons_append,
    List.nil_append] at this ⊢
  rw [this]
  exact ⟨rfl, rfl⟩

theorem lineValueText_persistedLine (target : Target) (key : CString) (e : SettingValue_t)
    (h9 : 9 ∉ key) (h10 : 10 ∉ formattedValue target e) :
    lineValueText (persistedLine target key e) = formattedValue target e := by
  unfold lineValueText
  rw [(lineTypeText_persistedLine target key e h9).2]
  have := getline_append (formattedValue target e) [] 10 h10
  simp only [List.append_assoc, List.singleton_append] at this ⊢
  rw [this]

theorem parseTypeCode_formatNat (target : Target) (t : SettingValueType_t)
    (h : 3 ≤ target.LONG_BITS) :
    parseTypeCode target (formatNat t.code) = some t := by
  have hlt : t.code < 3 := by cases t <;> decide
  have h4 : (2 : Int) ^ 2 ≤ (2 : Int) ^ (target.LONG_BITS - 1) :=
    pow_le_pow_right₀ (by norm_num) (by omega)
  have hs := strtol_formatNat target.LONG_BITS t.code [] (by simp) (by
    have : (t.code : Int) < 3 := by exact_mod_cast hlt
    omega)
  rw [List.append_nil] at hs
  unfold parseTypeCode
  rw [hs]
  have hc : ((t.code : Int), ([] : List Nat)).2 = [] ∧ 0 ≤ ((t.code : Int), ([] : List Nat)).1 ∧
      ((t.code : Int), ([] : List Nat)).1 < (MAX_SETTING_VALUE_TYPE_ENUM : Int) :=
    ⟨rfl, by simp, by simp only [MAX_SETTING_VALUE_TYPE_ENUM]; exact_mod_cast hlt⟩
  rw [if_pos hc]
  cases t <;> rfl

theorem isTrailer_persistedLine (target : Target) (key : CString) (e : SettingValue_t)
    (hne : key ≠ []) (h13 : 13 ∉ key) : isTrailer (persistedLine target key e) = false := by
  cases key with
  | nil => exact absurd rfl hne
  | cons b key =>
    have hb : b ≠ 13 := fun h => h13 (h ▸ List.mem_cons_self _ _)
    simp [isTrailer, persistedLine, hb]

theorem splitLines_persistedLine (target : Target) (key : CString) (e : SettingValue_t)
    (rest : List Nat) (hk : 10 ∉ key) (hv : 10 ∉ formattedValue target e) :
    splitLines (persistedLine target key e ++ rest) =
      persistedLine target key e :: splitLines rest := by
  have h : (10 : Nat) ∉
      key ++ [9] ++ formatNat e.settingValueType.code ++ [9] ++ formattedValue target e := by
    intro hm
    simp only [List.mem_append, List.mem_singleton] at hm
    rcases hm with (((hm | hm) | hm) | hm) | hm
    · exact hk hm
    · cases hm
    · exact formatNat_not_mem _ 10 (by decide) hm
    · cases hm
    · exact hv hm
  have := splitLines_append _ rest h
  simpa [persistedLine] using this

theorem splitLines_persistedData (target : Target) (c : Nat)
    (entries : List (CString × SettingValue_t))
    (h : ∀ x ∈ entries, x.2.isPersistent = true →
      10 ∉ x.1 ∧ 10 ∉ formattedValue target x.2) :
    splitLines (persistedData target entries ++ trailerLine c) =
      (entries.filter (fun x => x.2.isPersistent)).map
        (fun x => persistedLine target x.1 x.2) ++ [trailerLine c] := by
  induction entries with
  | nil => simpa [persistedData] using splitLines_trailerLine c
  | cons x rest ih =>
    have ih' := ih (fun y hy => h y (List.mem_cons_of_mem _ hy))
    cases hp : x.2.isPersistent
    · simp only [persistedData, hp, Bool.false_eq_true, if_false, List.filter_cons]
      exact ih'
    · obtain ⟨h1, h2⟩ := h x (List.mem_cons_self _ _) hp
      simp only [persistedData, hp, if_true, List.filter_cons, List.map_cons,
        List.cons_append, List.append_assoc]
      rw [splitLines_persistedLine target x.1 x.2 _ h1 h2, ih']

theorem dataOfLines_persisted (target : Target) (c : Nat)
    (entries : List (CString × SettingValue_t))
    (h : ∀ x ∈ entries, x.2.isPersistent = true →
      isTrailer (persistedLine target x.1 x.2) = false) :
    dataOfLines ((entries.filter (fun x => x.2.isPersistent)).map
        (fun x => persistedLine target x.1 x.2) ++ [trailerLine c]) =
      persistedData target entries ∧
    (∀ e0, storedChecksum target e0 ((entries.filter (fun x => x.2.isPersistent)).map
        (fun x => persistedLine target x.1 x.2) ++ [trailerLine c]) =
      trailerNumber target (trailerLine c)) ∧
    (((entries.filter (fun x => x.2.isPersistent)).map
        (fun x => persistedLine target x.1 x.2) ++ [trailerLine c]).all
      (fun l => !isTrailer l || trailerWellFormed target l) =
      trailerWellFormed target (trailerLine c)) := by
  induction entries with
  | nil =>
    simp [dataOfLines, storedChecksum, persistedData, isTrailer_trailerLine]
  | cons x rest ih =>
    obtain ⟨i1, i2, i3⟩ := ih (fun y hy => h y (List.mem_cons_of_mem _ hy))
    cases hp : x.2.isPersistent
    · simp only [persistedData, hp, Bool.false_eq_true, if_false, List.filter_cons]
      exact ⟨i1, i2, i3⟩
    · have ht := h x (List.mem_cons_self _ _) hp
      simp only [persistedData, hp, if_true, List.filter_cons, List.map_cons,
        List.cons_append, dataOfLines, storedChecksum, ht, Bool.false_eq_true, if_false,
        List.all_cons, Bool.not_false, Bool.true_or, Bool.true_and]
      exact ⟨by rw [i1], i2, i3⟩

namespace SettingsStorage

open SettingError_t SettingValueType_t

theorem validateChecksum_stored (target : Target) (entries : List (CString × SettingValue_t))
    (f : SettingsFile) (hf : f.AllSucceed)
    (hc : f.content = persistedData target entries ++
      trailerLine (CRC.Calculate (persistedData target entries) none))
    (hfit : ∀ x ∈ entries, x.2.isPersistent = true →
      10 ∉ x.1 ∧ 10 ∉ formattedValue target x.2)
    (hcr : ∀ x ∈ entries, x.2.isPersistent = true →
      isTrailer (persistedLine target x.1 x.2) = false)
    (hlong : 33 ≤ target.LONG_BITS) :
    (validateChecksum target f).2 = NO_ERROR := by
  have h32 := crc_calculate_lt (persistedData target entries)
  have hpow : (2 : Int) ^ 32 ≤ (2 : Int) ^ (target.LONG_BITS - 1) :=
    pow_le_pow_right₀ (by norm_num) (by omega)
  have hci : ((CRC.Calculate (persistedData target entries) none : Nat) : Int) <
      (2 : Int) ^ (target.LONG_BITS - 1) := by
    have : ((CRC.Calculate (persistedData target entries) none : Nat) : Int) < (2 : Int) ^ 32 := by
      exact_mod_cast h32
    omega
  obtain ⟨d1, d2, d3⟩ := dataOfLines_persisted target
    (CRC.Calculate (persistedData target entries) none) entries hcr
  rw [(validateChecksum_of_allSucceed target f hf).2, hc,
    splitLines_persistedData target _ entries hfit, if_pos]
  refine ⟨?_, ?_⟩
  · rw [d3]
    exact trailerWellFormed_trailerLine target _ hci
  · rw [d1, d2 0]
    exact trailerNumber_trailerLine target _ hci h32

theorem nul_not_mem_persistedLine (target : Target) (key : CString) (e : SettingValue_t)
    (hk : 0 ∉ key) (hv : 0 ∉ formattedValue target e) : 0 ∉ persistedLine target key e := by
  intro hm
  simp only [persistedLine, List.mem_append, List.mem_singleton] at hm
  rcases hm with ((((hm | hm) | hm) | hm) | hm) | hm
  · exact hk hm
  · cases hm
  · exact formatNat_not_mem _ 0 (by decide) hm
  · cases hm
  · exact hv hm
  · cases hm

theorem parseLine_persistedLine_integer (target : Target) (key : CString)
    (p : SettingPermissions_t) (v : Int) (dflt : SettingValueData_t)
    (hne : key ≠ []) (h9 : 9 ∉ key) (hlo : -(2 : Int) ^ 63 ≤ v) (hhi : v < (2 : Int) ^ 63)
    (hlong : 3 ≤ target.LONG_BITS) :
    parseLine target (persistedLine target key ⟨p, INTEGER, .integer v, dflt⟩) =
      some (key, INTEGER, .integer v) := by
  have hfv : formattedValue target ⟨p, INTEGER, .integer v, dflt⟩ = formatInt v := rfl
  have h1 := lineKey_persistedLine target key ⟨p, INTEGER, .integer v, dflt⟩ h9
  have h2 := (lineTypeText_persistedLine target key ⟨p, INTEGER, .integer v, dflt⟩ h9).1
  have h3 := lineValueText_persistedLine target key ⟨p, INTEGER, .integer v, dflt⟩ h9
    (by rw [hfv]; exact formatInt_not_mem v 10 (by decide) (by decide))
  rw [hfv] at h3
  unfold parseLine
  rw [h1, h2, h3, if_neg, parseTypeCode_formatNat target INTEGER hlong]
  · simp only [parseValue, strtoll_formatInt v hlo hhi, if_true]
  · rintro (h | h | h)
    · exact hne h
    · exact (formatNat_spec _).1 h
    · exact formatInt_ne_nil v h

theorem applyLines_stored_line (MAX : Nat) (target : Target) (s : Settings_t)
    (line : CString) (c : Nat) (ht : isTrailer line = false) :
    applyLines MAX target s [line, trailerLine c] = loadSetting MAX target s line := by
  rw [applyLines_cons_data MAX target s line _ ht]
  have hT : ∀ s', applyLines MAX target s' [trailerLine c] = (s', true) := by
    intro s'
    simp [applyLines, isTrailer_trailerLine]
  rw [hT]
  cases hl : loadSetting MAX target s line with
  | mk s' ok =>
    cases ok
    · have := loadSetting_of_false MAX target s line (by rw [hl])
      rw [hl] at this
      simp only at this
      subst this
      simp
    · simp

theorem mem_storedKey (MAX : Nat) (key : CString) (b : Nat) (h : b ∉ key) :
    b ∉ storedKey MAX key := by
  rw [storedKey_eq_take]
  exact fun hm => h (List.mem_of_mem_take hm)

theorem round_trip_integer (MAX : Nat) (target : Target) (k : CString)
    (p : SettingPermissions_t) (d v : Int) (f : SettingsFile) (crc32 : Nat)
    (hMAX : 0 < MAX) (hlong : 33 ≤ target.LONG_BITS) (hk : k ≠ [])
    (h0 : 0 ∉ k) (h9 : 9 ∉ k) (h10 : 10 ∉ k) (h13 : 13 ∉ k)
    (hp : validatePermissions p = true) (hnv : p &&& SettingPermissions_t.VOLATILE = 0)
    (hlo : -(2 : Int) ^ 63 ≤ v) (hhi : v < (2 : Int) ^ 63) (hf : f.AllSucceed) :
    registerSettingAsInt MAX ⟨[]⟩ (some k) p d =
      (⟨[(storedKey MAX k, ⟨p, INTEGER, .integer d, .integer d⟩)]⟩, NO_ERROR) ∧
    putSettingValueAsInt MAX ⟨[(storedKey MAX k, ⟨p, INTEGER, .integer d, .integer d⟩)]⟩
        (some k) v =
      (⟨[(storedKey MAX k, ⟨p, INTEGER, .integer v, .integer d⟩)]⟩, NO_ERROR) ∧
    (storeSettingsInPersistentStorage target
      ⟨[(storedKey MAX k, ⟨p, INTEGER, .integer v, .integer d⟩)]⟩ f crc32).2 = NO_ERROR ∧
    ∀ s : Settings_t,
      (loadSettingsFromPersistentStorage MAX target s
        (storeSettingsInPersistentStorage target
          ⟨[(storedKey MAX k, ⟨p, INTEGER, .integer v, .integer d⟩)]⟩ f crc32).1).1 =
        (applyParsed MAX s (storedKey MAX k) INTEGER (.integer v)).1 ∧
      (loadSettingsFromPersistentStorage MAX target s
        (storeSettingsInPersistentStorage target
          ⟨[(storedKey MAX k, ⟨p, INTEGER, .integer v, .integer d⟩)]⟩ f crc32).1).2.2 =
        (if (applyParsed MAX s (storedKey MAX k) INTEGER (.integer v)).2 = true then NO_ERROR
          else SETTINGS_FILESYSTEM_ERROR) := by
  obtain ⟨hsk1, hsk2⟩ := storedKey_bounds MAX k hMAX hk
  have hs0 := mem_storedKey MAX k 0 h0
  have hs9 := mem_storedKey MAX k 9 h9
  have hs10 := mem_storedKey MAX k 10 h10
  have hs13 := mem_storedKey MAX k 13 h13
  have hpers : SettingValue_t.isPersistent ⟨p, INTEGER, .integer v, .integer d⟩ = true := by
    simp [SettingValue_t.isPersistent, hnv]
  have hfv : formattedValue target ⟨p, INTEGER, .integer v, .integer d⟩ = formatInt v := rfl
  refine ⟨?_, ?_, ?_, ?_⟩
  · rw [registerSettingAsInt_eq MAX _ k p d hk hp]
    rfl
  · have he : Settings_t.entryOf MAX
        ⟨[(storedKey MAX k, ⟨p, INTEGER, .integer d, .integer d⟩)]⟩ k =
        some ⟨p, INTEGER, .integer d, .integer d⟩ := by
      rw [entryOf_eq]
      simp [lookupEntry]
    rw [putSettingValueAsInt_eq MAX _ k v hk, he]
    simp [replaceEntry]
  · exact (store_of_allSucceed target _ f crc32 hf).1
  · intro s
    obtain ⟨st1, st2⟩ := store_of_allSucceed target
      ⟨[(storedKey MAX k, ⟨p, INTEGER, .integer v, .integer d⟩)]⟩ f crc32 hf
    have hc := store_of_success target
      ⟨[(storedKey MAX k, ⟨p, INTEGER, .integer v, .integer d⟩)]⟩ f crc32 st1
    have hany : List.any [(storedKey MAX k, (⟨p, INTEGER, .integer v, .integer d⟩ :
        SettingValue_t))] (fun x => x.2.isPersistent) = true := by
      simp [hpers]
    simp only [hany, if_true] at hc
    have hfit : ∀ x ∈ [(storedKey MAX k, (⟨p, INTEGER, .integer v, .integer d⟩ :
        SettingValue_t))], x.2.isPersistent = true →
        10 ∉ x.1 ∧ 10 ∉ formattedValue target x.2 := by
      intro x hx _
      simp only [List.mem_singleton] at hx
      subst hx
      exact ⟨hs10, by rw [hfv]; exact formatInt_not_mem v 10 (by decide) (by decide)⟩
    have hcr : ∀ x ∈ [(storedKey MAX k, (⟨p, INTEGER, .integer v, .integer d⟩ :
        SettingValue_t))], x.2.isPersistent = true →
        isTrailer (persistedLine target x.1 x.2) = false := by
      intro x hx _
      simp only [List.mem_singleton] at hx
      subst hx
      exact isTrailer_persistedLine target _ _ hsk1 hs13
    have hv := validateChecksum_stored target _ _ st2 hc hfit hcr hlong
    obtain ⟨l1, l2⟩ := load_of_allSucceed MAX target s _ st2 hv
    have hlines := splitLines_persistedData target
      (CRC.Calculate (persistedData target
        [(storedKey MAX k, ⟨p, INTEGER, .integer v, .integer d⟩)]) none) _ hfit
    rw [← hc] at hlines
    simp only [List.filter_cons, hpers, if_true, List.filter_nil, List.map_cons, List.map_nil,
      List.cons_append, List.nil_append] at hlines
    rw [l1, l2, hlines,
      applyLines_stored_line MAX target s _ _ (hcr _ (List.mem_singleton.mpr rfl) hpers),
      loadSetting_eq,
      readDataLine_of_not_mem target _ (nul_not_mem_persistedLine target _ _ hs0
        (by rw [hfv]; exact formatInt_not_mem v 0 (by decide) (by decide))),
      parseLine_persistedLine_integer target _ p v _ hsk1 hs9 hlo hhi (by omega)]
    exact ⟨rfl, rfl⟩

theorem stored_line_key (MAX : Nat) (target : Target) (s : Settings_t) (c : Nat)
    (k : CString) (e : SettingValue_t) (hw : s.WellFormed MAX)
    (hfit : ∀ x ∈ s.entries, x.2.isPersistent = true →
      9 ∉ x.1 ∧ 10 ∉ x.1 ∧ 10 ∉ formattedValue target x.2)
    (hnul : ∀ x ∈ s.entries, x.2.isPersistent = true → 0 ∉ x.1)
    (hk : lookupEntry k s.entries = some e)
    (hv : e.settingPermissions &&& SettingPermissions_t.VOLATILE ≠ 0) :
    ∀ l ∈ splitLines (persistedData target s.entries ++ trailerLine c),
      isTrailer l = false → lineKey l ≠ k ∧ storedKey MAX (c_str (lineKey l)) ≠ k := by
  intro l hl ht
  rw [splitLines_persistedData target c s.entries
    (fun x hx hp => ⟨(hfit x hx hp).2.1, (hfit x hx hp).2.2⟩)] at hl
  rcases List.mem_append.mp hl with hl | hl
  · obtain ⟨x, hx, rfl⟩ := List.mem_map.mp hl
    obtain ⟨hx1, hx2⟩ := List.mem_filter.mp hx
    have hkey := lineKey_persistedLine target x.1 x.2 (hfit x hx1 hx2).1
    have hne : x.1 ≠ k := by
      intro heq
      have h1 := lookupEntry_of_mem s.entries hw.1 x hx1
      rw [heq, hk] at h1
      cases h1
      simp only [SettingValue_t.isPersistent, decide_eq_true_eq] at hx2
      exact hv hx2
    rw [hkey, c_str_of_not_mem x.1 (hnul x hx1 hx2),
      storedKey_of_length_le MAX x.1 (hw.2 x hx1).2.1]
    exact ⟨hne, hne⟩
  · simp only [List.mem_singleton] at hl
    subst hl
    rw [isTrailer_trailerLine] at ht
    cases ht

end SettingsStorage

namespace SettingsStorage

open SettingError_t SettingValueType_t

set_option maxRecDepth 100000 in
/-- C16 does not hold as stated. The entry "v" is registered with the
VOLATILE flag and the current value 1, and the file holds the data line
"v", type 0, value 5 with the checksum of that line: the load returns NO_ERROR
and the current value of "v" is then 5, its permissions still VOLATILE. -/
theorem load_overwrites_volatile_entry :
    (loadSettingsFromPersistentStorage 16 ⟨64, fun d => formatNat d.bits, fun t => (⟨0⟩, t)⟩
      ⟨[(bytes "v", ⟨SettingPermissions_t.VOLATILE, INTEGER, .integer 1, .integer 1⟩)]⟩
      ⟨bytes "v\t0\t5\n\r3703031176\n", [], []⟩).2.2 = NO_ERROR ∧
    getSettingAsInt 16
      (loadSettingsFromPersistentStorage 16 ⟨64, fun d => formatNat d.bits, fun t => (⟨0⟩, t)⟩
        ⟨[(bytes "v", ⟨SettingPermissions_t.VOLATILE, INTEGER, .integer 1, .integer 1⟩)]⟩
        ⟨bytes "v\t0\t5\n\r3703031176\n", [], []⟩).1 (some (bytes "v")) 0 (some 0) =
      (NO_ERROR, 5, some SettingPermissions_t.VOLATILE) := by
  decide

/-- C16, amended. `loadSettingsFromPersistentStorage` does not look at the
VOLATILE flag of a registered entry. What it leaves unchanged, for every store
and every file (with or without failing calls), is the entry of every key `k`
for which the file holds no data line: no line that is not a trailer has `k`
as its key, the key being the key field read as a C string (up to its first
NUL byte) and as the store files it. A data line that the load reads as well
formed and whose key is registered with the type of the line replaces the
current value of the entry, whatever the permissions of the entry are. And the
file written by a successful store of a registry that registrations produce,
whose entries without the VOLATILE flag fit the line format (no NUL, TAB or LF
in the key, no LF in the formatted value), holds no data line for a key that is
VOLATILE in that registry: a load of that file, into any registry, leaves the
entry of such a key unchanged. -/
theorem load_keeps_keys_without_data_line (MAX : Nat) (target : Target) (s : Settings_t)
    (f : SettingsFile) (k : CString)
    (h : ∀ l ∈ splitLines f.content, isTrailer l = false →
      storedKey MAX (c_str (lineKey l)) ≠ k) :
    lookupEntry k (loadSettingsFromPersistentStorage MAX target s f).1.entries =
        lookupEntry k s.entries ∧
    (∀ (s1 : Settings_t) (l key : CString) (t : SettingValueType_t) (v : SettingValueData_t)
        (e : SettingValue_t), readDataLine target l = some (key, t, v) →
        s1.entryOf MAX key = some e → e.settingValueType = t →
        loadSetting MAX target s1 l =
          (⟨replaceEntry (storedKey MAX key) { e with settingValueData := v } s1.entries⟩,
            true)) ∧
    (∀ (s0 s1 : Settings_t) (f0 : SettingsFile) (crc32 : Nat) (k0 : CString)
        (e : SettingValue_t), s0.WellFormed MAX →
        (∀ x ∈ s0.entries, x.2.isPersistent = true →
          0 ∉ x.1 ∧ 9 ∉ x.1 ∧ 10 ∉ x.1 ∧ 10 ∉ formattedValue target x.2) →
        (storeSettingsInPersistentStorage target s0 f0 crc32).2 = NO_ERROR →
        lookupEntry k0 s0.entries = some e →
        e.settingPermissions &&& SettingPermissions_t.VOLATILE ≠ 0 →
        lookupEntry k0 (loadSettingsFromPersistentStorage MAX target s1
          (storeSettingsInPersistentStorage target s0 f0 crc32).1).1.entries =
          lookupEntry k0 s1.entries) := by
  refine ⟨lookupEntry_load_ne MAX target s f k h, ?_, ?_⟩
  · intro s1 l key t v e hp he ht
    rw [loadSetting_eq, hp]
    simp only [applyParsed, he, ht, if_true]
  · intro s0 s1 f0 crc32 k0 e hw hfit hs hk hv
    have hc := store_of_success target s0 f0 crc32 hs
    have hlines := stored_line_key MAX target s0
      (if s0.entries.any (fun x => x.2.isPersistent) then
        CRC.Calculate (persistedData target s0.entries) none else crc32) k0 e hw
      (fun x hx hp => (hfit x hx hp).2) (fun x hx hp => (hfit x hx hp).1) hk hv
    rw [← hc] at hlines
    exact lookupEntry_load_ne MAX target s1 _ k0 (fun l hl ht => (hlines l hl ht).2)

set_option maxRecDepth 100000 in
/-- C16 amended, at a concrete input: the file holds a data line for "a" only;
the VOLATILE entry "v" is as it was after the load. -/
theorem load_keeps_keys_without_data_line_witness :
    lookupEntry (bytes "v")
      (loadSettingsFromPersistentStorage 16 ⟨64, fun d => formatNat d.bits, fun t => (⟨0⟩, t)⟩
        ⟨[(bytes "a", ⟨1, INTEGER, .integer 30, .integer 30⟩),
          (bytes "v", ⟨8, INTEGER, .integer 1, .integer 1⟩)]⟩
        ⟨bytes "a\t0\t45\n\r705517583\n", [], []⟩).1.entries =
      some ⟨8, INTEGER, .integer 1, .integer 1⟩ :=
  ((load_keeps_keys_without_data_line 16 ⟨64, fun d => formatNat d.bits, fun t => (⟨0⟩, t)⟩
    ⟨[(bytes "a", ⟨1, INTEGER, .integer 30, .integer 30⟩),
      (bytes "v", ⟨8, INTEGER, .integer 1, .integer 1⟩)]⟩
    ⟨bytes "a\t0\t45\n\r705517583\n", [], []⟩ (bytes "v") (by decide)).1).trans (by decide)

set_option maxRecDepth 100000 in
/-- C15 does not hold for every registry state. The String setting "s"
(SYSTEM) holds a value with a LF in it, followed by the text of a data line for
the key "v"; "v" is registered VOLATILE. The store succeeds, the file it
writes holds the line "v", type 0, value 5, and loading the file into the
empty registry leaves "v" present (with the value 5). -/
theorem stored_file_holds_line_for_volatile_key :
    (storeSettingsInPersistentStorage ⟨64, fun d => formatNat d.bits, fun t => (⟨0⟩, t)⟩
      ⟨[(bytes "s", ⟨1, STRING, .string (bytes "x\nv\t0\t5"), .string (bytes "x\nv\t0\t5")⟩),
        (bytes "v", ⟨8, INTEGER, .integer 1, .integer 1⟩)]⟩ ⟨[], [], []⟩ 0).2 = NO_ERROR ∧
    bytes "v\t0\t5\n" ∈ splitLines
      (storeSettingsInPersistentStorage ⟨64, fun d => formatNat d.bits, fun t => (⟨0⟩, t)⟩
        ⟨[(bytes "s", ⟨1, STRING, .string (bytes "x\nv\t0\t5"), .string (bytes "x\nv\t0\t5")⟩),
          (bytes "v", ⟨8, INTEGER, .integer 1, .integer 1⟩)]⟩ ⟨[], [], []⟩ 0).1.content ∧
    getSettingAsInt 16
      (loadSettingsFromPersistentStorage 16 ⟨64, fun d => formatNat d.bits, fun t => (⟨0⟩, t)⟩
        ⟨[]⟩
        (storeSettingsInPersistentStorage ⟨64, fun d => formatNat d.bits, fun t => (⟨0⟩, t)⟩
          ⟨[(bytes "s",
              ⟨1, STRING, .string (bytes "x\nv\t0\t5"), .string (bytes "x\nv\t0\t5")⟩),
            (bytes "v", ⟨8, INTEGER, .integer 1, .integer 1⟩)]⟩ ⟨[], [], []⟩ 0).1).1
      (some (bytes "v")) 0 (some 0) = (NO_ERROR, 5, some 8) := by
  decide

/-- C15, amended. For every store that registrations produce whose entries
without the VOLATILE flag fit the line format (no TAB and no LF in the key, no
LF in the formatted value; the keys are C strings, with no NUL byte in them),
and every key `k` of it whose mask includes
VOLATILE: the file written by a successful `storeSettingsInPersistentStorage`
holds no data line with the key `k`, and after
`loadSettingsFromPersistentStorage` of that file into the empty registry the
key is absent: every getter returns KEY_NOT_FOUND_ERROR for it. -/
theorem volatile_keys_not_stored (MAX : Nat) (target : Target) (s : Settings_t)
    (f : SettingsFile) (crc32 : Nat) (k : CString) (e : SettingValue_t)
    (hw : s.WellFormed MAX)
    (hfit : ∀ x ∈ s.entries, x.2.isPersistent = true →
      9 ∉ x.1 ∧ 10 ∉ x.1 ∧ 10 ∉ formattedValue target x.2)
    (hnul : ∀ x ∈ s.entries, x.2.isPersistent = true → 0 ∉ x.1)
    (hs : (storeSettingsInPersistentStorage target s f crc32).2 = NO_ERROR)
    (hk : lookupEntry k s.entries = some e)
    (hv : e.settingPermissions &&& SettingPermissions_t.VOLATILE ≠ 0) :
    (∀ l ∈ splitLines (storeSettingsInPersistentStorage target s f crc32).1.content,
      isTrailer l = false → lineKey l ≠ k) ∧
    lookupEntry k (loadSettingsFromPersistentStorage MAX target ⟨[]⟩
      (storeSettingsInPersistentStorage target s f crc32).1).1.entries = none ∧
    (∀ out q, getSettingAsInt MAX (loadSettingsFromPersistentStorage MAX target ⟨[]⟩
      (storeSettingsInPersistentStorage target s f crc32).1).1 (some k) out q =
        (KEY_NOT_FOUND_ERROR, out, q)) ∧
    (∀ out q, getSettingAsReal MAX (loadSettingsFromPersistentStorage MAX target ⟨[]⟩
      (storeSettingsInPersistentStorage target s f crc32).1).1 (some k) out q =
        (KEY_NOT_FOUND_ERROR, out, q)) ∧
    (∀ buffer n q, getSettingAsString MAX (loadSettingsFromPersistentStorage MAX target ⟨[]⟩
      (storeSettingsInPersistentStorage target s f crc32).1).1 (some k) (some buffer) n q =
        (KEY_NOT_FOUND_ERROR, [], q)) := by
  have hc := store_of_success target s f crc32 hs
  have hlines := stored_line_key MAX target s
    (if s.entries.any (fun x => x.2.isPersistent) then
      CRC.Calculate (persistedData target s.entries) none else crc32) k e hw hfit hnul hk hv
  rw [← hc] at hlines
  have hmem := lookupEntry_mem k e s.entries hk
  have hkne : k ≠ [] := (hw.2 (k, e) hmem).1
  have hklen : k.length ≤ MAX := (hw.2 (k, e) hmem).2.1
  have hnone : lookupEntry k (loadSettingsFromPersistentStorage MAX target ⟨[]⟩
      (storeSettingsInPersistentStorage target s f crc32).1).1.entries = none :=
    lookupEntry_load_ne MAX target ⟨[]⟩ _ k (fun l hl ht => (hlines l hl ht).2)
  have hent : Settings_t.entryOf MAX (loadSettingsFromPersistentStorage MAX target ⟨[]⟩
      (storeSettingsInPersistentStorage target s f crc32).1).1 k = none := by
    rw [entryOf_of_length_le MAX _ k hklen]
    exact hnone
  refine ⟨fun l hl ht => (hlines l hl ht).1, hnone, ?_, ?_, ?_⟩
  · intro out q
    rw [getSettingAsInt, getSettingValueAsInt_eq MAX _ _ k out q hkne, hent]
  · intro out q
    rw [getSettingAsReal, getSettingValueAsReal_eq MAX _ _ k out q hkne, hent]
  · intro buffer n q
    rw [getSettingAsString, getSettingValueAsString_eq MAX _ _ k buffer n q hkne, hent]

set_option maxRecDepth 100000 in
/-- C15 amended, at a concrete input: "net.timeout" is SYSTEM, "vol" is
VOLATILE; after store and load into the empty registry a get on "vol" returns
KEY_NOT_FOUND_ERROR. -/
theorem volatile_keys_not_stored_witness :
    getSettingAsInt 32
      (loadSettingsFromPersistentStorage 32 ⟨64, fun d => formatNat d.bits, fun t => (⟨0⟩, t)⟩
        ⟨[]⟩
        (storeSettingsInPersistentStorage ⟨64, fun d => formatNat d.bits, fun t => (⟨0⟩, t)⟩
          ⟨[(bytes "net.timeout", ⟨1, INTEGER, .integer 45, .integer 30⟩),
            (bytes "vol", ⟨8, INTEGER, .integer 7, .integer 7⟩)]⟩ ⟨[], [], []⟩ 0).1).1
      (some (bytes "vol")) 0 (some 0) = (KEY_NOT_FOUND_ERROR, 0, some 0) :=
  (volatile_keys_not_stored 32 ⟨64, fun d => formatNat d.bits, fun t => (⟨0⟩, t)⟩
    ⟨[(bytes "net.timeout", ⟨1, INTEGER, .integer 45, .integer 30⟩),
      (bytes "vol", ⟨8, INTEGER, .integer 7, .integer 7⟩)]⟩ ⟨[], [], []⟩ 0 (bytes "vol")
    ⟨8, INTEGER, .integer 7, .integer 7⟩ (by decide) (by decide) (by decide) (by decide)
    (by decide) (by decide)).2.2.1 0 (some 0)

set_option maxRecDepth 100000 in
/-- C20 does not hold as stated. The spec's instance: "net.timeout" is
registered as SYSTEM Integer with the default 30, 45 is put, the registry is
stored, and the file is loaded into the empty registry. The load succeeds and
the get returns the value 45, but with the permissions VOLATILE, not SYSTEM:
the load found the key absent and registered it as a VOLATILE setting. -/
theorem round_trip_into_empty_registry_gives_volatile :
    getSettingAsInt 32
      (loadSettingsFromPersistentStorage 32 ⟨64, fun d => formatNat d.bits, fun t => (⟨0⟩, t)⟩
        ⟨[]⟩
        (storeSettingsInPersistentStorage ⟨64, fun d => formatNat d.bits, fun t => (⟨0⟩, t)⟩
          (putSettingValueAsInt 32
            (registerSettingAsInt 32 ⟨[]⟩ (some (bytes "net.timeout"))
              SettingPermissions_t.SYSTEM 30).1
            (some (bytes "net.timeout")) 45).1 ⟨[], [], []⟩ 0).1).1
      (some (bytes "net.timeout")) 0 (some 0) =
      (NO_ERROR, 45, some SettingPermissions_t.VOLATILE) := by
  decide

/-- C20, amended. For every non-empty key `k` without TAB, CR and LF bytes (a
C string, with no NUL byte in it), every valid permission mask `p` without the VOLATILE flag, every default `d`
and every 64-bit integer `v`, with `MAX_SETTING_KEY_SIZE > 0`, a `long` of
more than 32 bits and a Backing File on which every call succeeds: the
sequence `registerSettingAsInt(k, p, d)`, `putSettingValueAsInt(k, v)`, store
succeeds; a load of the stored file into the empty registry returns NO_ERROR
and `getSettingAsInt(k)` then returns the value `v` with the permissions
VOLATILE (the load registers the absent key as a VOLATILE setting); a load into
a registry in which `k` was registered again as an Integer with the mask `p`
returns NO_ERROR and `getSettingAsInt(k)` then returns `v` with the
permissions `p`. -/
theorem persistence_round_trip (MAX : Nat) (target : Target) (k : CString)
    (p : SettingPermissions_t) (d d' v : Int) (f : SettingsFile) (crc32 : Nat)
    (hMAX : 0 < MAX) (hlong : 33 ≤ target.LONG_BITS) (hk : k ≠ [])
    (h0 : 0 ∉ k) (h9 : 9 ∉ k) (h10 : 10 ∉ k) (h13 : 13 ∉ k)
    (hp : validatePermissions p = true) (hnv : p &&& SettingPermissions_t.VOLATILE = 0)
    (hlo : -(2 : Int) ^ 63 ≤ v) (hhi : v < (2 : Int) ^ 63) (hf : f.AllSucceed) :
    (registerSettingAsInt MAX ⟨[]⟩ (some k) p d).2 = NO_ERROR ∧
    (putSettingValueAsInt MAX (registerSettingAsInt MAX ⟨[]⟩ (some k) p d).1 (some k) v).2 =
      NO_ERROR ∧
    (storeSettingsInPersistentStorage target
      (putSettingValueAsInt MAX (registerSettingAsInt MAX ⟨[]⟩ (some k) p d).1 (some k) v).1
      f crc32).2 = NO_ERROR ∧
    (loadSettingsFromPersistentStorage MAX target ⟨[]⟩
      (storeSettingsInPersistentStorage target
        (putSettingValueAsInt MAX (registerSettingAsInt MAX ⟨[]⟩ (some k) p d).1 (some k) v).1
        f crc32).1).2.2 = NO_ERROR ∧
    (∀ out q, getSettingAsInt MAX
      (loadSettingsFromPersistentStorage MAX target ⟨[]⟩
        (storeSettingsInPersistentStorage target
          (putSettingValueAsInt MAX (registerSettingAsInt MAX ⟨[]⟩ (some k) p d).1
            (some k) v).1 f crc32).1).1 (some k) out q =
      (NO_ERROR, v, q.map (fun _ => SettingPermissions_t.VOLATILE))) ∧
    (loadSettingsFromPersistentStorage MAX target
      (registerSettingAsInt MAX ⟨[]⟩ (some k) p d').1
      (storeSettingsInPersistentStorage target
        (putSettingValueAsInt MAX (registerSettingAsInt MAX ⟨[]⟩ (some k) p d).1 (some k) v).1
        f crc32).1).2.2 = NO_ERROR ∧
    (∀ out q, getSettingAsInt MAX
      (loadSettingsFromPersistentStorage MAX target
        (registerSettingAsInt MAX ⟨[]⟩ (some k) p d').1
        (storeSettingsInPersistentStorage target
          (putSettingValueAsInt MAX (registerSettingAsInt MAX ⟨[]⟩ (some k) p d).1
            (some k) v).1 f crc32).1).1 (some k) out q =
      (NO_ERROR, v, q.map (fun _ => p))) := by
  obtain ⟨r1, r2, r3, r4⟩ := round_trip_integer MAX target k p d v f crc32 hMAX hlong hk
    h0 h9 h10 h13 hp hnv hlo hhi hf
  obtain ⟨r1', _, _, _⟩ := round_trip_integer MAX target k p d' v f crc32 hMAX hlong hk
    h0 h9 h10 h13 hp hnv hlo hhi hf
  obtain ⟨hsk1, hsk2⟩ := storedKey_bounds MAX k hMAX hk
  have hidem : storedKey MAX (storedKey MAX k) = storedKey MAX k :=
    storedKey_of_length_le MAX _ hsk2
  have a1 : applyParsed MAX ⟨[]⟩ (storedKey MAX k) INTEGER (.integer v) =
      (⟨[(storedKey MAX k, ⟨SettingPermissions_t.VOLATILE, INTEGER, .integer v, .integer v⟩)]⟩,
        true) := by
    unfold applyParsed
    rw [entryOf_eq, hidem]
    simp [lookupEntry, insertEntry]
  have a2 : applyParsed MAX ⟨[(storedKey MAX k, ⟨p, INTEGER, .integer d', .integer d'⟩)]⟩
      (storedKey MAX k) INTEGER (.integer v) =
      (⟨[(storedKey MAX k, ⟨p, INTEGER, .integer v, .integer d'⟩)]⟩, true) := by
    unfold applyParsed
    rw [entryOf_eq, hidem]
    simp [lookupEntry, replaceEntry]
  have g : ∀ (e : SettingValue_t) out q, e.settingValueType = INTEGER →
      getSettingAsInt MAX ⟨[(storedKey MAX k, e)]⟩ (some k) out q =
        (NO_ERROR, e.settingValueData.getInteger, q.map (fun _ => e.settingPermissions)) := by
    intro e out q he
    have hent : Settings_t.entryOf MAX ⟨[(storedKey MAX k, e)]⟩ k = some e := by
      rw [entryOf_eq]
      simp [lookupEntry]
    rw [getSettingAsInt, getSettingValueAsInt_eq MAX _ _ k out q hk, hent]
    simp [he]
  rw [r1, r1']
  simp only []
  rw [r2]
  simp only []
  obtain ⟨e1, e2⟩ := r4 ⟨[]⟩
  obtain ⟨e3, e4⟩ := r4 ⟨[(storedKey MAX k, ⟨p, INTEGER, .integer d', .integer d'⟩)]⟩
  rw [e1, e2, e3, e4, a1, a2]
  refine ⟨trivial, trivial, r3, rfl, ?_, rfl, ?_⟩
  · intro out q
    exact g _ out q rfl
  · intro out q
    exact g _ out q rfl

set_option maxRecDepth 100000 in
/-- C20 amended, at the spec's instance: "net.timeout", SYSTEM, default 30, put
45; after the store, a load into a registry in which the key was registered
again gives (45, SYSTEM). -/
theorem persistence_round_trip_witness :
    getSettingAsInt 32
      (loadSettingsFromPersistentStorage 32 ⟨64, fun d => formatNat d.bits, fun t => (⟨0⟩, t)⟩
        (registerSettingAsInt 32 ⟨[]⟩ (some (bytes "net.timeout")) 1 30).1
        (storeSettingsInPersistentStorage ⟨64, fun d => formatNat d.bits, fun t => (⟨0⟩, t)⟩
          (putSettingValueAsInt 32
            (registerSettingAsInt 32 ⟨[]⟩ (some (bytes "net.timeout")) 1 30).1
            (some (bytes "net.timeout")) 45).1 ⟨[], [], []⟩ 0).1).1
      (some (bytes "net.timeout")) 0 (some 0) = (NO_ERROR, 45, some 1) :=
  (persistence_round_trip 32 ⟨64, fun d => formatNat d.bits, fun t => (⟨0⟩, t)⟩
    (bytes "net.timeout") 1 30 30 45 ⟨[], [], []⟩ 0 (by decide) (by decide) (by decide)
    (by decide) (by decide) (by decide) (by decide) (by decide) (by decide) (by decide)
    (by decide) (by decide)).2.2.2.2.2.2 0 (some 0)

end SettingsStorage

/-! ## Lemmas on the trailer number -/

theorem strtol_formatNat_clamped (LONG_BITS n : Nat) (rest : List Nat)
    (hr : ∀ b, rest.head? = some b → isdigit b = false) :
    strtol LONG_BITS (formatNat n ++ rest) =
      (min ((n : Int)) ((2 : Int) ^ (LONG_BITS - 1) - 1), rest) := by
  obtain ⟨f1, f2, f3⟩ := formatNat_spec n
  unfold strtol
  rw [strtoInteger_digits _ _ _ _ f1 f2 hr, f3]
  congr 1
  have : (0 : Int) < (2 : Int) ^ (LONG_BITS - 1) := by positivity
  omega

theorem strtol_trailerLine_clamped (target : Target) (c : Nat) :
    strtol target.LONG_BITS ((trailerLine c).drop 1) =
      (min ((c : Int)) ((2 : Int) ^ (target.LONG_BITS - 1) - 1), [10]) := by
  have : (trailerLine c).drop 1 = formatNat c ++ [10] := by simp [trailerLine]
  rw [this]
  exact strtol_formatNat_clamped target.LONG_BITS c [10] (by simp [isdigit])

theorem trailerNumber_of_long_32 (target : Target) (c : Nat) (hl : target.LONG_BITS = 32)
    (hc : c < 2 ^ 32) : trailerNumber target (trailerLine c) = min c (2 ^ 31 - 1) := by
  unfold trailerNumber
  rw [strtol_trailerLine_clamped, hl]
  have hci : (c : Int) < (2 : Int) ^ 32 := by exact_mod_cast hc
  simp only []
  omega

namespace SettingsStorage

open SettingError_t SettingValueType_t

theorem validateChecksumLoop_trailerLine (target : Target) (c : Nat) :
    validateChecksumLoop target 0 0 true [] [trailerLine c] =
      ([], [], (min ((c : Int)) ((2 : Int) ^ (target.LONG_BITS - 1) - 1) % 2 ^ 32).toNat, 0,
        some SettingsFileResult.EndOfFile) := by
  have hh : (trailerLine c).head? = some 13 := by simp [trailerLine]
  unfold validateChecksumLoop
  simp only [nextResult, hh, if_true, strtol_trailerLine_clamped]
  simp only [List.head?_cons, ne_eq, not_true_eq_false, if_false]
  unfold validateChecksumLoop
  simp [nextResult]

end SettingsStorage

namespace SettingsStorage

open SettingError_t SettingValueType_t

/-- C24, what the code does. Whenever `getSettingValueAsString` (of which
`getSettingAsString` and `getDefaultSettingAsString` are the two instances)
returns NO_ERROR for an output buffer and the size `n`, the stores it made
through the buffer are the `n` stores of `strncpy` at the indices below `n`
and then a store of a NUL at the index `n` itself: one store is past the `n`
bytes of the buffer. -/
theorem string_getter_stores_past_size (MAX : Nat) (s : Settings_t)
    (type : TypeofSettingValue) (key : Option CString) (buffer : Option (List Nat)) (n : Nat)
    (q : Option SettingPermissions_t)
    (h : (getSettingValueAsString MAX s type key buffer n q).1 = NO_ERROR) :
    (n, 0) ∈ (getSettingValueAsString MAX s type key buffer n q).2.1 ∧
    (∀ st ∈ (getSettingValueAsString MAX s type key buffer n q).2.1, st.1 ≤ n) ∧
    ¬ (∀ st ∈ (getSettingValueAsString MAX s type key buffer n q).2.1, st.1 < n) ∧
    getSettingAsString MAX s key buffer n q =
      getSettingValueAsString MAX s .Value key buffer n q ∧
    getDefaultSettingAsString MAX s key buffer n q =
      getSettingValueAsString MAX s .DefaultValue key buffer n q := by
  have hmem : (n, 0) ∈ (getSettingValueAsString MAX s type key buffer n q).2.1 ∧
      (∀ st ∈ (getSettingValueAsString MAX s type key buffer n q).2.1, st.1 ≤ n) := by
    cases buffer with
    | none => exact absurd h (by simp [getSettingValueAsString])
    | some cells =>
      rcases key_cases key with hk | ⟨k, rfl, hk⟩
      · have hg := getSettingValue_of_empty MAX s key hk
        exact absurd h (by simp [getSettingValueAsString, hg])
      · rw [getSettingValueAsString_eq MAX s type k cells n q hk] at h ⊢
        cases he : s.entryOf MAX k with
        | none => rw [he] at h; exact absurd h (by simp)
        | some e =>
          rw [he] at h
          simp only at h ⊢
          split at h
          · exact absurd h (by simp)
          · rename_i ht
            rw [if_neg ht]
            generalize (if type = TypeofSettingValue.DefaultValue then
              e.settingDefaultValueData.getString else e.settingValueData.getString) = v at h ⊢
            by_cases hn : v.length ≥ n
            · rw [if_pos hn] at h
              exact absurd h (by simp)
            · rw [if_neg hn]
              simp only [List.mem_append, List.mem_singleton, or_true, true_and]
              intro st hst
              rcases hst with hst | hst
              · simp only [strncpy, List.mem_map, List.mem_range] at hst
                obtain ⟨i, hi, rfl⟩ := hst
                exact Nat.le_of_lt hi
              · rw [hst]
  refine ⟨hmem.1, hmem.2, fun hall => ?_, rfl, rfl⟩
  exact absurd (hall _ hmem.1) (Nat.lt_irrefl n)

/-- C24 at a failing input: the value "hello" and a buffer of six bytes, with
six as the size; the result is NO_ERROR and the last store is at the index
6. -/
theorem string_getter_stores_past_size_witness :
    getSettingAsString 32
      ⟨[(bytes "name", ⟨4, STRING, .string (bytes "hello"), .string (bytes "hello")⟩)]⟩
      (some (bytes "name")) (some [0, 0, 0, 0, 0, 0]) 6 none =
      (NO_ERROR, [(0, 104), (1, 101), (2, 108), (3, 108), (4, 111), (5, 0), (6, 0)], none) ∧
    (6, 0) ∈ (getSettingValueAsString 32
      ⟨[(bytes "name", ⟨4, STRING, .string (bytes "hello"), .string (bytes "hello")⟩)]⟩
      .Value (some (bytes "name")) (some [0, 0, 0, 0, 0, 0]) 6 none).2.1 :=
  ⟨by decide,
    (string_getter_stores_past_size 32
      ⟨[(bytes "name", ⟨4, STRING, .string (bytes "hello"), .string (bytes "hello")⟩)]⟩
      .Value (some (bytes "name")) (some [0, 0, 0, 0, 0, 0]) 6 none (by decide)).1⟩

/-- C26, what the code does. For every checksum `c` below `2^32`, the trailer
that the store writes for `c` is accepted as well formed by the loop of
`validateChecksum`, and the expected checksum the loop reads from it is `c`
clamped to the largest `long`, cast to `uint32_t`: it is `c` itself when
`long` has more than 32 bits, and it is the smaller of `c` and `2^31 - 1`
when `long` has 32 bits. -/
theorem trailer_number_parsing (target : Target) (c : Nat) (hc : c < 2 ^ 32) :
    trailerWellFormed target (trailerLine c) = true ∧
    (validateChecksumLoop target 0 0 true [] [trailerLine c]).2.2.2.2 =
      some SettingsFileResult.EndOfFile ∧
    (validateChecksumLoop target 0 0 true [] [trailerLine c]).2.2.1 =
      trailerNumber target (trailerLine c) ∧
    (33 ≤ target.LONG_BITS → trailerNumber target (trailerLine c) = c) ∧
    (target.LONG_BITS = 32 → trailerNumber target (trailerLine c) = min c (2 ^ 31 - 1)) := by
  have hs := strtol_trailerLine_clamped target c
  refine ⟨?_, ?_, ?_, ?_, ?_⟩
  · unfold trailerWellFormed
    rw [hs]
    rfl
  · rw [validateChecksumLoop_trailerLine]
  · rw [validateChecksumLoop_trailerLine]
    unfold trailerNumber
    rw [hs]
  · intro hl
    unfold trailerNumber
    rw [hs]
    have hpow : (2 : Int) ^ 32 ≤ (2 : Int) ^ (target.LONG_BITS - 1) :=
      pow_le_pow_right₀ (by norm_num) (by omega)
    have hci : (c : Int) < (2 : Int) ^ 32 := by exact_mod_cast hc
    simp only []
    omega
  · intro hl
    unfold trailerNumber
    rw [hs, hl]
    have hci : (c : Int) < (2 : Int) ^ 32 := by exact_mod_cast hc
    simp only []
    omega

set_option maxRecDepth 100000 in
/-- C26 at a failing input: where `long` has 32 bits, the trailer of the
checksum 3023842618 (that of the data line "net.timeout", type 0, value 45) is
read as 2147483647, and `validateChecksum` rejects the file that the store
wrote. -/
theorem trailer_number_parsing_witness :
    trailerNumber ⟨32, fun d => formatNat d.bits, fun t => (⟨0⟩, t)⟩ (trailerLine 3023842618) =
      2147483647 ∧
    (validateChecksum ⟨32, fun d => formatNat d.bits, fun t => (⟨0⟩, t)⟩
      (storeSettingsInPersistentStorage ⟨32, fun d => formatNat d.bits, fun t => (⟨0⟩, t)⟩
        ⟨[(bytes "net.timeout", ⟨1, INTEGER, .integer 45, .integer 30⟩)]⟩
        ⟨[], [], []⟩ 0).1).2 = SETTINGS_FILESYSTEM_ERROR :=
  ⟨((trailer_number_parsing ⟨32, fun d => formatNat d.bits, fun t => (⟨0⟩, t)⟩ 3023842618
      (by decide)).2.2.2.2 rfl).trans (by decide), by decide⟩

end SettingsStorage

/-! ## Lemmas on the lines of arbitrary data -/

theorem splitLines_eq_nil (d : List Nat) (h : splitLines d = []) : d = [] := by
  cases d with
  | nil => rfl
  | cons b rest =>
    simp only [splitLines] at h
    split at h
    · cases h
    · split at h <;> cases h

theorem mem_of_mem_splitLines (d : List Nat) :
    ∀ l ∈ splitLines d, l ≠ [] ∧ ∀ b ∈ l, b ∈ d := by
  induction d with
  | nil => intro l hl; simp [splitLines] at hl
  | cons b rest ih =>
    intro l hl
    simp only [splitLines] at hl
    split at hl
    · rename_i hb
      rcases List.mem_cons.mp hl with h | h
      · subst h
        exact ⟨by simp, by simp⟩
      · obtain ⟨h1, h2⟩ := ih l h
        exact ⟨h1, fun x hx => List.mem_cons_of_mem _ (h2 x hx)⟩
    · split at hl
      · simp only [List.mem_singleton] at hl
        subst hl
        exact ⟨by simp, by simp⟩
      · rename_i l0 ls heq
        rcases List.mem_cons.mp hl with h | h
        · subst h
          obtain ⟨_, h2⟩ := ih l0 (by rw [heq]; exact List.mem_cons_self _ _)
          refine ⟨by simp, ?_⟩
          intro x hx
          rcases List.mem_cons.mp hx with hx | hx
          · subst hx; exact List.mem_cons_self _ _
          · exact List.mem_cons_of_mem _ (h2 x hx)
        · obtain ⟨h1, h2⟩ := ih l (by rw [heq]; exact List.mem_cons_of_mem _ h)
          exact ⟨h1, fun x hx => List.mem_cons_of_mem _ (h2 x hx)⟩

theorem isTrailer_of_mem_splitLines (d : List Nat) (h13 : 13 ∉ d) :
    ∀ l ∈ splitLines d, isTrailer l = false := by
  intro l hl
  obtain ⟨h1, h2⟩ := mem_of_mem_splitLines d l hl
  cases l with
  | nil => exact absurd rfl h1
  | cons b l =>
    have hb : b ≠ 13 := fun h => h13 (h ▸ h2 b (List.mem_cons_self _ _))
    simp [isTrailer, hb]

theorem dataOfLines_of_no_trailer (lines : List CString)
    (h : ∀ l ∈ lines, isTrailer l = false) : dataOfLines lines = lines.flatten := by
  induction lines with
  | nil => rfl
  | cons l rest ih =>
    have h1 := h l (List.mem_cons_self _ _)
    simp only [dataOfLines, h1, Bool.false_eq_true, if_false, List.flatten_cons]
    rw [ih (fun x hx => h x (List.mem_cons_of_mem _ hx))]

theorem join_splitLines (d : List Nat) : (splitLines d).flatten = d := by
  induction d with
  | nil => rfl
  | cons b rest ih =>
    simp only [splitLines]
    split
    · rename_i hb
      subst hb
      simp [ih]
    · split
      · rename_i heq
        have := splitLines_eq_nil rest heq
        subst this
        rfl
      · rename_i l0 ls heq
        rw [heq] at ih
        simp only [List.flatten_cons] at ih ⊢
        rw [List.cons_append, ih]

theorem storedChecksum_of_no_trailer (target : Target) (lines : List CString)
    (h : ∀ l ∈ lines, isTrailer l = false) :
    ∀ e, storedChecksum target e lines = e := by
  induction lines with
  | nil => intro e; rfl
  | cons l rest ih =>
    intro e
    have h1 := h l (List.mem_cons_self _ _)
    simp only [storedChecksum, h1, Bool.false_eq_true, if_false]
    exact ih (fun x hx => h x (List.mem_cons_of_mem _ hx)) e

theorem storedChecksum_append (target : Target) (pre post : List CString)
    (h : ∀ l ∈ pre, isTrailer l = false) :
    ∀ e, storedChecksum target e (pre ++ post) = storedChecksum target e post := by
  induction pre with
  | nil => intro e; rfl
  | cons l rest ih =>
    intro e
    have h1 := h l (List.mem_cons_self _ _)
    simp only [List.cons_append, storedChecksum, h1, Bool.false_eq_true, if_false]
    exact ih (fun x hx => h x (List.mem_cons_of_mem _ hx)) e

theorem dataOfLines_append (pre post : List CString) :
    dataOfLines (pre ++ post) = dataOfLines pre ++ dataOfLines post := by
  induction pre with
  | nil => rfl
  | cons l rest ih =>
    simp only [List.cons_append, dataOfLines, List.append_eq]
    split
    · exact ih
    · rw [ih, List.append_assoc]

theorem splitLines_append_lines (d t : List Nat) :
    splitLines (d ++ 10 :: t) = splitLines (d ++ [10]) ++ splitLines t := by
  induction d with
  | nil => simp [splitLines]
  | cons b d ih =>
    simp only [List.cons_append, splitLines, List.append_eq]
    split
    · rw [ih]
      rfl
    · rw [ih]
      cases hs : splitLines (d ++ [10]) with
      | nil =>
        have := splitLines_eq_nil _ hs
        simp at this
      | cons l ls => rfl

theorem splitLines_data_trailer (data : List Nat) (c : Nat)
    (hend : data = [] ∨ ∃ d, data = d ++ [10]) :
    splitLines (data ++ trailerLine c) = splitLines data ++ [trailerLine c] := by
  rcases hend with h | ⟨d, h⟩
  · subst h
    simpa [splitLines] using splitLines_trailerLine c
  · subst h
    rw [List.append_assoc, List.singleton_append, splitLines_append_lines,
      splitLines_trailerLine]

theorem persistedData_end (target : Target) (entries : List (CString × SettingValue_t)) :
    persistedData target entries = [] ∨ ∃ d, persistedData target entries = d ++ [10] := by
  induction entries with
  | nil => exact Or.inl rfl
  | cons x rest ih =>
    simp only [persistedData]
    split
    · right
      rcases ih with h | ⟨d, h⟩
      · rw [h, List.append_nil]
        exact ⟨_, rfl⟩
      · rw [h]
        exact ⟨persistedLine target x.1 x.2 ++ d, by simp⟩
    · exact ih

theorem all_wellFormed_data_trailer (target : Target) (pre : List CString) (t : CString)
    (h : ∀ l ∈ pre, isTrailer l = false) :
    (pre ++ [t]).all (fun l => !isTrailer l || trailerWellFormed target l) =
      (!isTrailer t || trailerWellFormed target t) := by
  induction pre with
  | nil => simp
  | cons l rest ih =>
    have h1 := h l (List.mem_cons_self _ _)
    simp only [List.cons_append, List.all_cons, h1, Bool.not_false, Bool.true_or,
      Bool.true_and]
    exact ih (fun x hx => h x (List.mem_cons_of_mem _ hx))

namespace SettingsStorage

open SettingError_t SettingValueType_t

theorem validateChecksum_data_trailer (target : Target) (f : SettingsFile)
    (data : List Nat) (c : Nat) (hf : f.AllSucceed) (hc : f.content = data ++ trailerLine c)
    (h13 : 13 ∉ data) (hend : data = [] ∨ ∃ d, data = d ++ [10]) :
    (validateChecksum target f).2 =
      (if trailerWellFormed target (trailerLine c) = true ∧
          trailerNumber target (trailerLine c) = CRC.Calculate data none
        then NO_ERROR else SETTINGS_FILESYSTEM_ERROR) := by
  have hnt := isTrailer_of_mem_splitLines data h13
  rw [(validateChecksum_of_allSucceed target f hf).2, hc, splitLines_data_trailer data c hend,
    all_wellFormed_data_trailer target _ _ hnt, storedChecksum_append target _ _ hnt,
    dataOfLines_append, dataOfLines_of_no_trailer _ hnt, join_splitLines]
  simp [storedChecksum, dataOfLines, isTrailer_trailerLine]

end SettingsStorage

/-! ## Lemmas on the sensitivity of the checksum -/

theorem crcShift_injective (c1 c2 : Nat) (h1 : c1 < 2 ^ 32) (h2 : c2 < 2 ^ 32)
    (h : crcShift c1 = crcShift c2) : c1 = c2 := by
  have hP : Nat.testBit 0xEDB88320 31 = true := by decide
  have hbit : ∀ c, c < 2 ^ 32 → Nat.testBit (c / 2) 31 = false := by
    intro c hc
    exact Nat.testBit_eq_false_of_lt (by omega)
  unfold crcShift at h
  by_cases p1 : c1 % 2 = 1 <;> by_cases p2 : c2 % 2 = 1
  · rw [if_pos p1, if_pos p2] at h
    have := Nat.xor_left_injective h
    omega
  · rw [if_pos p1, if_neg p2] at h
    have hb := congrArg (fun x => Nat.testBit x 31) h
    simp only [Nat.testBit_xor, hbit c1 h1, hbit c2 h2, hP] at hb
    cases hb
  · rw [if_neg p1, if_pos p2] at h
    have hb := congrArg (fun x => Nat.testBit x 31) h
    simp only [Nat.testBit_xor, hbit c1 h1, hbit c2 h2, hP] at hb
    cases hb
  · rw [if_neg p1, if_neg p2] at h
    omega

theorem crcShift8_injective (c1 c2 : Nat) (h1 : c1 < 2 ^ 32) (h2 : c2 < 2 ^ 32)
    (h : crcShift (crcShift (crcShift (crcShift (crcShift (crcShift (crcShift
      (crcShift c1))))))) = crcShift (crcShift (crcShift (crcShift (crcShift (crcShift
      (crcShift (crcShift c2)))))))) : c1 = c2 := by
  have a1 := crcShift_lt c1 h1
  have a2 := crcShift_lt _ a1
  have a3 := crcShift_lt _ a2
  have a4 := crcShift_lt _ a3
  have a5 := crcShift_lt _ a4
  have a6 := crcShift_lt _ a5
  have a7 := crcShift_lt _ a6
  have b1 := crcShift_lt c2 h2
  have b2 := crcShift_lt _ b1
  have b3 := crcShift_lt _ b2
  have b4 := crcShift_lt _ b3
  have b5 := crcShift_lt _ b4
  have b6 := crcShift_lt _ b5
  have b7 := crcShift_lt _ b6
  exact crcShift_injective _ _ h1 h2 (crcShift_injective _ _ a1 b1
    (crcShift_injective _ _ a2 b2 (crcShift_injective _ _ a3 b3
    (crcShift_injective _ _ a4 b4 (crcShift_injective _ _ a5 b5
    (crcShift_injective _ _ a6 b6 (crcShift_injective _ _ a7 b7 h)))))))

theorem xor_byte_lt (r b : Nat) (h : r < 2 ^ 32) : r ^^^ (b % 256) < 2 ^ 32 :=
  Nat.xor_lt_two_pow h (Nat.lt_of_lt_of_le (Nat.mod_lt _ (by norm_num)) (by norm_num))

theorem crcByte_injective_byte (r b1 b2 : Nat) (hr : r < 2 ^ 32)
    (h : crcByte r b1 = crcByte r b2) : b1 % 256 = b2 % 256 := by
  unfold crcByte at h
  have := crcShift8_injective _ _ (xor_byte_lt r b1 hr) (xor_byte_lt r b2 hr) h
  exact Nat.xor_right_injective this

theorem crcByte_injective_state (r1 r2 b : Nat) (h1 : r1 < 2 ^ 32) (h2 : r2 < 2 ^ 32)
    (h : crcByte r1 b = crcByte r2 b) : r1 = r2 := by
  unfold crcByte at h
  have := crcShift8_injective _ _ (xor_byte_lt r1 b h1) (xor_byte_lt r2 b h2) h
  exact Nat.xor_left_injective this

theorem foldl_crcByte_injective (post : List Nat) :
    ∀ r1 r2, r1 < 2 ^ 32 → r2 < 2 ^ 32 → post.foldl crcByte r1 = post.foldl crcByte r2 →
      r1 = r2 := by
  induction post with
  | nil => intro r1 r2 _ _ h; exact h
  | cons b post ih =>
    intro r1 r2 h1 h2 h
    exact crcByte_injective_state r1 r2 b h1 h2
      (ih _ _ (crcByte_lt r1 b h1) (crcByte_lt r2 b h2) h)

theorem crc_calculate_replace_ne (pre post : List Nat) (x b : Nat)
    (h : b % 256 ≠ x % 256) :
    CRC.Calculate (pre ++ b :: post) none ≠ CRC.Calculate (pre ++ x :: post) none := by
  intro heq
  unfold CRC.Calculate at heq
  simp only [List.foldl_append, List.foldl_cons] at heq
  have h0 := foldl_crcByte_lt pre 0xFFFFFFFF (by norm_num)
  have := Nat.xor_left_injective heq
  have := foldl_crcByte_injective post _ _ (crcByte_lt _ b h0) (crcByte_lt _ x h0) this
  exact h (crcByte_injective_byte _ b x h0 this)

/-! ## Lemmas on the bytes of a stored file -/

theorem not_mem_persistedLine (target : Target) (key : CString) (e : SettingValue_t) (b : Nat)
    (hd : isdigit b = false) (h9 : b ≠ 9) (h10 : b ≠ 10) (hk : b ∉ key)
    (hv : b ∉ formattedValue target e) : b ∉ persistedLine target key e := by
  intro hm
  simp only [persistedLine, List.mem_append, List.mem_singleton] at hm
  rcases hm with ((((hm | hm) | hm) | hm) | hm) | hm
  · exact hk hm
  · exact h9 hm
  · exact formatNat_not_mem _ b hd hm
  · exact h9 hm
  · exact hv hm
  · exact h10 hm

theorem not_mem_persistedData (target : Target) (entries : List (CString × SettingValue_t))
    (b : Nat) (hd : isdigit b = false) (h9 : b ≠ 9) (h10 : b ≠ 10)
    (h : ∀ x ∈ entries, x.2.isPersistent = true → b ∉ x.1 ∧ b ∉ formattedValue target x.2) :
    b ∉ persistedData target entries := by
  induction entries with
  | nil => simp [persistedData]
  | cons x rest ih =>
    have ih' := ih (fun y hy => h y (List.mem_cons_of_mem _ hy))
    simp only [persistedData]
    split
    · rename_i hp
      obtain ⟨h1, h2⟩ := h x (List.mem_cons_self _ _) hp
      intro hm
      rcases List.mem_append.mp hm with hm | hm
      · exact not_mem_persistedLine target x.1 x.2 b hd h9 h10 h1 h2 hm
      · exact ih' hm
    · exact ih'

theorem formattedValue_integer (target : Target) (e : SettingValue_t)
    (h : e.settingValueType = SettingValueType_t.INTEGER) :
    formattedValue target e = formatInt e.settingValueData.getInteger := by
  unfold formattedValue
  rw [h]

namespace SettingsStorage

open SettingError_t SettingValueType_t

theorem load_of_validate_error (MAX : Nat) (target : Target) (s : Settings_t)
    (f : SettingsFile) (h : (validateChecksum target f).2 = SETTINGS_FILESYSTEM_ERROR) :
    loadSettingsFromPersistentStorage MAX target s f =
      (s, (validateChecksum target f).1, SETTINGS_FILESYSTEM_ERROR) := by
  unfold loadSettingsFromPersistentStorage
  cases hv : validateChecksum target f with
  | mk f0 r =>
    rw [hv] at h
    simp only at h
    subst h
    rfl

theorem trailer_of_long (target : Target) (c : Nat) (hc : c < 2 ^ 32)
    (hlong : 33 ≤ target.LONG_BITS) :
    trailerWellFormed target (trailerLine c) = true ∧
      trailerNumber target (trailerLine c) = c := by
  have hpow : (2 : Int) ^ 32 ≤ (2 : Int) ^ (target.LONG_BITS - 1) :=
    pow_le_pow_right₀ (by norm_num) (by omega)
  have hci : (c : Int) < (2 : Int) ^ (target.LONG_BITS - 1) := by
    have : (c : Int) < (2 : Int) ^ 32 := by exact_mod_cast hc
    omega
  exact ⟨trailerWellFormed_trailerLine target c hci,
    trailerNumber_trailerLine target c hci hc⟩

theorem store_content_of_any (target : Target) (s : Settings_t) (f : SettingsFile)
    (crc32 : Nat) (hs : (storeSettingsInPersistentStorage target s f crc32).2 = NO_ERROR)
    (hany : s.entries.any (fun x => x.2.isPersistent) = true) :
    (storeSettingsInPersistentStorage target s f crc32).1.content =
      persistedData target s.entries ++
        trailerLine (CRC.Calculate (persistedData target s.entries) none) := by
  have hc := store_of_success target s f crc32 hs
  rw [hany] at hc
  exact hc

end SettingsStorage

/-! ## Lemmas on a CR written over a byte of the data region -/

theorem strtoInteger_rest (lo hi : Int) (s : CString) :
    (strtoInteger lo hi s).2 = s ∨
      ∃ sgn ds, s.dropWhile isspace = sgn ++ ds ++ (strtoInteger lo hi s).2 ∧
        (sgn = [] ∨ sgn = [45] ∨ sgn = [43]) ∧ (∀ x ∈ ds, isdigit x = true) := by
  unfold strtoInteger
  simp only []
  split
  · exact Or.inl rfl
  · right
    simp only []
    split
    · rename_i u heq
      exact ⟨[45], u.takeWhile isdigit, by rw [heq]; simp [List.takeWhile_append_dropWhile],
        Or.inr (Or.inl rfl), fun x hx => (List.mem_takeWhile_imp hx)⟩
    · rename_i u heq
      exact ⟨[43], u.takeWhile isdigit, by rw [heq]; simp [List.takeWhile_append_dropWhile],
        Or.inr (Or.inr rfl), fun x hx => (List.mem_takeWhile_imp hx)⟩
    · exact ⟨[], (s.dropWhile isspace).takeWhile isdigit,
        by simp [List.takeWhile_append_dropWhile],
        Or.inl rfl, fun x hx => (List.mem_takeWhile_imp hx)⟩

theorem strtoInteger_tab_line (lo hi : Int) (p q : List Nat) (d : Nat) (hd : d ∈ p)
    (hdig : isdigit d = true) (hp : 10 ∉ p) :
    (strtoInteger lo hi (p ++ 9 :: q)).2.head? ≠ some 10 := by
  rcases strtoInteger_rest lo hi (p ++ 9 :: q) with h | ⟨sgn, ds, ht, hsgn, hds⟩
  · rw [h]
    cases p with
    | nil => simp at hd
    | cons a p =>
      intro hh
      simp only [List.cons_append, List.head?_cons, Option.some.injEq] at hh
      exact hp (hh ▸ List.mem_cons_self _ _)
  · intro hr
    generalize (strtoInteger lo hi (p ++ 9 :: q)).2 = r at ht hr
    have hs : p ++ 9 :: q =
        (List.takeWhile isspace (p ++ 9 :: q) ++ (sgn ++ ds)) ++ r := by
      conv_lhs => rw [← List.takeWhile_append_dropWhile isspace (p ++ 9 :: q), ht]
      simp
    have h9 : 9 ∉ sgn ++ ds := by
      intro hm
      rcases List.mem_append.mp hm with hm | hm
      · rcases hsgn with h | h | h <;> rw [h] at hm <;> simp at hm
      · have := hds 9 hm
        simp [isdigit] at this
    rcases List.append_eq_append_iff.mp hs with ⟨a', h1, h2⟩ | ⟨c', h1, h2⟩
    · cases a' with
      | nil =>
        rw [List.nil_append] at h2
        rw [← h2] at hr
        simp at hr
      | cons y a' =>
        simp only [List.cons_append, List.cons.injEq] at h2
        obtain ⟨hy, _⟩ := h2
        subst hy
        rcases List.append_eq_append_iff.mp h1 with ⟨b', g1, g2⟩ | ⟨b', g1, g2⟩
        · apply h9
          rw [g2]
          simp
        · have hdw : d ∈ List.takeWhile isspace (p ++ 9 :: q) := by
            rw [g1]
            exact List.mem_append_left _ hd
          have := List.mem_takeWhile_imp hdw
          rw [isspace_of_isdigit d hdig] at this
          cases this
    · cases c' with
      | nil =>
        rw [List.nil_append] at h2
        rw [h2] at hr
        simp at hr
      | cons y c' =>
        rw [h2] at hr
        simp only [List.cons_append, List.head?_cons, Option.some.injEq] at hr
        subst hr
        apply hp
        rw [h1]
        simp

theorem trailerWellFormed_of_tab_line (target : Target) (p q : List Nat) (d : Nat)
    (hd : d ∈ p) (hdig : isdigit d = true) (hp : 10 ∉ p) :
    trailerWellFormed target (13 :: (p ++ 9 :: q)) = false := by
  unfold trailerWellFormed strtol
  simp only [List.drop_succ_cons, List.drop_zero]
  exact decide_eq_false (strtoInteger_tab_line _ _ p q d hd hdig hp)

theorem splitLines_line_form (d : List Nat) :
    ∀ (L1 : List CString) (l : CString) (L2 : List CString), splitLines d = L1 ++ l :: L2 →
      (∃ body, l = body ++ [10] ∧ 10 ∉ body) ∨ (L2 = [] ∧ 10 ∉ l) := by
  induction d with
  | nil =>
    intro L1 l L2 h
    simp [splitLines] at h
  | cons b rest ih =>
    intro L1 l L2 h
    simp only [splitLines] at h
    split at h
    · rename_i hb
      cases L1 with
      | nil =>
        simp only [List.nil_append, List.cons.injEq] at h
        exact Or.inl ⟨[], by rw [← h.1, hb]; rfl, by simp⟩
      | cons y L1 =>
        simp only [List.cons_append, List.cons.injEq] at h
        exact ih L1 l L2 h.2
    · rename_i hb
      split at h
      · cases L1 with
        | nil =>
          simp only [List.nil_append, List.cons.injEq] at h
          refine Or.inr ⟨h.2.symm, ?_⟩
          rw [← h.1]
          simpa using fun hh => hb hh.symm
        | cons y L1 =>
          simp only [List.cons_append, List.cons.injEq] at h
          have := h.2
          cases L1 <;> simp at this
      · rename_i l0 ls heq
        cases L1 with
        | nil =>
          simp only [List.nil_append, List.cons.injEq] at h
          obtain ⟨h1, h2⟩ := h
          subst h1 h2
          rcases ih [] l0 ls heq with ⟨body, e1, e2⟩ | ⟨e1, e2⟩
          · left
            refine ⟨b :: body, by rw [e1]; rfl, ?_⟩
            intro hm
            rcases List.mem_cons.mp hm with hm | hm
            · exact hb hm.symm
            · exact e2 hm
          · right
            refine ⟨e1, ?_⟩
            intro hm
            rcases List.mem_cons.mp hm with hm | hm
            · exact hb hm.symm
            · exact e2 hm
        | cons y L1 =>
          simp only [List.cons_append, List.cons.injEq] at h
          obtain ⟨_, h2⟩ := h
          exact ih (l0 :: L1) l L2 (by rw [heq, h2]; rfl)

theorem splitLines_line_place (d : List Nat) (l : CString) (hl : l ∈ splitLines d) :
    ∃ pre post, d = pre ++ l ++ post ∧ (pre = [] ∨ ∃ pre', pre = pre' ++ [10]) ∧
      ((∃ body, l = body ++ [10] ∧ 10 ∉ body) ∨ (post = [] ∧ 10 ∉ l)) := by
  obtain ⟨L1, L2, h⟩ := List.append_of_mem hl
  have hd : d = L1.flatten ++ l ++ L2.flatten := by
    conv_lhs => rw [← join_splitLines d, h]
    simp
  refine ⟨L1.flatten, L2.flatten, hd, ?_, ?_⟩
  · rcases List.eq_nil_or_concat L1 with e | ⟨L, y, e⟩
    · left
      rw [e]
      rfl
    · right
      subst e
      rcases splitLines_line_form d L y (l :: L2) (by rw [h]; simp) with
        ⟨body, e1, _⟩ | ⟨e1, _⟩
      · exact ⟨L.flatten ++ body, by rw [e1]; simp⟩
      · cases e1
  · rcases splitLines_line_form d L1 l L2 h with h1 | ⟨h1, h2⟩
    · exact Or.inl h1
    · right
      rw [h1]
      exact ⟨rfl, h2⟩

theorem append_cons_unique (y : Nat) (a b c d : List Nat) (hc : y ∉ c) (hd : y ∉ d)
    (h : a ++ y :: b = c ++ y :: d) : a = c ∧ b = d := by
  rcases List.append_eq_append_iff.mp h with ⟨a', h1, h2⟩ | ⟨c', h1, h2⟩
  · cases a' with
    | nil =>
      simp only [List.nil_append, List.cons.injEq, true_and] at h2
      exact ⟨by simpa using h1.symm, h2⟩
    | cons z a' =>
      simp only [List.cons_append, List.cons.injEq] at h2
      exfalso
      apply hc
      rw [h1, ← h2.1]
      simp
  · cases c' with
    | nil =>
      simp only [List.nil_append, List.cons.injEq, true_and] at h2
      exact ⟨by simpa using h1, h2.symm⟩
    | cons z c' =>
      simp only [List.cons_append, List.cons.injEq] at h2
      exfalso
      apply hd
      rw [h2.2]
      simp

theorem persistedLine_shape (target : Target) (key : CString) (e : SettingValue_t)
    (hk : 10 ∉ key) (hv : 10 ∉ formattedValue target e) :
    (∃ body, persistedLine target key e = body ++ [10] ∧ 10 ∉ body) ∧
    ∃ y p q d, persistedLine target key e = y :: (p ++ 9 :: q) ∧ d ∈ p ∧ isdigit d = true ∧
      10 ∉ p := by
  obtain ⟨hne, hdig, _⟩ := formatNat_spec e.settingValueType.code
  have h10 : (10 : Nat) ∉ formatNat e.settingValueType.code :=
    formatNat_not_mem _ 10 (by decide)
  constructor
  · refine ⟨key ++ [9] ++ formatNat e.settingValueType.code ++ [9] ++ formattedValue target e,
      rfl, ?_⟩
    simp only [List.mem_append, List.mem_singleton]
    rintro ((((h | h) | h) | h) | h)
    · exact hk h
    · cases h
    · exact h10 h
    · cases h
    · exact hv h
  · cases hc : formatNat e.settingValueType.code with
    | nil => exact absurd hc hne
    | cons c cs =>
      have hcd : isdigit c = true := hdig c (by rw [hc]; exact List.mem_cons_self _ _)
      have hc10 : (10 : Nat) ∉ c :: cs := by rw [← hc]; exact h10
      cases key with
      | nil =>
        refine ⟨9, c :: cs, formattedValue target e ++ [10], c, ?_, List.mem_cons_self _ _,
          hcd, hc10⟩
        simp [persistedLine, hc]
      | cons k ks =>
        refine ⟨k, ks ++ 9 :: c :: cs, formattedValue target e ++ [10], c, ?_, by simp,
          hcd, ?_⟩
        · simp [persistedLine, hc]
        · simp only [List.mem_append, List.mem_cons]
          rintro (h | h | h)
          · exact hk (List.mem_cons_of_mem _ h)
          · cases h
          · exact hc10 (List.mem_cons.mpr h)

theorem persistedData_line_start (target : Target)
    (entries : List (CString × SettingValue_t))
    (hlf : ∀ x ∈ entries, x.2.isPersistent = true → 10 ∉ x.1 ∧ 10 ∉ formattedValue target x.2) :
    ∀ pre post : List Nat, persistedData target entries = pre ++ post → post ≠ [] →
      (pre = [] ∨ ∃ pre', pre = pre' ++ [10]) →
      ∃ x ∈ entries, x.2.isPersistent = true ∧ ∃ rest, post = persistedLine target x.1 x.2 ++ rest := by
  induction entries with
  | nil =>
    intro pre post h hpost _
    simp only [persistedData] at h
    have := List.append_eq_nil.mp h.symm
    exact absurd this.2 hpost
  | cons x rest ih =>
    have ih' := ih (fun y hy => hlf y (List.mem_cons_of_mem _ hy))
    intro pre post h hpost hpre
    simp only [persistedData] at h
    split at h
    · rename_i hp
      obtain ⟨hk, hv⟩ := hlf x (List.mem_cons_self _ _) hp
      obtain ⟨⟨body, hb, hb10⟩, _⟩ := persistedLine_shape target x.1 x.2 hk hv
      rcases List.append_eq_append_iff.mp h with ⟨a', h1, h2⟩ | ⟨c', h1, h2⟩
      · -- the place lies in the lines of the rest
        have ha : a' = [] ∨ ∃ p', a' = p' ++ [10] := by
          rcases List.eq_nil_or_concat a' with e | ⟨L, y, e⟩
          · exact Or.inl e
          · right
            rcases hpre with e' | ⟨pre', e'⟩
            · rw [e'] at h1
              have := List.append_eq_nil.mp h1.symm
              rw [hb] at this
              simp at this
            · rw [e', e, List.concat_eq_append, ← List.append_assoc] at h1
              have := List.append_inj_right' h1 rfl
              simp only [List.cons.injEq, and_true] at this
              exact ⟨L, by rw [e, List.concat_eq_append, ← this]⟩
        obtain ⟨y, hy, hyp, r, hr⟩ := ih' a' post h2 hpost ha
        exact ⟨y, List.mem_cons_of_mem _ hy, hyp, r, hr⟩
      · cases c' with
        | nil =>
          rw [List.append_nil] at h1
          rw [List.nil_append] at h2
          obtain ⟨y, hy, hyp, r, hr⟩ := ih' [] post (by rw [← h2]; rfl) hpost (Or.inl rfl)
          exact ⟨y, List.mem_cons_of_mem _ hy, hyp, r, hr⟩
        | cons z c' =>
          rcases hpre with e' | ⟨pre', e'⟩
          · subst e'
            rw [List.nil_append] at h1
            exact ⟨x, List.mem_cons_self _ _, hp, persistedData target rest, by rw [h2, ← h1]⟩
          · exfalso
            rw [hb, e'] at h1
            rcases List.eq_nil_or_concat (z :: c') with e | ⟨L, y, e⟩
            · cases e
            · rw [e, List.concat_eq_append, ← List.append_assoc] at h1
              have h3 := List.append_inj_left' h1 rfl
              apply hb10
              rw [h3]
              simp
    · obtain ⟨y, hy, hyp, r, hr⟩ := ih' pre post h hpost hpre
      exact ⟨y, List.mem_cons_of_mem _ hy, hyp, r, hr⟩

theorem trailerWellFormed_of_cr_line (target : Target)
    (entries : List (CString × SettingValue_t))
    (hcr : 13 ∉ persistedData target entries)
    (hlf : ∀ x ∈ entries, x.2.isPersistent = true → 10 ∉ x.1 ∧ 10 ∉ formattedValue target x.2)
    (i : Nat) (hi : i < (persistedData target entries).length) (l : CString)
    (hl : l ∈ splitLines ((persistedData target entries).set i 13))
    (ht : isTrailer l = true) : trailerWellFormed target l = false := by
  obtain ⟨pre, post, hd, hpre, hform⟩ := splitLines_line_place _ l hl
  cases l with
  | nil => simp [isTrailer] at ht
  | cons y rest =>
    have hy : y = 13 := by simpa [isTrailer] using ht
    subst hy
    rw [List.set_eq_take_append_cons_drop, if_pos hi] at hd
    have hd' : (persistedData target entries).take i ++
        13 :: (persistedData target entries).drop (i + 1) = pre ++ 13 :: (rest ++ post) := by
      rw [hd]
      simp
    obtain ⟨e1, e2⟩ := append_cons_unique 13 _ _ _ _
      (fun h => hcr (List.mem_of_mem_take h)) (fun h => hcr (List.mem_of_mem_drop h)) hd'.symm
    have hdata : persistedData target entries =
        pre ++ (persistedData target entries)[i] :: (rest ++ post) := by
      conv_lhs => rw [← List.take_append_drop i (persistedData target entries),
        List.drop_eq_getElem_cons hi]
      rw [e1, e2]
    obtain ⟨x, hx, hxp, r, hr⟩ := persistedData_line_start target entries hlf pre _ hdata
      (by simp) hpre
    obtain ⟨hk, hv⟩ := hlf x hx hxp
    obtain ⟨_, z, p, q, d, hshape, hdp, hdig, hp10⟩ := persistedLine_shape target x.1 x.2 hk hv
    rw [hshape] at hr
    simp only [List.cons_append, List.cons.injEq, List.append_assoc] at hr
    have hrp := hr.2
    have hrest : post ≠ [] → 10 ∈ rest := by
      intro hpost
      rcases hform with ⟨body, b1, _⟩ | ⟨b1, _⟩
      · cases body with
        | nil => simp at b1
        | cons w body =>
          simp only [List.cons_append, List.cons.injEq] at b1
          rw [b1.2]
          simp
      · exact absurd b1 hpost
    rcases List.append_eq_append_iff.mp hrp with ⟨a', h1, h2⟩ | ⟨c', h1, h2⟩
    · exfalso
      apply hp10
      rw [h1]
      exact List.mem_append_left _ (hrest (by rw [h2]; simp))
    · cases c' with
      | nil =>
        exfalso
        rw [List.append_nil] at h1
        rw [List.nil_append] at h2
        apply hp10
        rw [← h1]
        exact hrest (by rw [← h2]; simp)
      | cons w c' =>
        simp only [List.cons_append, List.cons.injEq] at h2
        rw [h1, ← h2.1]
        exact trailerWellFormed_of_tab_line target p c' d hdp hdig hp10

namespace SettingsStorage

open SettingError_t SettingValueType_t

theorem validateChecksum_of_malformed (target : Target) (f : SettingsFile)
    (hf : f.AllSucceed) (l : CString) (hl : l ∈ splitLines f.content)
    (ht : isTrailer l = true) (hw : trailerWellFormed target l = false) :
    (validateChecksum target f).2 = SETTINGS_FILESYSTEM_ERROR := by
  rw [(validateChecksum_of_allSucceed target f hf).2, if_neg]
  rintro ⟨hall, _⟩
  have := List.all_eq_true.mp hall l hl
  simp [ht, hw] at this

theorem validateChecksum_lines_trailer (target : Target) (f : SettingsFile)
    (data : List Nat) (c : Nat) (hf : f.AllSucceed) (hc : f.content = data ++ trailerLine c)
    (hnt : ∀ l ∈ splitLines data, isTrailer l = false)
    (hend : data = [] ∨ ∃ d, data = d ++ [10]) :
    (validateChecksum target f).2 =
      (if trailerWellFormed target (trailerLine c) = true ∧
          trailerNumber target (trailerLine c) = CRC.Calculate data none
        then NO_ERROR else SETTINGS_FILESYSTEM_ERROR) := by
  rw [(validateChecksum_of_allSucceed target f hf).2, hc, splitLines_data_trailer data c hend,
    all_wellFormed_data_trailer target _ _ hnt, storedChecksum_append target _ _ hnt,
    dataOfLines_append, dataOfLines_of_no_trailer _ hnt, join_splitLines]
  simp [storedChecksum, dataOfLines, isTrailer_trailerLine]

end SettingsStorage

namespace SettingsStorage

open SettingError_t SettingValueType_t

set_option maxRecDepth 100000 in
/-- C27 does not hold for every key that a registration accepts. The key made
of a CR and "k" is registered as a SYSTEM Integer; the store returns NO_ERROR;
the data line it wrote starts with a CR, so `validateChecksum` takes it for a
trailer, finds it malformed and returns SETTINGS_FILESYSTEM_ERROR. -/
theorem stored_file_with_cr_key_is_rejected :
    (registerSettingAsInt 32 ⟨[]⟩ (some (bytes "\rk")) SettingPermissions_t.SYSTEM 5).2 =
      NO_ERROR ∧
    (storeSettingsInPersistentStorage ⟨64, fun d => formatNat d.bits, fun t => (⟨0⟩, t)⟩
      (registerSettingAsInt 32 ⟨[]⟩ (some (bytes "\rk")) SettingPermissions_t.SYSTEM 5).1
      ⟨[], [], []⟩ 0).2 = NO_ERROR ∧
    (validateChecksum ⟨64, fun d => formatNat d.bits, fun t => (⟨0⟩, t)⟩
      (storeSettingsInPersistentStorage ⟨64, fun d => formatNat d.bits, fun t => (⟨0⟩, t)⟩
        (registerSettingAsInt 32 ⟨[]⟩ (some (bytes "\rk")) SettingPermissions_t.SYSTEM 5).1
        ⟨[], [], []⟩ 0).1).2 = SETTINGS_FILESYSTEM_ERROR := by
  decide

/-- C27, amended. For every registry state with at least one entry without the
VOLATILE flag, whose entries without that flag are Integer settings with keys
that hold no CR byte (TAB and LF bytes are allowed), on a target whose `long`
has more than 32 bits: if `storeSettingsInPersistentStorage` returns NO_ERROR
then `validateChecksum` on the file it wrote, with every call on the file
succeeding, returns NO_ERROR. -/
theorem stored_file_validates (target : Target) (s : Settings_t) (f : SettingsFile)
    (crc32 : Nat) (hs : (storeSettingsInPersistentStorage target s f crc32).2 = NO_ERROR)
    (hany : s.entries.any (fun x => x.2.isPersistent) = true)
    (hint : ∀ x ∈ s.entries, x.2.isPersistent = true →
      x.2.settingValueType = INTEGER ∧ 13 ∉ x.1)
    (hlong : 33 ≤ target.LONG_BITS)
    (hf : (storeSettingsInPersistentStorage target s f crc32).1.AllSucceed) :
    (validateChecksum target (storeSettingsInPersistentStorage target s f crc32).1).2 =
      NO_ERROR := by
  have hc := store_content_of_any target s f crc32 hs hany
  have h13 : 13 ∉ persistedData target s.entries :=
    not_mem_persistedData target s.entries 13 (by decide) (by decide) (by decide)
      (fun x hx hp => ⟨(hint x hx hp).2, by
        rw [formattedValue_integer target x.2 (hint x hx hp).1]
        exact formatInt_not_mem _ 13 (by decide) (by decide)⟩)
  obtain ⟨t1, t2⟩ := trailer_of_long target _
    (crc_calculate_lt (persistedData target s.entries)) hlong
  rw [validateChecksum_data_trailer target _ _ _ hf hc h13 (persistedData_end target s.entries),
    if_pos ⟨t1, t2⟩]

set_option maxRecDepth 100000 in
/-- C27 amended, at a concrete input: a key with a TAB and a LF in it. -/
theorem stored_file_validates_witness :
    (validateChecksum ⟨64, fun d => formatNat d.bits, fun t => (⟨0⟩, t)⟩
      (storeSettingsInPersistentStorage ⟨64, fun d => formatNat d.bits, fun t => (⟨0⟩, t)⟩
        ⟨[(bytes "a\tb\nc", ⟨1, INTEGER, .integer (-7), .integer 0⟩)]⟩
        ⟨[], [], []⟩ 0).1).2 = NO_ERROR :=
  stored_file_validates ⟨64, fun d => formatNat d.bits, fun t => (⟨0⟩, t)⟩
    ⟨[(bytes "a\tb\nc", ⟨1, INTEGER, .integer (-7), .integer 0⟩)]⟩ ⟨[], [], []⟩ 0
    (by decide) (by decide) (by decide) (by decide) (by decide)

set_option maxRecDepth 100000 in
/-- C22 does not hold for every position of the data region. The String
setting "name" holds "ejozu"; the store writes the data line "name", type 2,
"ejozu" and the trailer with the checksum 432970995. Replacing the last byte
of the data region, the LF at the index 12, by the byte 79 joins the trailer to
the data line: no line starts with a CR, the expected checksum stays 0, and the
checksum of the one line is 0. `validateChecksum` returns NO_ERROR and the load
returns NO_ERROR with a changed value. -/
theorem replaced_line_end_is_not_detected :
    (storeSettingsInPersistentStorage ⟨64, fun d => formatNat d.bits, fun t => (⟨0⟩, t)⟩
      ⟨[(bytes "name", ⟨1, STRING, .string (bytes "ejozu"), .string (bytes "ejozu")⟩)]⟩
      ⟨[], [], []⟩ 0) = (⟨bytes "name\t2\tejozu\n\r432970995\n", [], []⟩, NO_ERROR) ∧
    (validateChecksum ⟨64, fun d => formatNat d.bits, fun t => (⟨0⟩, t)⟩
      ⟨(bytes "name\t2\tejozu\n\r432970995\n").set 12 79, [], []⟩).2 = NO_ERROR ∧
    loadSettingsFromPersistentStorage 32 ⟨64, fun d => formatNat d.bits, fun t => (⟨0⟩, t)⟩
      ⟨[(bytes "name", ⟨1, STRING, .string (bytes "ejozu"), .string (bytes "ejozu")⟩)]⟩
      ⟨(bytes "name\t2\tejozu\n\r432970995\n").set 12 79, [], []⟩ =
      (⟨[(bytes "name",
          ⟨1, STRING, .string (bytes "ejozuO\r432970995"), .string (bytes "ejozu")⟩)]⟩,
        ⟨bytes "name\t2\tejozuO\r432970995\n", [], []⟩, NO_ERROR) := by
  decide

/-- C22, amended. For every file written by a successful store of a registry
with at least one entry without the VOLATILE flag, whose keys and formatted
values hold no CR byte, on a target whose `long` has more than 32 bits: for
every position `i` of the data region other than its last byte (the LF that
ends the last data line) and every byte `b` that differs from the byte at `i`
(when `b` is the CR, the keys and formatted values hold no LF byte either),
`validateChecksum` on the file with the byte `i` replaced by `b` (every call
on the file succeeding) returns SETTINGS_FILESYSTEM_ERROR, and
`loadSettingsFromPersistentStorage` returns SETTINGS_FILESYSTEM_ERROR and
leaves the registry it was given unchanged. -/
theorem checksum_detects_replaced_byte (MAX : Nat) (target : Target) (s : Settings_t)
    (f f' : SettingsFile) (crc32 i b x : Nat)
    (hs : (storeSettingsInPersistentStorage target s f crc32).2 = NO_ERROR)
    (hany : s.entries.any (fun e => e.2.isPersistent) = true)
    (hcr : ∀ e ∈ s.entries, e.2.isPersistent = true →
      13 ∉ e.1 ∧ 13 ∉ formattedValue target e.2)
    (hlf : b = 13 → ∀ e ∈ s.entries, e.2.isPersistent = true →
      10 ∉ e.1 ∧ 10 ∉ formattedValue target e.2)
    (hlong : 33 ≤ target.LONG_BITS)
    (hi : i + 1 < (persistedData target s.entries).length)
    (hx : (storeSettingsInPersistentStorage target s f crc32).1.content[i]? = some x)
    (hx256 : x < 256) (hb256 : b < 256) (hne : b ≠ x)
    (hc' : f'.content = (storeSettingsInPersistentStorage target s f crc32).1.content.set i b)
    (hf' : f'.AllSucceed) :
    (validateChecksum target f').2 = SETTINGS_FILESYSTEM_ERROR ∧
    ∀ st : Settings_t, loadSettingsFromPersistentStorage MAX target st f' =
      (st, (validateChecksum target f').1, SETTINGS_FILESYSTEM_ERROR) := by
  have hc := store_content_of_any target s f crc32 hs hany
  have h13 : 13 ∉ persistedData target s.entries :=
    not_mem_persistedData target s.entries 13 (by decide) (by decide) (by decide) hcr
  obtain ⟨t1, t2⟩ := trailer_of_long target _
    (crc_calculate_lt (persistedData target s.entries)) hlong
  have hline : b = 13 → ∀ l ∈ splitLines ((persistedData target s.entries).set i b),
      isTrailer l = true → trailerWellFormed target l = false := by
    intro hb l hl ht
    subst hb
    exact trailerWellFormed_of_cr_line target s.entries h13 (hlf rfl) i (by omega) l hl ht
  generalize hdata : persistedData target s.entries = data at hc h13 t1 t2 hi hline
  have hend := persistedData_end target s.entries
  rw [hdata] at hend
  have hilt : i < data.length := by omega
  have hxd : data[i] = x := by
    rw [hc, List.getElem?_append_left hilt, List.getElem?_eq_getElem hilt] at hx
    exact Option.some.inj hx
  have hsplit : data = data.take i ++ x :: data.drop (i + 1) := by
    rw [← hxd, ← List.drop_eq_getElem_cons hilt, List.take_append_drop]
  have hset : data.set i b = data.take i ++ b :: data.drop (i + 1) := by
    rw [List.set_eq_take_append_cons_drop, if_pos hilt]
  have hcontent : f'.content = data.set i b ++ trailerLine (CRC.Calculate data none) := by
    rw [hc', hc, List.set_append_left _ _ hilt]
  have hend' : data.set i b = [] ∨ ∃ d, data.set i b = d ++ [10] := by
    rcases hend with h | ⟨d, h⟩
    · subst h
      simp at hilt
    · right
      have hd : i < d.length := by
        rw [h] at hi
        simp at hi
        omega
      exact ⟨d.set i b, by rw [h, List.set_append_left _ _ hd]⟩
  have hcrc : CRC.Calculate (data.set i b) none ≠ CRC.Calculate data none := by
    have hr := crc_calculate_replace_ne (data.take i) (data.drop (i + 1)) x b
      (by rw [Nat.mod_eq_of_lt hb256, Nat.mod_eq_of_lt hx256]; exact hne)
    rw [← hset, ← hsplit] at hr
    exact hr
  have hv : (validateChecksum target f').2 = SETTINGS_FILESYSTEM_ERROR := by
    by_cases hnt : ∀ l ∈ splitLines (data.set i b), isTrailer l = false
    · rw [validateChecksum_lines_trailer target f' _ _ hf' hcontent hnt hend', if_neg]
      rintro ⟨_, h2⟩
      rw [t2] at h2
      exact hcrc h2.symm
    · have hb : b = 13 := by
        by_contra hb13
        apply hnt
        apply isTrailer_of_mem_splitLines
        intro hm
        rcases List.mem_or_eq_of_mem_set hm with h | h
        · exact h13 h
        · exact hb13 h.symm
      simp only [not_forall, Bool.not_eq_false] at hnt
      obtain ⟨l, hl, ht⟩ := hnt
      refine validateChecksum_of_malformed target f' hf' l ?_ ht (hline hb l hl ht)
      rw [hcontent, splitLines_data_trailer _ _ hend']
      exact List.mem_append_left _ hl
  exact ⟨hv, fun st => load_of_validate_error MAX target st f' hv⟩

set_option maxRecDepth 100000 in
/-- C22 amended, at concrete inputs. The first byte of the stored file of
"net.timeout" (SYSTEM, Integer, 45) is replaced by "x": the load returns
SETTINGS_FILESYSTEM_ERROR and the registry keeps the value 7 it had. The same
byte is replaced by a CR: `validateChecksum` returns
SETTINGS_FILESYSTEM_ERROR. -/
theorem checksum_detects_replaced_byte_witness :
    (loadSettingsFromPersistentStorage 32 ⟨64, fun d => formatNat d.bits, fun t => (⟨0⟩, t)⟩
      ⟨[(bytes "net.timeout", ⟨1, INTEGER, .integer 7, .integer 30⟩)]⟩
      ⟨bytes "xet.timeout\t0\t45\n\r3023842618\n", [], []⟩).1 =
      ⟨[(bytes "net.timeout", ⟨1, INTEGER, .integer 7, .integer 30⟩)]⟩ ∧
    (loadSettingsFromPersistentStorage 32 ⟨64, fun d => formatNat d.bits, fun t => (⟨0⟩, t)⟩
      ⟨[(bytes "net.timeout", ⟨1, INTEGER, .integer 7, .integer 30⟩)]⟩
      ⟨bytes "xet.timeout\t0\t45\n\r3023842618\n", [], []⟩).2.2 =
      SETTINGS_FILESYSTEM_ERROR ∧
    (validateChecksum ⟨64, fun d => formatNat d.bits, fun t => (⟨0⟩, t)⟩
      ⟨bytes "\ret.timeout\t0\t45\n\r3023842618\n", [], []⟩).2 = SETTINGS_FILESYSTEM_ERROR :=
  ⟨congrArg Prod.fst
      ((checksum_detects_replaced_byte 32 ⟨64, fun d => formatNat d.bits, fun t => (⟨0⟩, t)⟩
        ⟨[(bytes "net.timeout", ⟨1, INTEGER, .integer 45, .integer 30⟩)]⟩ ⟨[], [], []⟩
        ⟨bytes "xet.timeout\t0\t45\n\r3023842618\n", [], []⟩ 0 0 120 110
        (by decide) (by decide) (by decide) (by decide) (by decide) (by decide) (by decide)
        (by decide) (by decide) (by decide) (by decide) (by decide)).2
        ⟨[(bytes "net.timeout", ⟨1, INTEGER, .integer 7, .integer 30⟩)]⟩),
    congrArg (fun r => r.2.2)
      ((checksum_detects_replaced_byte 32 ⟨64, fun d => formatNat d.bits, fun t => (⟨0⟩, t)⟩
        ⟨[(bytes "net.timeout", ⟨1, INTEGER, .integer 45, .integer 30⟩)]⟩ ⟨[], [], []⟩
        ⟨bytes "xet.timeout\t0\t45\n\r3023842618\n", [], []⟩ 0 0 120 110
        (by decide) (by decide) (by decide) (by decide) (by decide) (by decide) (by decide)
        (by decide) (by decide) (by decide) (by decide) (by decide)).2
        ⟨[(bytes "net.timeout", ⟨1, INTEGER, .integer 7, .integer 30⟩)]⟩),
    (checksum_detects_replaced_byte 32 ⟨64, fun d => formatNat d.bits, fun t => (⟨0⟩, t)⟩
        ⟨[(bytes "net.timeout", ⟨1, INTEGER, .integer 45, .integer 30⟩)]⟩ ⟨[], [], []⟩
        ⟨bytes "\ret.timeout\t0\t45\n\r3023842618\n", [], []⟩ 0 0 13 110
        (by decide) (by decide) (by decide) (by decide) (by decide) (by decide) (by decide)
        (by decide) (by decide) (by decide) (by decide) (by decide)).1⟩

end SettingsStorage

/-! ## Lemmas on a load after a store -/

theorem entries_ext (l1 : List (CString × SettingValue_t)) :
    ∀ l2 : List (CString × SettingValue_t), l1.map Prod.fst = l2.map Prod.fst →
      (l1.map Prod.fst).Nodup → (∀ k, lookupEntry k l1 = lookupEntry k l2) → l1 = l2 := by
  induction l1 with
  | nil =>
    intro l2 hk _ _
    cases l2 with
    | nil => rfl
    | cons y l2 => simp at hk
  | cons x l1 ih =>
    intro l2 hk hnd h
    cases l2 with
    | nil => simp at hk
    | cons y l2 =>
      obtain ⟨k1, v1⟩ := x
      obtain ⟨k2, v2⟩ := y
      simp only [List.map_cons, List.cons.injEq] at hk
      obtain ⟨hk1, hk2⟩ := hk
      subst hk1
      simp only [List.map_cons, List.nodup_cons] at hnd
      have hv : v1 = v2 := by
        have := h k1
        simp [lookupEntry] at this
        exact this
      subst hv
      congr 1
      apply ih l2 hk2 hnd.2
      intro k
      by_cases hkk : k1 = k
      · subst hkk
        rw [lookupEntry_eq_none_of_not_mem k1 l1 hnd.1,
          lookupEntry_eq_none_of_not_mem k1 l2 (hk2 ▸ hnd.1)]
      · have := h k
        simp only [lookupEntry, hkk, if_false] at this
        exact this

theorem parseLine_persistedLine (target : Target) (key : CString) (e : SettingValue_t)
    (hne : key ≠ []) (h9 : 9 ∉ key) (hr : e.ReadsBack target)
    (hlong : 3 ≤ target.LONG_BITS) :
    parseLine target (persistedLine target key e) =
      some (key, e.settingValueType, e.settingValueData) := by
  obtain ⟨r1, r2, r3⟩ := hr
  have h1 := lineKey_persistedLine target key e h9
  have h2 := (lineTypeText_persistedLine target key e h9).1
  have h3 := lineValueText_persistedLine target key e h9 r2
  unfold parseLine
  rw [h1, h2, h3, if_neg, parseTypeCode_formatNat target _ hlong]
  · simp only [r3]
  · rintro (h | h | h)
    · exact hne h
    · exact (formatNat_spec _).1 h
    · exact r1 h

namespace SettingsStorage

open SettingError_t SettingValueType_t

theorem applyLines_persisted (MAX : Nat) (target : Target) (c : Nat)
    (hlong : 3 ≤ target.LONG_BITS) (L : List (CString × SettingValue_t)) :
    ∀ cur : Settings_t, (L.map Prod.fst).Nodup →
      (∀ x ∈ L, x.1 ≠ [] ∧ x.1.length ≤ MAX ∧ 9 ∉ x.1 ∧ 13 ∉ x.1 ∧ x.2.ReadsBack target) →
      (∀ x ∈ L, 0 ∉ x.1 ∧ 0 ∉ formattedValue target x.2) →
      (∀ x ∈ L, ∃ e', lookupEntry x.1 cur.entries = some e' ∧
        e'.settingValueType = x.2.settingValueType) →
      (applyLines MAX target cur
        (L.map (fun x => persistedLine target x.1 x.2) ++ [trailerLine c])).2 = true ∧
      (applyLines MAX target cur
        (L.map (fun x => persistedLine target x.1 x.2) ++ [trailerLine c])).1.entries.map
          Prod.fst = cur.entries.map Prod.fst ∧
      (∀ k, k ∉ L.map Prod.fst →
        lookupEntry k (applyLines MAX target cur
          (L.map (fun x => persistedLine target x.1 x.2) ++ [trailerLine c])).1.entries =
          lookupEntry k cur.entries) ∧
      (∀ x ∈ L, ∃ e', lookupEntry x.1 cur.entries = some e' ∧
        lookupEntry x.1 (applyLines MAX target cur
          (L.map (fun x => persistedLine target x.1 x.2) ++ [trailerLine c])).1.entries =
          some { e' with settingValueData := x.2.settingValueData }) := by
  induction L with
  | nil =>
    intro cur _ _ _ _
    have : applyLines MAX target cur [trailerLine c] = (cur, true) := by
      simp [applyLines, isTrailer_trailerLine]
    simp only [List.map_nil, List.nil_append, this]
    exact ⟨trivial, trivial, fun _ _ => trivial, fun x hx => absurd hx (by simp)⟩
  | cons x L ih =>
    intro cur hnd hgood hnul hcur
    obtain ⟨g1, g2, g3, g4, g5⟩ := hgood x (List.mem_cons_self _ _)
    obtain ⟨n1, n2⟩ := hnul x (List.mem_cons_self _ _)
    obtain ⟨e', he', hte'⟩ := hcur x (List.mem_cons_self _ _)
    simp only [List.map_cons, List.nodup_cons] at hnd
    have hload : loadSetting MAX target cur (persistedLine target x.1 x.2) =
        (⟨replaceEntry x.1 { e' with settingValueData := x.2.settingValueData }
          cur.entries⟩, true) := by
      rw [loadSetting_eq,
        readDataLine_of_not_mem target _ (nul_not_mem_persistedLine target x.1 x.2 n1 n2),
        parseLine_persistedLine target x.1 x.2 g1 g3 g5 hlong]
      simp only [applyParsed]
      rw [entryOf_of_length_le MAX cur x.1 g2, he', storedKey_of_length_le MAX x.1 g2]
      simp only [hte', if_true]
    have happ : applyLines MAX target cur
        ((x :: L).map (fun x => persistedLine target x.1 x.2) ++ [trailerLine c]) =
        applyLines MAX target
          ⟨replaceEntry x.1 { e' with settingValueData := x.2.settingValueData } cur.entries⟩
          (L.map (fun x => persistedLine target x.1 x.2) ++ [trailerLine c]) := by
      rw [List.map_cons, List.cons_append,
        applyLines_cons_data MAX target cur _ _ (isTrailer_persistedLine target x.1 x.2 g1 g4),
        hload]
      rfl
    have hne : ∀ y ∈ L, y.1 ≠ x.1 := by
      intro y hy heq
      exact hnd.1 (heq ▸ List.mem_map_of_mem Prod.fst hy)
    obtain ⟨i1, i2, i3, i4⟩ := ih
      ⟨replaceEntry x.1 { e' with settingValueData := x.2.settingValueData } cur.entries⟩
      hnd.2 (fun y hy => hgood y (List.mem_cons_of_mem _ hy))
      (fun y hy => hnul y (List.mem_cons_of_mem _ hy))
      (fun y hy => by
        obtain ⟨e2, h2, t2⟩ := hcur y (List.mem_cons_of_mem _ hy)
        exact ⟨e2, by rw [lookupEntry_replaceEntry_ne _ _ _ _ (hne y hy)]; exact h2, t2⟩)
    rw [happ]
    refine ⟨i1, ?_, ?_, ?_⟩
    · rw [i2, map_fst_replaceEntry]
    · intro k hk
      simp only [List.map_cons, List.mem_cons, not_or] at hk
      rw [i3 k hk.2, lookupEntry_replaceEntry_ne _ _ _ _ hk.1]
    · intro y hy
      rcases List.mem_cons.mp hy with hy | hy
      · subst hy
        refine ⟨e', he', ?_⟩
        rw [i3 y.1 hnd.1, lookupEntry_replaceEntry_self, he']
        rfl
      · obtain ⟨e2, h2, r2⟩ := i4 y hy
        rw [lookupEntry_replaceEntry_ne _ _ _ _ (hne y hy)] at h2
        exact ⟨e2, h2, r2⟩

theorem load_stored_restores (MAX : Nat) (target : Target) (s s' : Settings_t)
    (f : SettingsFile) (crc32 : Nat) (hw : s.WellFormed MAX)
    (hany : s.entries.any (fun x => x.2.isPersistent) = true)
    (hgood : ∀ x ∈ s.entries, x.2.isPersistent = true →
      9 ∉ x.1 ∧ 10 ∉ x.1 ∧ 13 ∉ x.1 ∧ x.2.ReadsBack target)
    (hnul : ∀ x ∈ s.entries, x.2.isPersistent = true →
      0 ∉ x.1 ∧ 0 ∉ formattedValue target x.2)
    (hlong : 33 ≤ target.LONG_BITS)
    (st1 : (storeSettingsInPersistentStorage target s f crc32).2 = NO_ERROR)
    (st2 : (storeSettingsInPersistentStorage target s f crc32).1.AllSucceed)
    (hkept : ∀ x ∈ s.entries, x.2.isPersistent = true →
      ∃ e', lookupEntry x.1 s'.entries = some e' ∧
        e'.settingValueType = x.2.settingValueType) :
    (loadSettingsFromPersistentStorage MAX target s'
      (storeSettingsInPersistentStorage target s f crc32).1).2.2 = NO_ERROR ∧
    (loadSettingsFromPersistentStorage MAX target s'
      (storeSettingsInPersistentStorage target s f crc32).1).1.entries.map Prod.fst =
        s'.entries.map Prod.fst ∧
    (∀ k, k ∉ (s.entries.filter (fun x => x.2.isPersistent)).map Prod.fst →
      lookupEntry k (loadSettingsFromPersistentStorage MAX target s'
        (storeSettingsInPersistentStorage target s f crc32).1).1.entries =
        lookupEntry k s'.entries) ∧
    (∀ x ∈ s.entries, x.2.isPersistent = true →
      ∃ e', lookupEntry x.1 s'.entries = some e' ∧
        lookupEntry x.1 (loadSettingsFromPersistentStorage MAX target s'
          (storeSettingsInPersistentStorage target s f crc32).1).1.entries =
          some { e' with settingValueData := x.2.settingValueData }) := by
  have hc := store_content_of_any target s f crc32 st1 hany
  have hfit : ∀ x ∈ s.entries, x.2.isPersistent = true →
      10 ∉ x.1 ∧ 10 ∉ formattedValue target x.2 :=
    fun x hx hp => ⟨(hgood x hx hp).2.1, (hgood x hx hp).2.2.2.2.1⟩
  have hcr : ∀ x ∈ s.entries, x.2.isPersistent = true →
      isTrailer (persistedLine target x.1 x.2) = false :=
    fun x hx hp => isTrailer_persistedLine target x.1 x.2 (hw.2 x hx).1 (hgood x hx hp).2.2.1
  have hv := validateChecksum_stored target s.entries _ st2 hc hfit hcr hlong
  obtain ⟨l1, l2⟩ := load_of_allSucceed MAX target s' _ st2 hv
  have hlines := splitLines_persistedData target
    (CRC.Calculate (persistedData target s.entries) none) s.entries hfit
  rw [← hc] at hlines
  have hnd : ((s.entries.filter (fun x => x.2.isPersistent)).map Prod.fst).Nodup :=
    List.Nodup.sublist (List.Sublist.map _ (List.filter_sublist _)) hw.1
  obtain ⟨a1, a2, a3, a4⟩ := applyLines_persisted MAX target
    (CRC.Calculate (persistedData target s.entries) none) (by omega)
    (s.entries.filter (fun x => x.2.isPersistent)) s' hnd
    (fun x hx => by
      obtain ⟨hx1, hx2⟩ := List.mem_filter.mp hx
      exact ⟨(hw.2 x hx1).1, (hw.2 x hx1).2.1, (hgood x hx1 hx2).1, (hgood x hx1 hx2).2.2.1,
        (hgood x hx1 hx2).2.2.2⟩)
    (fun x hx => by
      obtain ⟨hx1, hx2⟩ := List.mem_filter.mp hx
      exact hnul x hx1 hx2)
    (fun x hx => by
      obtain ⟨hx1, hx2⟩ := List.mem_filter.mp hx
      exact hkept x hx1 hx2)
  rw [l1, l2, hlines, a1]
  exact ⟨rfl, a2, a3, fun x hx hp => a4 x (List.mem_filter.mpr ⟨hx, hp⟩)⟩

theorem not_mem_persistent_keys (MAX : Nat) (s : Settings_t) (k : CString)
    (e : SettingValue_t) (hw : s.WellFormed MAX) (hk : lookupEntry k s.entries = some e)
    (hp : e.isPersistent = false) :
    k ∉ (s.entries.filter (fun x => x.2.isPersistent)).map Prod.fst := by
  intro hm
  obtain ⟨x, hx, rfl⟩ := List.mem_map.mp hm
  obtain ⟨hx1, hx2⟩ := List.mem_filter.mp hx
  have := lookupEntry_of_mem s.entries hw.1 x hx1
  rw [hk] at this
  cases this
  rw [hp] at hx2
  cases hx2

theorem not_mem_persistent_keys_of_none (s : Settings_t) (k : CString)
    (hk : lookupEntry k s.entries = none) :
    k ∉ (s.entries.filter (fun x => x.2.isPersistent)).map Prod.fst := by
  intro hm
  obtain ⟨x, hx, rfl⟩ := List.mem_map.mp hm
  obtain ⟨hx1, _⟩ := List.mem_filter.mp hx
  obtain ⟨e, he⟩ := lookupEntry_of_mem_keys x.1 s.entries (List.mem_map_of_mem Prod.fst hx1)
  rw [hk] at he
  cases he

theorem keys_putSettingValueAsInt (MAX : Nat) (s : Settings_t) (key : Option CString)
    (v : Int) :
    (putSettingValueAsInt MAX s key v).1.entries.map Prod.fst = s.entries.map Prod.fst := by
  rcases key_cases key with h | ⟨k, rfl, hk⟩
  · simp only [putSettingValueAsInt, getSettingValue_of_empty MAX s key h]
  · rw [putSettingValueAsInt_eq MAX s k v hk]
    cases he : s.entryOf MAX k with
    | none => rfl
    | some e =>
      by_cases ht : e.settingValueType = INTEGER
      · simp only [ht, ne_eq, not_true_eq_false, if_false]
        exact map_fst_replaceEntry _ _ _
      · simp only [ht, ne_eq, not_false_eq_true, if_true]

theorem putSettingValuesAsInt_kept (MAX : Nat) (calls : List (Option CString × Int)) :
    ∀ s : Settings_t, s.EntriesKept (putSettingValuesAsInt MAX s calls) ∧
      (putSettingValuesAsInt MAX s calls).entries.map Prod.fst = s.entries.map Prod.fst := by
  induction calls with
  | nil => intro s; exact ⟨entriesKept_refl s, rfl⟩
  | cons call calls ih =>
    intro s
    obtain ⟨i1, i2⟩ := ih (putSettingValueAsInt MAX s call.1 call.2).1
    simp only [putSettingValuesAsInt]
    exact ⟨entriesKept_trans (entriesKept_putSettingValueAsInt MAX s call.1 call.2) i1,
      i2.trans (keys_putSettingValueAsInt MAX s call.1 call.2)⟩

theorem readsBack_integer (target : Target) (e : SettingValue_t)
    (ht : e.settingValueType = INTEGER) (hw : e.WellTyped)
    (hlo : -(2 : Int) ^ 63 ≤ e.settingValueData.getInteger)
    (hhi : e.settingValueData.getInteger < (2 : Int) ^ 63) : e.ReadsBack target := by
  obtain ⟨p, t, dv, df⟩ := e
  simp only at ht
  subst ht
  have hd := hw.1
  cases dv with
  | integer v =>
    simp only [SettingValueData_t.getInteger] at hlo hhi
    refine ⟨?_, ?_, ?_⟩
    · exact formatInt_ne_nil v
    · exact formatInt_not_mem v 10 (by decide) (by decide)
    · show parseValue target INTEGER (formatInt v) = some (.integer v)
      simp only [parseValue, strtoll_formatInt v hlo hhi, if_true]
  | real v => simp [SettingValueData_t.hasType] at hd
  | string v => simp [SettingValueData_t.hasType] at hd

theorem readsBack_string (target : Target) (e : SettingValue_t)
    (ht : e.settingValueType = STRING) (hw : e.WellTyped) :
    e.ReadsBack target ↔
      e.settingValueData.getString ≠ [] ∧ 10 ∉ e.settingValueData.getString := by
  obtain ⟨p, t, dv, df⟩ := e
  simp only at ht
  subst ht
  have hd := hw.1
  cases dv with
  | string v =>
    simp [SettingValue_t.ReadsBack, formattedValue, parseValue, SettingValueData_t.getString]
  | real v => simp [SettingValueData_t.hasType] at hd
  | integer v => simp [SettingValueData_t.hasType] at hd

end SettingsStorage

namespace SettingsStorage

open SettingError_t SettingValueType_t

/-- C21, what the code does. In a registry that registrations produce, on a
target whose `long` has more than 32 bits and with every call on the Backing
File succeeding, let the entries without the VOLATILE flag have keys without
TAB, CR and LF bytes and formatted values without LF (keys and values are C
strings, with no NUL byte in them), and let `k` be the key of a String setting
among them. If every such entry reads back (for a String:
its value is not empty), a store followed by a load into the same registry
returns NO_ERROR and leaves the registry, so the value of `k`, as it was. If
the value of `k` is the empty string, the store writes a data line with an
empty value field and the load returns SETTINGS_FILESYSTEM_ERROR. -/
theorem string_round_trip (MAX : Nat) (target : Target) (s : Settings_t) (f : SettingsFile)
    (crc32 : Nat) (k : CString) (e : SettingValue_t) (hw : s.WellFormed MAX)
    (hlong : 33 ≤ target.LONG_BITS) (hf : f.AllSucceed)
    (hclean : ∀ x ∈ s.entries, x.2.isPersistent = true →
      9 ∉ x.1 ∧ 10 ∉ x.1 ∧ 13 ∉ x.1 ∧ 10 ∉ formattedValue target x.2)
    (hnul : ∀ x ∈ s.entries, x.2.isPersistent = true →
      0 ∉ x.1 ∧ 0 ∉ formattedValue target x.2)
    (hk : lookupEntry k s.entries = some e) (hp : e.isPersistent = true)
    (ht : e.settingValueType = STRING) :
    (e.ReadsBack target ↔ e.settingValueData.getString ≠ []) ∧
    ((∀ x ∈ s.entries, x.2.isPersistent = true → x.2.ReadsBack target) →
      (loadSettingsFromPersistentStorage MAX target s
        (storeSettingsInPersistentStorage target s f crc32).1).2.2 = NO_ERROR ∧
      (loadSettingsFromPersistentStorage MAX target s
        (storeSettingsInPersistentStorage target s f crc32).1).1 = s) ∧
    (e.settingValueData.getString = [] →
      (storeSettingsInPersistentStorage target s f crc32).2 = NO_ERROR ∧
      (loadSettingsFromPersistentStorage MAX target s
        (storeSettingsInPersistentStorage target s f crc32).1).2.2 =
        SETTINGS_FILESYSTEM_ERROR) := by
  have hmem := lookupEntry_mem k e s.entries hk
  have hany : s.entries.any (fun x => x.2.isPersistent) = true :=
    List.any_eq_true.mpr ⟨(k, e), hmem, hp⟩
  have hwt : e.WellTyped := (hw.2 (k, e) hmem).2.2
  have hfv : formattedValue target e = e.settingValueData.getString := by
    unfold formattedValue
    rw [ht]
  refine ⟨?_, ?_, ?_⟩
  · rw [readsBack_string target e ht hwt]
    constructor
    · exact fun h => h.1
    · intro h
      refine ⟨h, ?_⟩
      rw [← hfv]
      exact (hclean (k, e) hmem hp).2.2.2
  · intro hall
    obtain ⟨r1, r2, r3, r4⟩ := load_stored_restores MAX target s s f crc32 hw hany
      (fun x hx hxp => ⟨(hclean x hx hxp).1, (hclean x hx hxp).2.1, (hclean x hx hxp).2.2.1,
        hall x hx hxp⟩) hnul hlong (store_of_allSucceed target s f crc32 hf).1
      (store_of_allSucceed target s f crc32 hf).2
      (fun x hx _ => ⟨x.2, lookupEntry_of_mem s.entries hw.1 x hx, rfl⟩)
    refine ⟨r1, ?_⟩
    have hent := entries_ext _ s.entries r2 (r2 ▸ hw.1) (by
      intro key
      by_cases hkey : key ∈ (s.entries.filter (fun x => x.2.isPersistent)).map Prod.fst
      · obtain ⟨x, hx, rfl⟩ := List.mem_map.mp hkey
        obtain ⟨hx1, hx2⟩ := List.mem_filter.mp hx
        obtain ⟨e', h1, h2⟩ := r4 x hx1 hx2
        have h3 := lookupEntry_of_mem s.entries hw.1 x hx1
        rw [h3] at h1
        cases h1
        rw [h2, h3]
      · exact r3 key hkey)
    cases hr : (loadSettingsFromPersistentStorage MAX target s
      (storeSettingsInPersistentStorage target s f crc32).1).1 with
    | mk entries =>
      rw [hr] at hent
      simp only at hent
      rw [hent]
  · intro hempty
    obtain ⟨st1, st2⟩ := store_of_allSucceed target s f crc32 hf
    refine ⟨st1, ?_⟩
    have hc := store_content_of_any target s f crc32 st1 hany
    have hfit : ∀ x ∈ s.entries, x.2.isPersistent = true →
        10 ∉ x.1 ∧ 10 ∉ formattedValue target x.2 :=
      fun x hx hxp => ⟨(hclean x hx hxp).2.1, (hclean x hx hxp).2.2.2⟩
    have hcr : ∀ x ∈ s.entries, x.2.isPersistent = true →
        isTrailer (persistedLine target x.1 x.2) = false :=
      fun x hx hxp =>
        isTrailer_persistedLine target x.1 x.2 (hw.2 x hx).1 (hclean x hx hxp).2.2.1
    have hv := validateChecksum_stored target s.entries _ st2 hc hfit hcr hlong
    obtain ⟨l1, l2⟩ := load_of_allSucceed MAX target s _ st2 hv
    have hlines := splitLines_persistedData target
      (CRC.Calculate (persistedData target s.entries) none) s.entries hfit
    rw [← hc] at hlines
    have hin : (k, e) ∈ s.entries.filter (fun x => x.2.isPersistent) :=
      List.mem_filter.mpr ⟨hmem, hp⟩
    obtain ⟨pre, post, hsplit⟩ := List.append_of_mem hin
    have hval : lineValueText (persistedLine target k e) = [] := by
      rw [lineValueText_persistedLine target k e (hclean (k, e) hmem hp).1
        (hclean (k, e) hmem hp).2.2.2, hfv, hempty]
    have hparse := readDataLine_eq_none target (persistedLine target k e)
      (Or.inr (Or.inr (Or.inl hval)))
    have happ : applyLines MAX target s
        (splitLines (storeSettingsInPersistentStorage target s f crc32).1.content) =
        ((applyLines MAX target s
          (pre.map (fun x => persistedLine target x.1 x.2))).1, false) := by
      rw [hlines, hsplit, List.map_append, List.map_cons, List.append_assoc,
        List.cons_append, applyLines_append]
      split
      · rw [applyLines_cons_data MAX target _ _ _ (hcr (k, e) hmem hp), loadSetting_eq,
          hparse]
        rfl
      · rfl
    rw [l2, happ]
    rfl

set_option maxRecDepth 100000 in
/-- C21 at the failing input: the empty string is registered as the value of
the SYSTEM String setting "name"; the store returns NO_ERROR and the load of
the stored file into the same registry returns SETTINGS_FILESYSTEM_ERROR. -/
theorem string_round_trip_witness :
    registerSettingAsString 32 ⟨[]⟩ (some (bytes "name")) 1 (some []) =
      (⟨[(bytes "name", ⟨1, STRING, .string [], .string []⟩)]⟩, NO_ERROR) ∧
    (storeSettingsInPersistentStorage ⟨64, fun d => formatNat d.bits, fun t => (⟨0⟩, t)⟩
      ⟨[(bytes "name", ⟨1, STRING, .string [], .string []⟩)]⟩ ⟨[], [], []⟩ 0).1.content =
      bytes "name\t2\t\n\r63627819\n" ∧
    (loadSettingsFromPersistentStorage 32 ⟨64, fun d => formatNat d.bits, fun t => (⟨0⟩, t)⟩
      ⟨[(bytes "name", ⟨1, STRING, .string [], .string []⟩)]⟩
      (storeSettingsInPersistentStorage ⟨64, fun d => formatNat d.bits, fun t => (⟨0⟩, t)⟩
        ⟨[(bytes "name", ⟨1, STRING, .string [], .string []⟩)]⟩ ⟨[], [], []⟩ 0).1).2.2 =
      SETTINGS_FILESYSTEM_ERROR :=
  ⟨by decide, by decide,
    ((string_round_trip 32 ⟨64, fun d => formatNat d.bits, fun t => (⟨0⟩, t)⟩
      ⟨[(bytes "name", ⟨1, STRING, .string [], .string []⟩)]⟩ ⟨[], [], []⟩ 0
      (bytes "name") ⟨1, STRING, .string [], .string []⟩ (by decide) (by decide) (by decide)
      (by decide) (by decide) (by decide) (by decide) (by decide)).2.2 rfl).2⟩

/-- C25, what the code does. For every registry that registrations produce
with at least one entry without the VOLATILE flag, whose entries without that
flag are Integer settings with 64-bit values and keys without TAB, CR and LF
bytes (C strings, with no NUL byte in them), a store that returns NO_ERROR and
a stored file on which every call succeeds, and any sequence of
`putSettingValueAsInt` calls after the store. Where `long` has more than 32
bits the load of the stored file returns NO_ERROR; the key set is the one of
store time; every entry without the VOLATILE flag is the entry of store time
(current value, default, type and permissions); every VOLATILE entry is as the
puts left it, with the default, type and permissions of store time. Where
`long` has 32 bits and the checksum of the data lines is `2^31` or more, the
load returns SETTINGS_FILESYSTEM_ERROR and the registry is left as the puts
made it: nothing is restored. -/
theorem store_load_restores_snapshot (MAX : Nat) (target : Target) (s : Settings_t)
    (f : SettingsFile) (crc32 : Nat) (calls : List (Option CString × Int))
    (hw : s.WellFormed MAX)
    (hany : s.entries.any (fun x => x.2.isPersistent) = true)
    (hint : ∀ x ∈ s.entries, x.2.isPersistent = true →
      x.2.settingValueType = INTEGER ∧ 9 ∉ x.1 ∧ 10 ∉ x.1 ∧ 13 ∉ x.1 ∧
      -(2 : Int) ^ 63 ≤ x.2.settingValueData.getInteger ∧
      x.2.settingValueData.getInteger ≤ (2 : Int) ^ 63 - 1)
    (hnul : ∀ x ∈ s.entries, x.2.isPersistent = true → 0 ∉ x.1)
    (hs : (storeSettingsInPersistentStorage target s f crc32).2 = NO_ERROR)
    (hf : (storeSettingsInPersistentStorage target s f crc32).1.AllSucceed) :
    (33 ≤ target.LONG_BITS →
      (loadSettingsFromPersistentStorage MAX target (putSettingValuesAsInt MAX s calls)
        (storeSettingsInPersistentStorage target s f crc32).1).2.2 = NO_ERROR ∧
      (loadSettingsFromPersistentStorage MAX target (putSettingValuesAsInt MAX s calls)
        (storeSettingsInPersistentStorage target s f crc32).1).1.entries.map Prod.fst =
        s.entries.map Prod.fst ∧
      (∀ k e, lookupEntry k s.entries = some e → e.isPersistent = true →
        lookupEntry k (loadSettingsFromPersistentStorage MAX target
          (putSettingValuesAsInt MAX s calls)
          (storeSettingsInPersistentStorage target s f crc32).1).1.entries = some e) ∧
      (∀ k e, lookupEntry k s.entries = some e → e.isPersistent = false →
        lookupEntry k (loadSettingsFromPersistentStorage MAX target
          (putSettingValuesAsInt MAX s calls)
          (storeSettingsInPersistentStorage target s f crc32).1).1.entries =
          lookupEntry k (putSettingValuesAsInt MAX s calls).entries ∧
        ∃ e', lookupEntry k (putSettingValuesAsInt MAX s calls).entries = some e' ∧
          e'.settingValueType = e.settingValueType ∧
          e'.settingDefaultValueData = e.settingDefaultValueData ∧
          e'.settingPermissions = e.settingPermissions)) ∧
    (target.LONG_BITS = 32 →
      2 ^ 31 ≤ CRC.Calculate (persistedData target s.entries) none →
      (loadSettingsFromPersistentStorage MAX target (putSettingValuesAsInt MAX s calls)
        (storeSettingsInPersistentStorage target s f crc32).1).2.2 =
        SETTINGS_FILESYSTEM_ERROR ∧
      (loadSettingsFromPersistentStorage MAX target (putSettingValuesAsInt MAX s calls)
        (storeSettingsInPersistentStorage target s f crc32).1).1 =
        putSettingValuesAsInt MAX s calls) := by
  obtain ⟨hkept, hkeys⟩ := putSettingValuesAsInt_kept MAX calls s
  have hfi : ∀ x ∈ s.entries, x.2.isPersistent = true →
      formattedValue target x.2 = formatInt x.2.settingValueData.getInteger :=
    fun x hx hp => formattedValue_integer target x.2 (hint x hx hp).1
  refine ⟨?_, ?_⟩
  · intro hlong
    obtain ⟨r1, r2, r3, r4⟩ := load_stored_restores MAX target s
      (putSettingValuesAsInt MAX s calls) f crc32 hw hany
      (fun x hx hp => ⟨(hint x hx hp).2.1, (hint x hx hp).2.2.1, (hint x hx hp).2.2.2.1,
        readsBack_integer target x.2 (hint x hx hp).1 (hw.2 x hx).2.2 (hint x hx hp).2.2.2.2.1
          (by have := (hint x hx hp).2.2.2.2.2; omega)⟩)
      (fun x hx hp => ⟨hnul x hx hp, by
        rw [hfi x hx hp]
        exact formatInt_not_mem _ 0 (by decide) (by decide)⟩) hlong hs hf
      (fun x hx _ => by
        obtain ⟨e', h1, h2, _, _⟩ := hkept x.1 x.2 (lookupEntry_of_mem s.entries hw.1 x hx)
        exact ⟨e', h1, h2⟩)
    refine ⟨r1, r2.trans hkeys, ?_, ?_⟩
    · intro k e hk hp
      have hmem := lookupEntry_mem k e s.entries hk
      obtain ⟨e', h1, h2⟩ := r4 (k, e) hmem hp
      obtain ⟨e2, g1, g2, g3, g4⟩ := hkept k e hk
      simp only at h1 h2
      rw [g1] at h1
      cases h1
      rw [h2]
      obtain ⟨p, t, dv, df⟩ := e
      obtain ⟨p2, t2, dv2, df2⟩ := e'
      simp only at g2 g3 g4
      subst g2 g3 g4
      rfl
    · intro k e hk hp
      exact ⟨r3 k (not_mem_persistent_keys MAX s k e hw hk hp), hkept k e hk⟩
  · intro hl hbig
    have hc := store_content_of_any target s f crc32 hs hany
    have h13 : 13 ∉ persistedData target s.entries :=
      not_mem_persistedData target s.entries 13 (by decide) (by decide) (by decide)
        (fun x hx hp => ⟨(hint x hx hp).2.2.2.1, by
          rw [hfi x hx hp]
          exact formatInt_not_mem _ 13 (by decide) (by decide)⟩)
    have hv : (validateChecksum target
        (storeSettingsInPersistentStorage target s f crc32).1).2 =
        SETTINGS_FILESYSTEM_ERROR := by
      rw [validateChecksum_data_trailer target _ _ _ hf hc h13
        (persistedData_end target s.entries), if_neg]
      rintro ⟨_, h2⟩
      rw [trailerNumber_of_long_32 target _ hl
        (crc_calculate_lt (persistedData target s.entries))] at h2
      omega
    have hload := load_of_validate_error MAX target (putSettingValuesAsInt MAX s calls) _ hv
    rw [hload]
    exact ⟨rfl, rfl⟩

set_option maxRecDepth 100000 in
/-- C25 at the failing input and at an input that is restored. Where `long`
has 32 bits: "net.timeout" (SYSTEM, 45) is stored, the checksum of its data
line is 3023842618, then 1 is put; the load returns SETTINGS_FILESYSTEM_ERROR
and the value stays 1. Where `long` has 64 bits: "a" (SYSTEM, 45) and the
VOLATILE "v" are stored, then 1 is put to "a" and 9 to "v"; after the load "a"
holds 45 again. -/
theorem store_load_restores_snapshot_witness :
    (loadSettingsFromPersistentStorage 32 ⟨32, fun d => formatNat d.bits, fun t => (⟨0⟩, t)⟩
      (putSettingValuesAsInt 32
        ⟨[(bytes "net.timeout", ⟨1, INTEGER, .integer 45, .integer 30⟩)]⟩
        [(some (bytes "net.timeout"), 1)])
      (storeSettingsInPersistentStorage ⟨32, fun d => formatNat d.bits, fun t => (⟨0⟩, t)⟩
        ⟨[(bytes "net.timeout", ⟨1, INTEGER, .integer 45, .integer 30⟩)]⟩
        ⟨[], [], []⟩ 0).1).2.2 = SETTINGS_FILESYSTEM_ERROR ∧
    (loadSettingsFromPersistentStorage 32 ⟨32, fun d => formatNat d.bits, fun t => (⟨0⟩, t)⟩
      (putSettingValuesAsInt 32
        ⟨[(bytes "net.timeout", ⟨1, INTEGER, .integer 45, .integer 30⟩)]⟩
        [(some (bytes "net.timeout"), 1)])
      (storeSettingsInPersistentStorage ⟨32, fun d => formatNat d.bits, fun t => (⟨0⟩, t)⟩
        ⟨[(bytes "net.timeout", ⟨1, INTEGER, .integer 45, .integer 30⟩)]⟩
        ⟨[], [], []⟩ 0).1).1 =
      ⟨[(bytes "net.timeout", ⟨1, INTEGER, .integer 1, .integer 30⟩)]⟩ ∧
    lookupEntry (bytes "a")
      (loadSettingsFromPersistentStorage 32 ⟨64, fun d => formatNat d.bits, fun t => (⟨0⟩, t)⟩
        (putSettingValuesAsInt 32
          ⟨[(bytes "a", ⟨1, INTEGER, .integer 45, .integer 30⟩),
            (bytes "v", ⟨8, INTEGER, .integer 7, .integer 7⟩)]⟩
          [(some (bytes "a"), 1), (some (bytes "v"), 9)])
        (storeSettingsInPersistentStorage ⟨64, fun d => formatNat d.bits, fun t => (⟨0⟩, t)⟩
          ⟨[(bytes "a", ⟨1, INTEGER, .integer 45, .integer 30⟩),
            (bytes "v", ⟨8, INTEGER, .integer 7, .integer 7⟩)]⟩
          ⟨[], [], []⟩ 0).1).1.entries = some ⟨1, INTEGER, .integer 45, .integer 30⟩ :=
  ⟨((store_load_restores_snapshot 32 ⟨32, fun d => formatNat d.bits, fun t => (⟨0⟩, t)⟩
      ⟨[(bytes "net.timeout", ⟨1, INTEGER, .integer 45, .integer 30⟩)]⟩ ⟨[], [], []⟩ 0
      [(some (bytes "net.timeout"), 1)] (by decide) (by decide) (by decide) (by decide)
      (by decide) (by decide)).2 rfl (by decide)).1,
    ((store_load_restores_snapshot 32 ⟨32, fun d => formatNat d.bits, fun t => (⟨0⟩, t)⟩
      ⟨[(bytes "net.timeout", ⟨1, INTEGER, .integer 45, .integer 30⟩)]⟩ ⟨[], [], []⟩ 0
      [(some (bytes "net.timeout"), 1)] (by decide) (by decide) (by decide) (by decide)
      (by decide) (by decide)).2 rfl (by decide)).2.trans (by decide),
    ((store_load_restores_snapshot 32 ⟨64, fun d => formatNat d.bits, fun t => (⟨0⟩, t)⟩
      ⟨[(bytes "a", ⟨1, INTEGER, .integer 45, .integer 30⟩),
        (bytes "v", ⟨8, INTEGER, .integer 7, .integer 7⟩)]⟩ ⟨[], [], []⟩ 0
      [(some (bytes "a"), 1), (some (bytes "v"), 9)] (by decide) (by decide) (by decide)
      (by decide) (by decide) (by decide)).1 (by decide)).2.2.1 (bytes "a")
      ⟨1, INTEGER, .integer 45, .integer 30⟩ (by decide) (by decide)⟩

end SettingsStorage

/-! ## Lemmas on `strncat` and the permission string -/

theorem getElem?_storeBytes_range (buf : List Nat) (L : Nat) (g : Nat → Nat) (m j : Nat) :
    (storeBytes buf ((List.range m).map (fun i => (L + i, g i))))[j]? =
      if L ≤ j ∧ j < L + m ∧ j < buf.length then some (g (j - L)) else buf[j]? := by
  induction m with
  | zero =>
    rw [if_neg (by omega)]
    rfl
  | succ m ih =>
    rw [List.range_succ, List.map_append, storeBytes_append]
    simp only [List.map_cons, List.map_nil, storeBytes, List.foldl_cons, List.foldl_nil] at ih ⊢
    rw [List.getElem?_set]
    have hl := length_storeBytes ((List.range m).map (fun i => (L + i, g i))) buf
    simp only [storeBytes] at hl
    by_cases hj : L + m = j
    · subst hj
      rw [if_pos rfl, hl]
      by_cases hb : L + m < buf.length
      · rw [if_pos hb, if_pos ⟨by omega, by omega, hb⟩]
        simp
      · rw [if_neg hb, if_neg (fun h => hb h.2.2)]
        exact (List.getElem?_eq_none (by omega)).symm
    · rw [if_neg hj, ih]
      by_cases hc : L ≤ j ∧ j < L + m ∧ j < buf.length
      · rw [if_pos hc, if_pos ⟨hc.1, by omega, hc.2.2⟩]
      · rw [if_neg hc, if_neg (fun h => hc ⟨h.1, by omega, h.2.2⟩)]

theorem strlenCells_of_take (buf str : List Nat) (h : buf.take (str.length + 1) = str ++ [0])
    (h0 : 0 ∉ str) : strlenCells buf = str.length := by
  have hb : buf = str ++ 0 :: buf.drop (str.length + 1) := by
    conv_lhs => rw [← List.take_append_drop (str.length + 1) buf, h]
    simp
  rw [hb]
  unfold strlenCells
  rw [List.takeWhile_append_of_pos, List.takeWhile_cons]
  · simp
  · intro x hx
    have : x ≠ 0 := fun hx0 => h0 (hx0 ▸ hx)
    simp [this]

theorem strncat_of_take (buf str src : List Nat) (n : Nat)
    (h : buf.take (str.length + 1) = str ++ [0]) (h0 : 0 ∉ str) (hm : src.length ≤ n)
    (hroom : str.length + src.length < buf.length) :
    strncat buf src n =
        (List.range src.length).map (fun i => (str.length + i, src.getD i 0)) ++
          [(str.length + src.length, 0)] ∧
      (storeBytes buf (strncat buf src n)).take (str.length + src.length + 1) =
        str ++ src ++ [0] ∧
      (storeBytes buf (strncat buf src n)).length = buf.length := by
  have hs : strncat buf src n =
      (List.range src.length).map (fun i => (str.length + i, src.getD i 0)) ++
        [(str.length + src.length, 0)] := by
    unfold strncat
    rw [strlenCells_of_take buf str h h0, Nat.min_eq_right hm]
  refine ⟨hs, ?_, length_storeBytes _ _⟩
  rw [hs, storeBytes_append]
  apply List.ext_getElem?
  intro j
  rw [List.getElem?_take]
  have hl := length_storeBytes
    ((List.range src.length).map (fun i => (str.length + i, src.getD i 0))) buf
  have hP := getElem?_storeBytes_range buf str.length (fun i => src.getD i 0) src.length j
  simp only [storeBytes, List.foldl_cons, List.foldl_nil] at hl hP ⊢
  by_cases hj : j < str.length + src.length + 1
  · rw [if_pos hj, List.getElem?_set]
    by_cases hje : str.length + src.length = j
    · subst hje
      rw [if_pos rfl, hl, if_pos hroom, List.getElem?_append_right (by simp)]
      simp
    · rw [if_neg hje, hP]
      by_cases hj2 : str.length ≤ j
      · rw [if_pos ⟨hj2, by omega, by omega⟩, List.append_assoc,
          List.getElem?_append_right hj2, List.getElem?_append_left (by omega)]
        simp [List.getD_eq_getElem?_getD]
        rw [List.getElem?_eq_getElem (by omega)]
        rfl
      · rw [if_neg (fun hh => hj2 hh.1), List.append_assoc,
          List.getElem?_append_left (by omega)]
        have := congrArg (fun l => l[j]?) h
        simp only [List.getElem?_take] at this
        rw [if_pos (by omega), List.getElem?_append_left (by omega)] at this
        exact this
  · rw [if_neg hj]
    symm
    apply List.getElem?_eq_none
    simp
    omega

theorem take_storeBytes_strncpy (cells src : List Nat) (n : Nat) (hlen : src.length < n)
    (hbuf : n ≤ cells.length) :
    (storeBytes cells (strncpy src n)).take (src.length + 1) = src ++ [0] := by
  apply List.ext_getElem?
  intro j
  rw [List.getElem?_take, getElem?_storeBytes_strncpy]
  by_cases hj : j < src.length + 1
  · rw [if_pos hj, if_pos ⟨by omega, by omega⟩]
    by_cases hj2 : j < src.length
    · rw [List.getElem?_append_left hj2]
      simp [List.getD_eq_getElem?_getD, List.getElem?_eq_getElem hj2]
    · have : j = src.length := by omega
      subst this
      simp [List.getD_eq_getElem?_getD]
  · rw [if_neg hj]
    symm
    apply List.getElem?_eq_none
    simp
    omega

theorem permission_stores (cells a b c d : List Nat) (n : Nat) (hn : 33 ≤ n)
    (hcells : n ≤ cells.length) (ha : a.length = 9) (hb : b.length = 8) (hc : c.length = 7)
    (hd : d.length = 8) (za : 0 ∉ a) (zb : 0 ∉ b) (zc : 0 ∉ c) :
    (∀ st ∈ strncpy a n ++
        strncat (storeBytes cells (strncpy a n)) b n ++
        strncat (storeBytes (storeBytes cells (strncpy a n))
          (strncat (storeBytes cells (strncpy a n)) b n)) c n ++
        strncat (storeBytes (storeBytes (storeBytes cells (strncpy a n))
          (strncat (storeBytes cells (strncpy a n)) b n))
          (strncat (storeBytes (storeBytes cells (strncpy a n))
            (strncat (storeBytes cells (strncpy a n)) b n)) c n)) d n, st.1 < n) ∧
    (storeBytes cells (strncpy a n ++
        strncat (storeBytes cells (strncpy a n)) b n ++
        strncat (storeBytes (storeBytes cells (strncpy a n))
          (strncat (storeBytes cells (strncpy a n)) b n)) c n ++
        strncat (storeBytes (storeBytes (storeBytes cells (strncpy a n))
          (strncat (storeBytes cells (strncpy a n)) b n))
          (strncat (storeBytes (storeBytes cells (strncpy a n))
            (strncat (storeBytes cells (strncpy a n)) b n)) c n)) d n)).take 33 =
      a ++ b ++ c ++ d ++ [0] := by
  rw [storeBytes_append, storeBytes_append, storeBytes_append]
  have t1 := take_storeBytes_strncpy cells a n (by omega) hcells
  have l1 := length_storeBytes (strncpy a n) cells
  generalize storeBytes cells (strncpy a n) = c1 at t1 l1 ⊢
  obtain ⟨s2, t2, l2⟩ := strncat_of_take c1 a b n t1 za (by omega) (by omega)
  generalize hst2 : strncat c1 b n = st2 at s2 t2 l2 ⊢
  generalize hc2 : storeBytes c1 st2 = c2 at t2 l2 ⊢
  have zab : 0 ∉ a ++ b := by
    intro h
    rcases List.mem_append.mp h with h | h
    · exact za h
    · exact zb h
  have t2' : c2.take ((a ++ b).length + 1) = (a ++ b) ++ [0] := by
    rw [List.length_append]
    exact t2
  obtain ⟨s3, t3, l3⟩ := strncat_of_take c2 (a ++ b) c n t2' zab (by omega)
    (by rw [List.length_append]; omega)
  generalize hst3 : strncat c2 c n = st3 at s3 t3 l3 ⊢
  generalize hc3 : storeBytes c2 st3 = c3 at t3 l3 ⊢
  have zabc : 0 ∉ a ++ b ++ c := by
    intro h
    rcases List.mem_append.mp h with h | h
    · exact zab h
    · exact zc h
  have t3' : c3.take ((a ++ b ++ c).length + 1) = (a ++ b ++ c) ++ [0] := by
    rw [List.length_append (a ++ b)]
    exact t3
  obtain ⟨s4, t4, l4⟩ := strncat_of_take c3 (a ++ b ++ c) d n t3' zabc (by omega)
    (by rw [List.length_append, List.length_append]; omega)
  generalize hst4 : strncat c3 d n = st4 at s4 t4 l4 ⊢
  constructor
  · intro st hst
    simp only [List.mem_append] at hst
    rcases hst with ((hst | hst) | hst) | hst
    · simp only [strncpy, List.mem_map, List.mem_range] at hst
      obtain ⟨i, hi, rfl⟩ := hst
      exact hi
    · rw [s2] at hst
      simp only [List.mem_append, List.mem_map, List.mem_range, List.mem_singleton] at hst
      rcases hst with ⟨i, hi, rfl⟩ | rfl
      · simp only; omega
      · simp only; omega
    · rw [s3] at hst
      simp only [List.mem_append, List.mem_map, List.mem_range, List.mem_singleton,
        List.length_append] at hst
      rcases hst with ⟨i, hi, rfl⟩ | rfl
      · simp only; omega
      · simp only; omega
    · rw [s4] at hst
      simp only [List.mem_append, List.mem_map, List.mem_range, List.mem_singleton,
        List.length_append] at hst
      rcases hst with ⟨i, hi, rfl⟩ | rfl
      · simp only; omega
      · simp only; omega
  · have h33 : (a ++ b ++ c).length + d.length + 1 = 33 := by
      simp only [List.length_append]
      omega
    rw [h33] at t4
    exact t4

theorem permissionDisplay_shape (p : SettingPermissions_t) :
    (permissionDisplay p).length = 32 ∧ 0 ∉ permissionDisplay p ∧
      ((permissionDisplay p).drop 6).take 3 = bytes " | " ∧
      ((permissionDisplay p).drop 14).take 3 = bytes " | " ∧
      ((permissionDisplay p).drop 21).take 3 = bytes " | " := by
  unfold permissionDisplay
  by_cases h1 : p &&& SettingPermissions_t.SYSTEM ≠ 0 <;>
  by_cases h2 : p &&& SettingPermissions_t.ADMIN ≠ 0 <;>
  by_cases h3 : p &&& SettingPermissions_t.USER ≠ 0 <;>
  by_cases h4 : p &&& SettingPermissions_t.VOLATILE ≠ 0 <;>
  (try simp only [if_pos h1]) <;> (try simp only [if_neg h1]) <;>
  (try simp only [if_pos h2]) <;> (try simp only [if_neg h2]) <;>
  (try simp only [if_pos h3]) <;> (try simp only [if_neg h3]) <;>
  (try simp only [if_pos h4]) <;> (try simp only [if_neg h4]) <;> decide

/-- C23 (permission display helper). With `PERMISSION_STRING_SIZE` at least
33 (the 32 characters and the terminating NUL): for every valid permission
mask and every buffer of at least `permissionStringSize` bytes, itself at
least `PERMISSION_STRING_SIZE`, `settingPermissionToString` returns the
buffer, every store it made is inside the buffer, and the buffer holds the
32-character string obtained from "SYSTEM | ADMIN | USER | VOLATILE" by
replacing the name of each absent flag by as many spaces, followed by a NUL;
the string has 32 characters for every mask, with the separators at the same
positions. The function returns null for a null buffer, for a size below
`PERMISSION_STRING_SIZE` and for an invalid mask. -/
theorem permission_string (PERMISSION_STRING_SIZE : Nat) (p : SettingPermissions_t)
    (cells : List Nat) (n : Nat) (hsize : 33 ≤ PERMISSION_STRING_SIZE) :
    (validatePermissions p = true → PERMISSION_STRING_SIZE ≤ n → n ≤ cells.length →
      ∃ stores, settingPermissionToString PERMISSION_STRING_SIZE p (some cells) n =
          some stores ∧
        (∀ st ∈ stores, st.1 < n) ∧
        (storeBytes cells stores).take 33 = permissionDisplay p ++ [0]) ∧
    ((permissionDisplay p).length = 32 ∧ 0 ∉ permissionDisplay p ∧
      ((permissionDisplay p).drop 6).take 3 = bytes " | " ∧
      ((permissionDisplay p).drop 14).take 3 = bytes " | " ∧
      ((permissionDisplay p).drop 21).take 3 = bytes " | ") ∧
    settingPermissionToString PERMISSION_STRING_SIZE p none n = none ∧
    (n < PERMISSION_STRING_SIZE →
      settingPermissionToString PERMISSION_STRING_SIZE p (some cells) n = none) ∧
    (validatePermissions p = false →
      settingPermissionToString PERMISSION_STRING_SIZE p (some cells) n = none) := by
  refine ⟨?_, permissionDisplay_shape p, rfl, ?_, ?_⟩
  · intro hp hn hcells
    have hcond : ¬ (n < PERMISSION_STRING_SIZE ∨ validatePermissions p = false) := by
      rw [hp]
      simp
      omega
    unfold settingPermissionToString permissionDisplay
    simp only [if_neg hcond]
    by_cases h1 : p &&& SettingPermissions_t.SYSTEM ≠ 0 <;>
    by_cases h2 : p &&& SettingPermissions_t.ADMIN ≠ 0 <;>
    by_cases h3 : p &&& SettingPermissions_t.USER ≠ 0 <;>
    by_cases h4 : p &&& SettingPermissions_t.VOLATILE ≠ 0 <;>
    (try simp only [if_pos h1]) <;> (try simp only [if_neg h1]) <;>
    (try simp only [if_pos h2]) <;> (try simp only [if_neg h2]) <;>
    (try simp only [if_pos h3]) <;> (try simp only [if_neg h3]) <;>
    (try simp only [if_pos h4]) <;> (try simp only [if_neg h4]) <;>
    exact ⟨_, rfl, (permission_stores cells _ _ _ _ n (by omega) hcells (by decide) (by decide)
      (by decide) (by decide) (by decide) (by decide) (by decide)).1,
      (permission_stores cells _ _ _ _ n (by omega) hcells (by decide) (by decide)
      (by decide) (by decide) (by decide) (by decide) (by decide)).2.trans (by decide)⟩
  · intro hn
    simp [settingPermissionToString, hn]
  · intro hp
    simp [settingPermissionToString, hp]

/-- C23 at a concrete input: SYSTEM and USER, a buffer of 33 bytes. -/
theorem permission_string_witness :
    (settingPermissionToString 33 5 (some (List.replicate 33 7)) 33).map
        (fun stores => storeBytes (List.replicate 33 7) stores) =
      some (bytes "SYSTEM |       | USER |         " ++ [0]) ∧
    (permissionDisplay 5).length = 32 :=
  ⟨by decide, (permission_string 33 5 (List.replicate 33 7) 33 (by decide)).2.1.1⟩
